import Mathlib

/-!
# Session lifecycle of the CRM backend

A shallow embedding of `backend/routes/auth.js` (login, refresh, logout),
`backend/models/User.js` (user look-ups) and `backend/jobs/cleanupTokens.js`
(the nightly sweep).  The PostgreSQL tables are lists of rows, every SQL
statement is a function on these lists, and a route handler is a function from
the store and the request to the new store and the reply.

All statements of one request read the same value of the database clock
`NOW()`; that value is the argument `now` of a handler.  Random secrets
(`crypto.randomBytes`) are arguments of the handler that draws them.
-/

namespace FitZone

/-! ## Data model -/

/-- Readings of the database clock, in milliseconds. -/
abbrev Timestamp := Int

/-- The interval `INTERVAL '7 days'` in milliseconds; the cookie `maxAge`
`7 * 24 * 60 * 60 * 1000` of `setRefreshCookie` is the same number. -/
def sevenDays : Int := 7 * 24 * 60 * 60 * 1000

/-- A row of table `users`, with the columns named by the queries. -/
structure UserRow where
  id : String
  username : String
  email : String
  password : String
  role : String
  full_name : Option String
  phone : Option String
  is_active : Bool
  created_at : Timestamp
  created_by : Option String
  deriving DecidableEq, Repr

/-- The columns selected by `findUserById` (the password is not among them). -/
structure UserInfo where
  id : String
  username : String
  email : String
  role : String
  full_name : Option String
  phone : Option String
  is_active : Bool
  created_at : Timestamp
  deriving DecidableEq, Repr

/-- A row of table `refresh_tokens`, with the columns written by the INSERT
statements of `auth.js`. -/
structure RefreshToken where
  user_id : String
  token_hash : String
  ip : Option String
  user_agent : Option String
  expires_at : Timestamp
  deriving DecidableEq, Repr

/-- A row of table `refresh_tokens_revoked`.

Modelled from the spec: the schema file `migration.sql` is not among the
sources.  The INSERT of `auth.js` names `token_hash` and `user_id` only and the
sweep reads `revoked_at`; following the data model of the spec (a record of
hash, owning principal id and revocation timestamp) the column `revoked_at`
holds the clock reading of the insertion. -/
structure RevokedToken where
  token_hash : String
  user_id : String
  revoked_at : Timestamp
  deriving DecidableEq, Repr

/-- The part of the schema (`migration.sql`, not among the sources) that the
handlers depend on and the sources do not fix: whether `refresh_tokens` has a
unique constraint on `token_hash`.  It is a parameter of every handler that
inserts into that table. -/
structure Schema where
  refresh_token_hash_unique : Bool
  deriving DecidableEq, Repr

/-- The store: the three tables read and written by the session code. -/
structure Db where
  users : List UserRow
  refresh_tokens : List RefreshToken
  refresh_tokens_revoked : List RevokedToken
  deriving DecidableEq, Repr

/-- The library functions and the configuration the handlers are closed over:
`hashToken` is SHA-256 in hex, `bcryptCompare` is `bcrypt.compare`, and
`isProduction` is `process.env.NODE_ENV === 'production'`. -/
structure Env where
  hashToken : String → String
  bcryptCompare : String → String → Bool
  isProduction : Bool

/-! ## Replies -/

/-- The content signed into an access token by `generateAccessToken`:
the claims `id`, `email`, `role` and the option `expiresIn`. -/
structure AccessToken where
  id : String
  email : String
  role : String
  expiresIn : String
  deriving DecidableEq, Repr

/-- The `user` object of the login reply. -/
structure UserSummary where
  id : String
  username : String
  email : String
  role : String
  full_name : Option String
  deriving DecidableEq, Repr

/-- The JSON bodies sent by login, refresh and logout. -/
structure Body where
  success : Bool
  error : Option String
  message : Option String
  accessToken : Option AccessToken
  user : Option UserSummary
  deriving DecidableEq, Repr

/-- The options object of `res.cookie` in `setRefreshCookie`. -/
structure CookieOptions where
  httpOnly : Bool
  secure : Bool
  sameSite : String
  maxAge : Int
  deriving DecidableEq, Repr

/-- What a handler did to the cookie `refreshToken`. -/
inductive CookieEffect where
  | untouched
  | set (value : String) (options : CookieOptions)
  | cleared
  deriving DecidableEq, Repr

/-- A reply written with `res.status(..).json(..)`. -/
structure Response where
  status : Nat
  body : Body
  cookie : CookieEffect
  deriving DecidableEq, Repr

/-- The exceptions a handler can raise on the stores of this model. -/
inductive ServerError where
  | uniqueViolation
  | typeError
  deriving DecidableEq, Repr

/-- How a handler ends: it sends a reply, or its `catch` passes the exception
to `next`; the cookie effect made before the exception stays on `res`. -/
inductive Outcome where
  | sent (res : Response)
  | forwarded (err : ServerError) (cookie : CookieEffect)
  deriving DecidableEq, Repr

/-- The result of running a handler: the store it leaves and how it ended. -/
structure Step where
  db : Db
  outcome : Outcome
  deriving DecidableEq, Repr

/-- A login request: the two body fields, each a string or absent, and the
metadata stored with the session. Body fields of another JSON type are covered
by `loginRoute`. -/
structure LoginRequest where
  email : Option String
  password : Option String
  ip : Option String
  userAgent : Option String
  deriving DecidableEq, Repr

/-- A refresh or logout request: the cookie `refreshToken`, a string or absent,
and the metadata stored with the session. A cookie that `cookie-parser` decodes
to another JSON value is covered by `refreshRoute` and `logoutRoute`. -/
structure CookieRequest where
  refreshToken : Option String
  ip : Option String
  userAgent : Option String
  deriving DecidableEq, Repr

/-! ## Helpers of `auth.js` -/

/-- JavaScript truthiness of an optional string: `undefined` and the empty
string are falsy. -/
def truthy : Option String → Option String
  | some s => if s = "" then none else some s
  | none => none

/-- The body `{ success: false, error }`. -/
def errorBody (msg : String) : Body :=
  { success := false, error := some msg, message := none, accessToken := none, user := none }

/-- The arrow function `generateAccessToken`: `jwt.sign` of the claims
`id`, `email`, `role` with `expiresIn: '15m'`. -/
def generateAccessToken (id email role : String) : AccessToken :=
  { id := id, email := email, role := role, expiresIn := "15m" }

/-- The options of `setRefreshCookie`. -/
def refreshCookieOptions (env : Env) : CookieOptions :=
  { httpOnly := true, secure := env.isProduction, sameSite := "strict",
    maxAge := 7 * 24 * 60 * 60 * 1000 }

/-- The arrow function `setRefreshCookie`. -/
def setRefreshCookie (env : Env) (token : String) : CookieEffect :=
  .set token (refreshCookieOptions env)

/-! ## `models/User.js` -/

/-- The query of `findUserByEmail`:
`SELECT * FROM users WHERE email = $1 AND is_active = true`, first row. -/
def findUserByEmail (db : Db) (email : String) : Option UserRow :=
  db.users.find? (fun u => u.email == email && u.is_active)

/-- The projection of `findUserById`. -/
def UserRow.info (u : UserRow) : UserInfo :=
  { id := u.id, username := u.username, email := u.email, role := u.role,
    full_name := u.full_name, phone := u.phone, is_active := u.is_active,
    created_at := u.created_at }

/-- The query of `findUserById`: `SELECT ... FROM users WHERE id = $1`,
first row. -/
def findUserById (db : Db) (id : String) : Option UserInfo :=
  (db.users.find? (fun u => u.id == id)).map UserRow.info

/-! ## SQL statements on the token tables -/

/-- The query
`SELECT * FROM refresh_tokens WHERE token_hash = $1 AND expires_at > NOW()`. -/
def selectActiveByHash (db : Db) (hash : String) (now : Timestamp) : List RefreshToken :=
  db.refresh_tokens.filter (fun r => r.token_hash == hash && decide (r.expires_at > now))

/-- The query `SELECT user_id FROM refresh_tokens_revoked WHERE token_hash = $1`. -/
def selectRevokedByHash (db : Db) (hash : String) : List RevokedToken :=
  db.refresh_tokens_revoked.filter (fun r => r.token_hash == hash)

/-- The statement `DELETE FROM refresh_tokens WHERE user_id = $1`. -/
def deleteTokensOfUser (db : Db) (userId : String) : Db :=
  { db with refresh_tokens := db.refresh_tokens.filter (fun r => !(r.user_id == userId)) }

/-- The statement `DELETE FROM refresh_tokens WHERE token_hash = $1`. -/
def deleteTokensByHash (db : Db) (hash : String) : Db :=
  { db with refresh_tokens := db.refresh_tokens.filter (fun r => !(r.token_hash == hash)) }

/-- The statement `INSERT INTO refresh_tokens (...) VALUES (..., NOW() + INTERVAL '7 days')`.
With a unique constraint on `token_hash` a second row with the same hash is
refused with an exception; without one the row is added. -/
def insertRefreshToken (schema : Schema) (db : Db) (row : RefreshToken) :
    Except ServerError Db :=
  if schema.refresh_token_hash_unique &&
      db.refresh_tokens.any (fun r => r.token_hash == row.token_hash) then
    .error .uniqueViolation
  else
    .ok { db with refresh_tokens := db.refresh_tokens ++ [row] }

/-- The statement
`INSERT INTO refresh_tokens_revoked (token_hash, user_id) VALUES ($1, $2) ON CONFLICT DO NOTHING`.

Modelled from the spec: the schema file `migration.sql` is not among the
sources; by the data model of the spec a duplicate insert of the same hash is
a no-op, so the conflict is on `token_hash`. -/
def insertRevoked (db : Db) (hash userId : String) (now : Timestamp) : Db :=
  if db.refresh_tokens_revoked.any (fun r => r.token_hash == hash) then db
  else { db with refresh_tokens_revoked :=
      db.refresh_tokens_revoked ++ [{ token_hash := hash, user_id := userId, revoked_at := now }] }

/-! ## Route handlers of `auth.js` -/

/-- The body of a successful login. -/
def loginBody (user : UserRow) : Body :=
  { success := true, error := none, message := some "Login successful",
    accessToken := some (generateAccessToken user.id user.email user.role),
    user := some { id := user.id, username := user.username, email := user.email,
                   role := user.role, full_name := user.full_name } }

/-- The handler of `POST /api/auth/login`; `rawRefresh` is the value drawn by
`generateRefreshToken()`. -/
def login (env : Env) (schema : Schema) (now : Timestamp) (rawRefresh : String)
    (db : Db) (req : LoginRequest) : Step :=
  match truthy req.email, truthy req.password with
  | some email, some password =>
    match findUserByEmail db email with
    | none => ⟨db, .sent ⟨401, errorBody "Invalid credentials", .untouched⟩⟩
    | some user =>
      if !env.bcryptCompare password user.password then
        ⟨db, .sent ⟨401, errorBody "Invalid credentials", .untouched⟩⟩
      else if !user.is_active then
        ⟨db, .sent ⟨403, errorBody "Account is inactive. Contact admin.", .untouched⟩⟩
      else
        let hashedRefresh := env.hashToken rawRefresh
        match insertRefreshToken schema db
            { user_id := user.id, token_hash := hashedRefresh, ip := req.ip,
              user_agent := req.userAgent, expires_at := now + sevenDays } with
        | .error e => ⟨db, .forwarded e .untouched⟩
        | .ok db1 => ⟨db1, .sent ⟨200, loginBody user, setRefreshCookie env rawRefresh⟩⟩
  | _, _ => ⟨db, .sent ⟨400, errorBody "Email and password are required", .untouched⟩⟩

/-- The body of a successful refresh. -/
def refreshBody (user : UserInfo) : Body :=
  { success := true, error := none, message := none,
    accessToken := some (generateAccessToken user.id user.email user.role), user := none }

/-- The reply of the reuse branch of refresh. -/
def reuseDetected : Response :=
  ⟨401, errorBody "Token reuse detected. All sessions revoked.", .cleared⟩

/-- The reply of refresh when the hash is in neither table. -/
def invalidOrExpired : Response :=
  ⟨401, errorBody "Invalid or expired refresh token", .untouched⟩

/-- The handler of `POST /api/auth/refresh`; `newRawToken` is the value drawn
by `generateRefreshToken()`.  When `findUserById` finds no row,
`generateAccessToken(undefined)` raises a TypeError after `setRefreshCookie`
has run. -/
def refresh (env : Env) (schema : Schema) (now : Timestamp) (newRawToken : String)
    (db : Db) (req : CookieRequest) : Step :=
  match truthy req.refreshToken with
  | none => ⟨db, .sent ⟨401, errorBody "Refresh token required", .untouched⟩⟩
  | some rawToken =>
    let hashedToken := env.hashToken rawToken
    match (selectActiveByHash db hashedToken now).head? with
    | none =>
      match (selectRevokedByHash db hashedToken).head? with
      | some revoked => ⟨deleteTokensOfUser db revoked.user_id, .sent reuseDetected⟩
      | none => ⟨db, .sent invalidOrExpired⟩
    | some stored =>
      let newHashedToken := env.hashToken newRawToken
      let db1 := insertRevoked db hashedToken stored.user_id now
      let db2 := deleteTokensByHash db1 hashedToken
      match insertRefreshToken schema db2
          { user_id := stored.user_id, token_hash := newHashedToken, ip := req.ip,
            user_agent := req.userAgent, expires_at := now + sevenDays } with
      | .error e => ⟨db2, .forwarded e .untouched⟩
      | .ok db3 =>
        match findUserById db3 stored.user_id with
        | none => ⟨db3, .forwarded .typeError (setRefreshCookie env newRawToken)⟩
        | some user => ⟨db3, .sent ⟨200, refreshBody user, setRefreshCookie env newRawToken⟩⟩

/-- The body of the logout reply. -/
def logoutBody : Body :=
  { success := true, error := none, message := some "Logged out successfully",
    accessToken := none, user := none }

/-- The handler of `POST /api/auth/logout`. -/
def logout (env : Env) (db : Db) (req : CookieRequest) : Step :=
  match truthy req.refreshToken with
  | some rawToken =>
    ⟨deleteTokensByHash db (env.hashToken rawToken), .sent ⟨200, logoutBody, .cleared⟩⟩
  | none => ⟨db, .sent ⟨200, logoutBody, .cleared⟩⟩

/-! ## `jobs/cleanupTokens.js` -/

/-- The two DELETE statements of the cron callback, run at clock reading `now`:
`DELETE FROM refresh_tokens WHERE expires_at < NOW()` and
`DELETE FROM refresh_tokens_revoked WHERE revoked_at < NOW() - INTERVAL '7 days'`. -/
def cleanupTokens (now : Timestamp) (db : Db) : Db :=
  { db with
    refresh_tokens := db.refresh_tokens.filter (fun r => !decide (r.expires_at < now)),
    refresh_tokens_revoked :=
      db.refresh_tokens_revoked.filter (fun r => !decide (r.revoked_at < now - sevenDays)) }


/-! ## Closed forms and sample data used by the proofs -/

/-- The row inserted by a rotation or a login. -/
def sessionRow (userId hash : String) (ip ua : Option String) (now : Timestamp) : RefreshToken :=
  { user_id := userId, token_hash := hash, ip := ip, user_agent := ua,
    expires_at := now + sevenDays }

/-- The store left by a rotation of hash `h` into hash `h'`, in closed form
(`refresh_of_active` proves that refresh computes it). -/
def rotated (db : Db) (h h' : String) (stored : RefreshToken) (ip ua : Option String)
    (now : Timestamp) : Db :=
  { users := db.users,
    refresh_tokens := db.refresh_tokens.filter (fun r => !(r.token_hash == h))
      ++ [sessionRow stored.user_id h' ip ua now],
    refresh_tokens_revoked := (insertRevoked db h stored.user_id now).refresh_tokens_revoked }

/-- The store without the active row `r`. -/
def removeRow (db : Db) (r : RefreshToken) : Db :=
  { db with refresh_tokens := db.refresh_tokens.filter (fun x => decide (x ≠ r)) }

/-- A sample environment: an injective stand-in for the hash and a password
check that compares with a tagged copy of the password. -/
def sampleEnv : Env :=
  { hashToken := fun s => "sha:" ++ s,
    bcryptCompare := fun pw stored => stored == "bcrypt:" ++ pw,
    isProduction := false }

/-- A sample active staff account. -/
def sampleUser : UserRow :=
  { id := "u1", username := "asha", email := "a@x.com", password := "bcrypt:correctpw",
    role := "staff", full_name := some "Asha", phone := none, is_active := true,
    created_at := 0, created_by := some "u0" }

/-- A second sample account, deactivated. -/
def sampleInactiveUser : UserRow :=
  { id := "u2", username := "bo", email := "b@x.com", password := "bcrypt:pw2",
    role := "staff", full_name := none, phone := none, is_active := false,
    created_at := 0, created_by := some "u0" }

/-- A sample store with the two accounts and no sessions. -/
def sampleDb : Db :=
  { users := [sampleUser, sampleInactiveUser], refresh_tokens := [],
    refresh_tokens_revoked := [] }

/-- A sample store in which account `u1` has one session for secret `s0`,
expiring at 1000. -/
def sampleDbSession : Db :=
  { users := [sampleUser, sampleInactiveUser],
    refresh_tokens := [{ user_id := "u1", token_hash := "sha:s0", ip := none,
                         user_agent := none, expires_at := 1000 }],
    refresh_tokens_revoked := [] }

/-- A freshly generated secret, seen through its hash: the hash occurs in
neither token table of the store in which the secret is drawn. -/
def Fresh (db : Db) (hash : String) : Prop :=
  (∀ r ∈ db.refresh_tokens, r.token_hash ≠ hash) ∧
    (∀ e ∈ db.refresh_tokens_revoked, e.token_hash ≠ hash)

/-- A sample store in which secret `s0` of account `u1` has been rotated out
while `u1` and `u2` each hold one other session. -/
def sampleDbReplay : Db :=
  { users := [sampleUser, sampleInactiveUser],
    refresh_tokens :=
      [{ user_id := "u1", token_hash := "sha:t", ip := none, user_agent := none,
         expires_at := 1000 },
       { user_id := "u2", token_hash := "sha:z", ip := none, user_agent := none,
         expires_at := 1000 }],
    refresh_tokens_revoked := [{ token_hash := "sha:s0", user_id := "u1", revoked_at := 5 }] }

/-- A sample store in which the hash of the active secret `s0` of account `u1`
is already in the history, for the same account. -/
def sampleDbBoth : Db :=
  { users := [sampleUser, sampleInactiveUser],
    refresh_tokens :=
      [{ user_id := "u2", token_hash := "sha:z", ip := none, user_agent := none,
         expires_at := 1000 },
       { user_id := "u1", token_hash := "sha:s0", ip := none, user_agent := none,
         expires_at := 1000 }],
    refresh_tokens_revoked :=
      [{ token_hash := "sha:q", user_id := "u2", revoked_at := 3 },
       { token_hash := "sha:s0", user_id := "u1", revoked_at := 5 }] }

/-- A sample store in which secret `s0` of account `u1` is active and in no
history, next to a session of account `u2` for secret `z`. -/
def sampleDbTwo : Db :=
  { users := [sampleUser, sampleInactiveUser],
    refresh_tokens :=
      [{ user_id := "u1", token_hash := "sha:s0", ip := none, user_agent := none,
         expires_at := 1000 },
       { user_id := "u2", token_hash := "sha:z", ip := none, user_agent := none,
         expires_at := 1000 }],
    refresh_tokens_revoked := [{ token_hash := "sha:q", user_id := "u2", revoked_at := 3 }] }

/-! ## `middleware/auth.js` and `GET /api/auth/me` -/

/-- The decoded payload of an access token, which `authenticateToken` stores
in `req.user`; a missing `role` is `none`. -/
structure JwtPayload where
  id : String
  email : String
  role : Option String
  deriving DecidableEq, Repr

/-- The ways `jwt.verify(token, process.env.JWT_SECRET)` ends: it returns the
payload, it throws an error named `TokenExpiredError` (a well-formed, correctly
signed token past its expiry), or it throws any other error (bad signature,
malformed token). -/
inductive JwtVerdict where
  | valid (payload : JwtPayload)
  | expired
  | invalid
  deriving DecidableEq, Repr

/-- The pieces of `s.split(' ')` for the characters `cs` still to read, `cur`
being the piece under construction, reversed. -/
def splitSpaceAux : List Char → List Char → List String
  | [], cur => [String.mk cur.reverse]
  | c :: cs, cur =>
    if c = ' ' then String.mk cur.reverse :: splitSpaceAux cs []
    else splitSpaceAux cs (c :: cur)

/-- JavaScript `s.split(' ')`: the pieces between single spaces, empty pieces
included. -/
def jsSplitSpace (s : String) : List String :=
  splitSpaceAux s.data []

/-- The expression `authHeader?.split(' ')[1]` of `authenticateToken`, with the
test `!token` applied: the second piece of the header when it is there and not
empty. -/
def bearerToken (authorization : Option String) : Option String :=
  truthy (authorization.bind (fun h => (jsSplitSpace h)[1]?))

/-- How a middleware ends: it calls `next()` with `req.user` set, or it sends a
reply itself. -/
inductive AuthResult where
  | next (user : JwtPayload)
  | rejected (res : Response)
  deriving DecidableEq, Repr

/-- The middleware `authenticateToken`; `jwtVerify` is `jwt.verify` with the
server secret at the time of the request, and `authorization` is
`req.headers['authorization']`. -/
def authenticateToken (jwtVerify : String → JwtVerdict) (authorization : Option String) :
    AuthResult :=
  match bearerToken authorization with
  | none => .rejected ⟨401, errorBody "Access token required", .untouched⟩
  | some token =>
    match jwtVerify token with
    | .valid payload => .next payload
    | .expired => .rejected ⟨401, errorBody "Token expired", .untouched⟩
    | .invalid => .rejected ⟨403, errorBody "Invalid token", .untouched⟩

/-- A reply `res.status(status).json({ success, error, message, user })` of a
handler whose `user` object has type `α`; a field that is not sent is `none`. -/
structure Reply (α : Type) where
  status : Nat
  success : Bool
  error : Option String
  message : Option String
  user : Option α
  deriving DecidableEq, Repr

/-- The reply of a route guarded by middleware: a middleware replied, or the
handler ran. -/
inductive Routed (α : Type) where
  | denied (res : Response)
  | handled (out : α)
  deriving DecidableEq, Repr

/-- The status of the reply of a guarded route. -/
def routedStatus {α : Type} : Routed (Reply α) → Nat
  | .denied res => res.status
  | .handled out => out.status

/-- The handler of `GET /api/auth/me`, run with `req.user`. -/
def me (db : Db) (user : JwtPayload) : Reply UserInfo :=
  match findUserById db user.id with
  | none => { status := 404, success := false, error := some "User not found",
              message := none, user := none }
  | some u => { status := 200, success := true, error := none, message := none,
                user := some u }

/-- The route `GET /api/auth/me`: `authenticateToken`, then the handler. -/
def getMe (jwtVerify : String → JwtVerdict) (db : Db) (authorization : Option String) :
    Routed (Reply UserInfo) :=
  match authenticateToken jwtVerify authorization with
  | .rejected res => .denied res
  | .next user => .handled (me db user)

/-- A sample verifier: `good` is a valid token of account `u1`, `ghost` a valid
token of an account that is not in the store, `old` an expired token, and every
other string fails verification. -/
def sampleVerify (token : String) : JwtVerdict :=
  if token = "good" then .valid { id := "u1", email := "a@x.com", role := some "staff" }
  else if token = "ghost" then .valid { id := "u9", email := "g@x.com", role := some "staff" }
  else if token = "old" then .expired
  else .invalid

/-! ## Staff administration: `POST /register` and `PATCH /staff/:id/deactivate` -/

/-- How a handler of a guarded route ends: it sends a reply, or its `catch`
passes the exception to `next`. -/
inductive Handled (α : Type) where
  | sent (reply : Reply α)
  | forwarded (err : ServerError)
  deriving DecidableEq, Repr

/-- The result of running a handler of a guarded route. -/
structure AdminStep (α : Type) where
  db : Db
  outcome : Handled α
  deriving DecidableEq, Repr

/-- The character class `\s` of JavaScript regular expressions. -/
def jsWhitespace (c : Char) : Bool :=
  c.toNat = 0x09 || c.toNat = 0x0A || c.toNat = 0x0B || c.toNat = 0x0C || c.toNat = 0x0D ||
  c.toNat = 0x20 || c.toNat = 0xA0 || c.toNat = 0x1680 ||
  (0x2000 ≤ c.toNat && c.toNat ≤ 0x200A) ||
  c.toNat = 0x2028 || c.toNat = 0x2029 || c.toNat = 0x202F || c.toNat = 0x205F ||
  c.toNat = 0x3000 || c.toNat = 0xFEFF

/-- The character class `[^\s@]`. -/
def emailChar (c : Char) : Bool :=
  !jsWhitespace c && !(c == '@')

/-- The test `/^[^\s@]+@[^\s@]+\.[^\s@]+$/.test(email)`: a non-empty run of
`[^\s@]`, an `@`, and a run of `[^\s@]` up to the end that has a dot which is
neither its first nor its last character. -/
def emailFormatOk (email : String) : Bool :=
  match email.data.span emailChar with
  | (loc, '@' :: dom) =>
    !loc.isEmpty && dom.all emailChar && (dom.drop 1).dropLast.contains '.'
  | _ => false

/-- JavaScript `s.length`: the number of UTF-16 code units. -/
def jsLength (s : String) : Nat :=
  (s.data.map (fun c => if c.toNat < 0x10000 then 1 else 2)).sum

/-- The fields read from `req.body` by the register handler. -/
structure RegisterRequest where
  username : Option String
  email : Option String
  password : Option String
  full_name : Option String
  role : Option String
  deriving DecidableEq, Repr

/-- The values the database fills in for a new row of `users`: the generated
`id` and the defaults of `is_active` and `created_at` (the schema file
`migration.sql` is not among the sources, so they are parameters). -/
structure UserDefaults where
  id : String
  is_active : Bool
  created_at : Timestamp
  deriving DecidableEq, Repr

/-- The `user` object of the register reply. -/
structure CreatedUser where
  id : String
  username : String
  email : String
  role : String
  deriving DecidableEq, Repr

/-- The function `createUser` of `models/User.js`: the INSERT into `users`.
`conflict` tells whether the new row violates a constraint of the table (the
schema file is not among the sources); a violation raises an exception and
inserts nothing. -/
def createUser (conflict : List UserRow → UserRow → Bool) (gen : UserDefaults) (db : Db)
    (username email hashedPassword role : String) (fullName phone createdBy : Option String) :
    Except ServerError (Db × UserRow) :=
  let row : UserRow :=
    { id := gen.id, username := username, email := email, password := hashedPassword,
      role := role, full_name := fullName, phone := phone, is_active := gen.is_active,
      created_at := gen.created_at, created_by := createdBy }
  if conflict db.users row then .error .uniqueViolation
  else .ok ({ db with users := db.users ++ [row] }, row)

/-- An error reply of a guarded route. -/
def adminError {α : Type} (status : Nat) (msg : String) : Handled α :=
  .sent { status := status, success := false, error := some msg, message := none,
          user := none }

/-- The handler of `POST /api/auth/register`, run with `req.user` after the two
middlewares; `hashedPassword` is the value of `bcrypt.hash(password, 12)`. -/
def register (conflict : List UserRow → UserRow → Bool) (gen : UserDefaults)
    (hashedPassword : String) (db : Db) (reqUser : JwtPayload) (req : RegisterRequest) :
    AdminStep CreatedUser :=
  let role := req.role.getD "staff"
  match truthy req.username, truthy req.email, truthy req.password with
  | some username, some email, some password =>
    if !emailFormatOk email then ⟨db, adminError 400 "Invalid email format"⟩
    else if jsLength password < 8 then
      ⟨db, adminError 400 "Password must be at least 8 characters"⟩
    else if role = "admin" then
      ⟨db, adminError 400 "An admin account already exists. Only one admin is allowed."⟩
    else if role ≠ "staff" then
      ⟨db, adminError 400 "Invalid role. Only staff accounts can be created."⟩
    else
      match findUserByEmail db email with
      | some _ => ⟨db, adminError 409 "Email already registered"⟩
      | none =>
        match createUser conflict gen db username email hashedPassword "staff"
            req.full_name none (some reqUser.id) with
        | .error e => ⟨db, .forwarded e⟩
        | .ok (db1, user) =>
          ⟨db1, .sent { status := 201, success := true, error := none,
                        message := some "Staff account created successfully",
                        user := some { id := user.id, username := user.username,
                                       email := user.email, role := user.role } }⟩
  | _, _, _ => ⟨db, adminError 400 "Username, email and password are required"⟩

/-- The `user` object of the deactivate reply: the columns of
`RETURNING id, username, is_active`. -/
structure DeactivatedUser where
  id : String
  username : String
  is_active : Bool
  deriving DecidableEq, Repr

/-- The statement `UPDATE users SET is_active = false WHERE id = $1`. -/
def setInactive (db : Db) (id : String) : Db :=
  { db with users := db.users.map (fun u => if u.id == id then { u with is_active := false }
                                            else u) }

/-- The handler of `PATCH /api/auth/staff/:id/deactivate`, run with `req.user`
after the two middlewares; `id` is `req.params.id`. -/
def deactivate (db : Db) (reqUser : JwtPayload) (id : String) : AdminStep DeactivatedUser :=
  if id = reqUser.id then ⟨db, adminError 400 "Cannot deactivate your own account"⟩
  else
    match db.users.find? (fun u => u.id == id) with
    | none => ⟨db, adminError 404 "Staff member not found"⟩
    | some target =>
      if target.role = "admin" then
        ⟨db, adminError 400 "Cannot deactivate the admin account"⟩
      else
        let db1 := setInactive db id
        let rows := (db1.users.filter (fun u => u.id == id)).map
          (fun u => ({ id := u.id, username := u.username, is_active := u.is_active } :
            DeactivatedUser))
        let db2 := deleteTokensOfUser db1 id
        ⟨db2, .sent { status := 200, success := true, error := none,
                      message := some "Staff member deactivated", user := rows.head? }⟩

/-- A sample admin account. -/
def sampleAdmin : UserRow :=
  { id := "u0", username := "root", email := "root@x.com", password := "bcrypt:adminpw",
    role := "admin", full_name := none, phone := none, is_active := true,
    created_at := 0, created_by := none }

/-- The payload of an access token of the sample admin. -/
def sampleAdminPayload : JwtPayload :=
  { id := "u0", email := "root@x.com", role := some "admin" }

/-- A sample store with the admin, an active staff account holding two
sessions, and a session of the admin. -/
def sampleDbStaff : Db :=
  { users := [sampleAdmin, sampleUser],
    refresh_tokens :=
      [{ user_id := "u1", token_hash := "sha:s0", ip := none, user_agent := none,
         expires_at := 1000 },
       { user_id := "u0", token_hash := "sha:adm", ip := none, user_agent := none,
         expires_at := 1000 },
       { user_id := "u1", token_hash := "sha:s5", ip := none, user_agent := none,
         expires_at := 1000 }],
    refresh_tokens_revoked := [] }

/-! ## The refresh handler statement by statement

The handler of `POST /refresh` awaits one `pool.query` after the other and
opens no transaction, so the statements of two requests can interleave.  Here
the handler is cut at its statements; `refreshSteps_eq_refresh` shows that
running the pieces of one request without interruption gives `refresh`. -/

/-- The arguments of one run of the refresh handler: the clock reading, the
secret it draws and the request. -/
structure RefreshCall where
  now : Timestamp
  newRawToken : String
  req : CookieRequest
  deriving DecidableEq, Repr

/-- The point a run of the refresh handler has reached: the statement it is
about to send (with the values it holds), or the end.
`start` precedes the SELECT on `refresh_tokens`, `found` the INSERT into the
history, `revokedInserted` the DELETE of the old row, `oldDeleted` the INSERT
of the new row, `newInserted` the query of `findUserById`, `missing` the SELECT
on the history and `reuse` the DELETE of the owner's rows. -/
inductive RefreshPc where
  | start
  | found (hashedToken : String) (stored : RefreshToken)
  | revokedInserted (hashedToken : String) (stored : RefreshToken)
  | oldDeleted (stored : RefreshToken)
  | newInserted (stored : RefreshToken)
  | missing (hashedToken : String)
  | reuse (userId : String)
  | done (outcome : Outcome)
  deriving DecidableEq, Repr

/-- One statement of a run of the refresh handler on the current store. -/
def refreshStep (env : Env) (schema : Schema) (call : RefreshCall) (db : Db) :
    RefreshPc → Db × RefreshPc
  | .start =>
    match truthy call.req.refreshToken with
    | none => (db, .done (.sent ⟨401, errorBody "Refresh token required", .untouched⟩))
    | some rawToken =>
      match (selectActiveByHash db (env.hashToken rawToken) call.now).head? with
      | none => (db, .missing (env.hashToken rawToken))
      | some stored => (db, .found (env.hashToken rawToken) stored)
  | .found hashedToken stored =>
    (insertRevoked db hashedToken stored.user_id call.now, .revokedInserted hashedToken stored)
  | .revokedInserted hashedToken stored =>
    (deleteTokensByHash db hashedToken, .oldDeleted stored)
  | .oldDeleted stored =>
    match insertRefreshToken schema db
        { user_id := stored.user_id, token_hash := env.hashToken call.newRawToken,
          ip := call.req.ip, user_agent := call.req.userAgent,
          expires_at := call.now + sevenDays } with
    | .error e => (db, .done (.forwarded e .untouched))
    | .ok db3 => (db3, .newInserted stored)
  | .newInserted stored =>
    match findUserById db stored.user_id with
    | none => (db, .done (.forwarded .typeError (setRefreshCookie env call.newRawToken)))
    | some user =>
      (db, .done (.sent ⟨200, refreshBody user, setRefreshCookie env call.newRawToken⟩))
  | .missing hashedToken =>
    match (selectRevokedByHash db hashedToken).head? with
    | some revoked => (db, .reuse revoked.user_id)
    | none => (db, .done (.sent invalidOrExpired))
  | .reuse userId => (deleteTokensOfUser db userId, .done (.sent reuseDetected))
  | .done outcome => (db, .done outcome)

/-- The statements of one run, `n` of them, without interruption. -/
def refreshSteps (env : Env) (schema : Schema) (call : RefreshCall) :
    Nat → Db × RefreshPc → Db × RefreshPc
  | 0, c => c
  | n + 1, c => refreshSteps env schema call n (refreshStep env schema call c.1 c.2)

/-- Two runs of the refresh handler on one store. -/
structure Race where
  db : Db
  first : RefreshPc
  second : RefreshPc
  deriving DecidableEq, Repr

/-- The next statement of the race: of the first run when `who` is true, of the
second run otherwise. -/
def raceStep (env : Env) (schema : Schema) (callA callB : RefreshCall) (c : Race)
    (who : Bool) : Race :=
  if who then
    { db := (refreshStep env schema callA c.db c.first).1,
      first := (refreshStep env schema callA c.db c.first).2,
      second := c.second }
  else
    { db := (refreshStep env schema callB c.db c.second).1,
      first := c.first,
      second := (refreshStep env schema callB c.db c.second).2 }

/-- The race under a schedule: the list tells whose statement runs next. -/
def race (env : Env) (schema : Schema) (callA callB : RefreshCall) (sched : List Bool)
    (c : Race) : Race :=
  sched.foldl (raceStep env schema callA callB) c

/-- The point of the run whose DELETE came first, after `j` further statements
of it. -/
def winnerPc (env : Env) (call : RefreshCall) (stored : RefreshToken) (user : UserInfo) :
    Nat → RefreshPc
  | 0 => .oldDeleted stored
  | 1 => .newInserted stored
  | _ => .done (.sent ⟨200, refreshBody user, setRefreshCookie env call.newRawToken⟩)

/-- The point of the run whose lookup comes after that DELETE, after `k`
statements of it. -/
def loserPc (hashedToken owner : String) : Nat → RefreshPc
  | 0 => .start
  | 1 => .missing hashedToken
  | 2 => .reuse owner
  | _ => .done (.sent reuseDetected)

/-- The owner named by the history entry of hash `h` once the rotation of
`stored` has inserted into the history. -/
def historyOwner (db : Db) (h : String) (stored : RefreshToken) (now : Timestamp) : String :=
  ((selectRevokedByHash db h).head?.getD
    { token_hash := h, user_id := stored.user_id, revoked_at := now }).user_id

/-- A sample run of refresh with the secret `s0`, drawing `sA`. -/
def sampleCallA : RefreshCall :=
  { now := 10, newRawToken := "sA", req := ⟨some "s0", none, none⟩ }

/-- A second sample run of refresh with the same secret `s0`, drawing `sB`. -/
def sampleCallB : RefreshCall :=
  { now := 10, newRawToken := "sB", req := ⟨some "s0", none, none⟩ }

/-! ## `middleware/role.js` -/

/-- How the middleware returned by `authorizeRole` ends: it calls `next()`, or
it sends a reply itself. -/
inductive GuardResult where
  | next
  | rejected (res : Response)
  deriving DecidableEq, Repr

/-- The middleware `authorizeRole(...roles)`, run on `req.user` (`none` when no
middleware has set it). -/
def authorizeRole (roles : List String) (user : Option JwtPayload) : GuardResult :=
  match truthy (user.bind (fun u => u.role)) with
  | none => .rejected ⟨403, errorBody "Access denied — no role found", .untouched⟩
  | some role =>
    if roles.contains role then .next
    else .rejected ⟨403,
      errorBody ("Access denied — required: " ++ String.intercalate " or " roles), .untouched⟩

/-! ## The global error handler of `server.js` -/

/-- The properties of an error object read by the global error handler. -/
structure ErrorObject where
  statusCode : Option Nat
  status : Option Nat
  message : Option String
  stack : Option String
  deriving DecidableEq, Repr

/-- The body sent by the global error handler; `stack` is `none` when the
property is not in the body. -/
structure ErrorReply where
  status : Nat
  success : Bool
  error : String
  stack : Option String
  deriving DecidableEq, Repr

/-- JavaScript truthiness of an optional number: `undefined` and `0` are
falsy. -/
def truthyNat : Option Nat → Option Nat
  | some n => if n = 0 then none else some n
  | none => none

/-- The expression `err.statusCode || err.status || 500`. -/
def errorStatus (err : ErrorObject) : Nat :=
  match truthyNat err.statusCode with
  | some n => n
  | none =>
    match truthyNat err.status with
    | some n => n
    | none => 500

/-- The global error handler, `isProd` being
`process.env.NODE_ENV === 'production'`. -/
def errorHandler (isProd : Bool) (err : ErrorObject) : ErrorReply :=
  { status := errorStatus err,
    success := false,
    error :=
      if isProd && errorStatus err == 500 then "Something went wrong. Please try again later."
      else (truthy err.message).getD "Internal Server Error",
    stack := if isProd then none else err.stack }

/-- The error object of an exception raised by the database driver or by the
runtime (a constraint violation, a TypeError): it has a message and a stack and
neither `statusCode` nor `status`. -/
def thrownError (message : String) (stack : String) : ErrorObject :=
  { statusCode := none, status := none, message := some message, stack := some stack }

/-! ## The two statements of the sweep -/

/-- The statement `DELETE FROM refresh_tokens WHERE expires_at < NOW()`. -/
def purgeExpiredActive (now : Timestamp) (db : Db) : Db :=
  { db with refresh_tokens := db.refresh_tokens.filter (fun r => !decide (r.expires_at < now)) }

/-- The statement
`DELETE FROM refresh_tokens_revoked WHERE revoked_at < NOW() - INTERVAL '7 days'`. -/
def purgeOldRevoked (now : Timestamp) (db : Db) : Db :=
  { db with refresh_tokens_revoked :=
      db.refresh_tokens_revoked.filter (fun r => !decide (r.revoked_at < now - sevenDays)) }

/-- A sample store with an unexpired session whose `user_id` matches no row of
`users`. -/
def sampleDbOrphan : Db :=
  { users := [sampleUser],
    refresh_tokens := [{ user_id := "gone", token_hash := "sha:s0", ip := none,
                         user_agent := none, expires_at := 1000 }],
    refresh_tokens_revoked := [] }

/-- The store in which the active flag of the rows with id `id` is `b` and
everything else is as in `db`. -/
def withActiveFlag (db : Db) (id : String) (b : Bool) : Db :=
  { db with users := db.users.map (fun u => if u.id == id then { u with is_active := b }
                                            else u) }

/-! ## Sequences of operations on the store -/

/-- The operations of the session core, each with the arguments of its run. -/
inductive Op where
  | login (now : Timestamp) (rawRefresh : String) (req : LoginRequest)
  | refresh (now : Timestamp) (newRawToken : String) (req : CookieRequest)
  | logout (req : CookieRequest)
  | deactivate (reqUser : JwtPayload) (id : String)
  | sweep (now : Timestamp)
  deriving DecidableEq, Repr

/-- The store left by one operation. -/
def applyOp (env : Env) (schema : Schema) (db : Db) : Op → Db
  | .login now rawRefresh req => (login env schema now rawRefresh db req).db
  | .refresh now newRawToken req => (refresh env schema now newRawToken db req).db
  | .logout req => (logout env db req).db
  | .deactivate reqUser id => (deactivate db reqUser id).db
  | .sweep now => cleanupTokens now db

/-- The store left by a sequence of operations. -/
def runOps (env : Env) (schema : Schema) (db : Db) (ops : List Op) : Db :=
  ops.foldl (applyOp env schema) db

/-- The secret drawn by an operation, if it draws one. -/
def opSecret : Op → Option String
  | .login _ rawRefresh _ => some rawRefresh
  | .refresh _ newRawToken _ => some newRawToken
  | _ => none

/-- An operation that may follow the rotation of hash `h` at time `t`: the hash
of a secret it draws is not `h`, and a sweep runs at `t + 7 days` at the
latest. -/
def KeepsHash (env : Env) (h : String) (t : Timestamp) (op : Op) : Prop :=
  (∀ raw, opSecret op = some raw → env.hashToken raw ≠ h) ∧
    (∀ now, op = .sweep now → now ≤ t + sevenDays)

/-- No two active rows share a `token_hash`. -/
def UniqueHashes (db : Db) : Prop :=
  (db.refresh_tokens.map (fun r => r.token_hash)).Nodup

/-- Every secret drawn along the sequence has a hash that is not in the active
table of the store in which it is drawn. -/
def GeneratesFresh (env : Env) (schema : Schema) : Db → List Op → Prop
  | _, [] => True
  | db, op :: ops =>
    (∀ raw, opSecret op = some raw →
      ∀ r ∈ db.refresh_tokens, r.token_hash ≠ env.hashToken raw) ∧
    GeneratesFresh env schema (applyOp env schema db op) ops

/-- A sample sequence on the sample store `sampleDbTwo`: a login of account `u1`
drawing `a`, a refresh with `a` drawing `b`, a sweep, a logout with `z`, the
deactivation of `u1` by the admin and a replay of `a`. -/
def sampleOps : List Op :=
  [.login 1 "a" ⟨some "a@x.com", some "correctpw", none, none⟩,
   .refresh 2 "b" ⟨some "a", none, none⟩,
   .sweep 3,
   .logout ⟨some "z", none, none⟩,
   .deactivate { id := "u0", email := "root@x.com", role := some "admin" } "u1",
   .refresh 4 "c" ⟨some "a", none, none⟩]

/-- A sample sequence after the rotation of `s0` at time 10: a login drawing
`a`, a sweep at the last moment of the grace window, a refresh with `a` drawing
`b`, and a logout with `b`. -/
def sampleOpsAfter : List Op :=
  [.login 11 "a" ⟨some "a@x.com", some "correctpw", none, none⟩,
   .sweep (10 + sevenDays),
   .refresh 12 "b" ⟨some "a", none, none⟩,
   .logout ⟨some "b", none, none⟩]

/-! ## The route handlers as the server runs them

The handlers above take strings and run on a store that answers every
statement. The definitions below model the same handlers with the values the
middleware really hands over and with statements that can fail: every handler
of `auth.js` is an `async` function whose whole body stands in
`try { ... } catch (err) { next(err); }`. -/

/-- A value read from `req.cookies` or `req.body`: absent (`undefined`), a
string, or a value of another type. `cookie-parser` replaces a cookie of the
form `j:<json>` by the parsed JSON value, and `express.json()` keeps the JSON
types of the body, so a field can hold a number, a boolean, null, an array or
an object. Of such a value the handlers use its truthiness and, where it is a
query parameter, the text the database driver sends for it. -/
inductive JsValue where
  | undefined
  | str (s : String)
  | other (truthy : Bool) (text : String)
  deriving DecidableEq, Repr

/-- JavaScript truthiness of a request value: `undefined` and the empty string
are falsy. -/
def jsTruthy : JsValue → Bool
  | .undefined => false
  | .str s => !(s == "")
  | .other t _ => t

/-- The request value of an optional string. -/
def JsValue.ofOption : Option String → JsValue
  | some s => .str s
  | none => .undefined

/-- The error objects of the exceptions raised by the libraries the handlers
call; they are parameters, as the libraries are not among the sources:
`hashArgument` is thrown by `crypto`'s `update` on a value that is not a string,
`compareArgument` by `bcrypt.compare` on a password that is not a string,
`invalidText` by the database on a text parameter that holds the character NUL,
`uniqueViolation` by the database on a refused INSERT, and `undefinedUser` is
the TypeError of reading `user.id` of `undefined`. -/
structure Thrown where
  hashArgument : ErrorObject
  compareArgument : ErrorObject
  invalidText : ErrorObject
  uniqueViolation : ErrorObject
  undefinedUser : ErrorObject
  deriving DecidableEq, Repr

/-- The error object of an exception of the string-typed handlers. -/
def Thrown.ofServerError (thrown : Thrown) : ServerError → ErrorObject
  | .uniqueViolation => thrown.uniqueViolation
  | .typeError => thrown.undefinedUser

/-- The call `hashToken(token)` on a request value: `update` hashes a string and
throws on every other value. -/
def hashTokenJs (env : Env) (thrown : Thrown) : JsValue → Except ErrorObject String
  | .str s => .ok (env.hashToken s)
  | _ => .error thrown.hashArgument

/-- The body of an `async` handler, statement by statement: it sends a reply
and returns, calls `next(err)`, throws, awaits a statement sent to the database
and goes on with its result, changes the cookie on `res` and goes on, or runs a
`try` block with its `catch` clause. A statement is a function of the store
that gives a result and the new store, or throws and leaves the store as it
was. -/
inductive Prog (ρ : Type) : Type 1 where
  | reply (r : ρ) : Prog ρ
  | next (err : ErrorObject) : Prog ρ
  | throw (err : ErrorObject) : Prog ρ
  | query {β : Type} (stmt : Db → Except ErrorObject (β × Db)) (rest : β → Prog ρ) : Prog ρ
  | effect (cookie : CookieEffect) (rest : Prog ρ) : Prog ρ
  | tryCatch (body : Prog ρ) (handler : ErrorObject → Prog ρ) : Prog ρ

/-- How a run of a handler ends: a reply was sent, the error was passed to
`next` (and so to the global error handler), or the exception left the handler
(the promise of the `async` function is rejected and no reply is sent). -/
inductive Ending (ρ : Type) where
  | sent (r : ρ)
  | forwarded (err : ErrorObject)
  | escaped (err : ErrorObject)
  deriving DecidableEq, Repr

/-- The result of a run: the store it leaves, the number of statements sent to
the database, the cookie effect on `res`, and how it ended. -/
structure Exec (ρ : Type) where
  db : Db
  queries : Nat
  cookie : CookieEffect
  ending : Ending ρ
  deriving DecidableEq, Repr

/-- The run of a handler body. `fail k` is the exception with which the
database or the connection refuses the statement number `k` of the request, if
it does; `n` is the number of statements sent so far. A statement that throws
changes nothing, and an exception thrown in a `try` block is handed to its
`catch` clause. -/
def Prog.exec {ρ : Type} (fail : Nat → Option ErrorObject) :
    Prog ρ → Nat → Db → CookieEffect → Exec ρ
  | .reply r, n, db, c => ⟨db, n, c, .sent r⟩
  | .next err, n, db, c => ⟨db, n, c, .forwarded err⟩
  | .throw err, n, db, c => ⟨db, n, c, .escaped err⟩
  | .query stmt rest, n, db, c =>
    match fail n with
    | some err => ⟨db, n + 1, c, .escaped err⟩
    | none =>
      match stmt db with
      | .error err => ⟨db, n + 1, c, .escaped err⟩
      | .ok (b, db1) => (rest b).exec fail (n + 1) db1 c
  | .effect c1 rest, n, db, _ => rest.exec fail n db c1
  | .tryCatch body handler, n, db, c =>
    match body.exec fail n db c with
    | ⟨db1, n1, c1, .escaped err⟩ => (handler err).exec fail n1 db1 c1
    | r => r

/-- A database that answers every statement. -/
def noFault : Nat → Option ErrorObject :=
  fun _ => none

/-- Whether the database takes `s` as a text parameter: PostgreSQL refuses a
text that holds the character NUL. -/
def textOk (s : String) : Bool :=
  !(s.data.contains (Char.ofNat 0))

/-- The text the driver sends for a request value used as a query parameter;
`undefined` is sent as NULL. -/
def JsValue.param : JsValue → Option String
  | .undefined => none
  | .str s => some s
  | .other _ text => some text

/-- The call `bcrypt.compare(password, hash)` on a request value: `bcryptjs`
compares a string and rejects every other value with an exception. -/
def bcryptCompareJs (env : Env) (thrown : Thrown) (password : JsValue) (stored : String) :
    Except ErrorObject Bool :=
  match password with
  | .str pw => .ok (env.bcryptCompare pw stored)
  | _ => .error thrown.compareArgument

/-- The statement of `findUserByEmail` with the parameter the handler passes:
a NULL parameter equals no email, and a text with NUL is refused. -/
def findUserByEmailQuery (thrown : Thrown) (email : JsValue) (db : Db) :
    Except ErrorObject (Option UserRow × Db) :=
  match email.param with
  | none => .ok (none, db)
  | some text =>
    if textOk text then .ok (findUserByEmail db text, db) else .error thrown.invalidText

/-- The statement `INSERT INTO refresh_tokens ...` as a statement that can
throw. -/
def insertRefreshTokenQuery (schema : Schema) (thrown : Thrown) (row : RefreshToken)
    (db : Db) : Except ErrorObject (Unit × Db) :=
  match insertRefreshToken schema db row with
  | .error e => .error (thrown.ofServerError e)
  | .ok db1 => .ok ((), db1)

/-- A reply `res.status(status).json(body)`; the cookie effect is kept by the
run. -/
structure Sent where
  status : Nat
  body : Body
  deriving DecidableEq, Repr

/-- The route `POST /api/auth/login` with the body fields as `express.json()`
delivers them; `rawRefresh` is the value drawn by `generateRefreshToken()`. -/
def loginRoute (env : Env) (schema : Schema) (thrown : Thrown) (now : Timestamp)
    (rawRefresh : String) (email password : JsValue) (ip userAgent : Option String) :
    Prog Sent :=
  .tryCatch
    (if !jsTruthy email || !jsTruthy password then
      .reply ⟨400, errorBody "Email and password are required"⟩
    else
      .query (findUserByEmailQuery thrown email) fun found =>
      match found with
      | none => .reply ⟨401, errorBody "Invalid credentials"⟩
      | some user =>
        match bcryptCompareJs env thrown password user.password with
        | .error err => .throw err
        | .ok same =>
          if !same then .reply ⟨401, errorBody "Invalid credentials"⟩
          else if !user.is_active then
            .reply ⟨403, errorBody "Account is inactive. Contact admin."⟩
          else
            .query (insertRefreshTokenQuery schema thrown
              { user_id := user.id, token_hash := env.hashToken rawRefresh, ip := ip,
                user_agent := userAgent, expires_at := now + sevenDays }) fun _ =>
            .effect (setRefreshCookie env rawRefresh) (.reply ⟨200, loginBody user⟩))
    .next

/-- The route `POST /api/auth/refresh` with the cookie as `cookie-parser`
delivers it; `newRawToken` is the value drawn by `generateRefreshToken()`. -/
def refreshRoute (env : Env) (schema : Schema) (thrown : Thrown) (now : Timestamp)
    (newRawToken : String) (rawToken : JsValue) (ip userAgent : Option String) :
    Prog Sent :=
  .tryCatch
    (if !jsTruthy rawToken then .reply ⟨401, errorBody "Refresh token required"⟩
    else
      match hashTokenJs env thrown rawToken with
      | .error err => .throw err
      | .ok hashedToken =>
        .query (fun db => .ok ((selectActiveByHash db hashedToken now).head?, db))
          fun found =>
        match found with
        | none =>
          .query (fun db => .ok ((selectRevokedByHash db hashedToken).head?, db))
            fun revoked =>
          match revoked with
          | some r =>
            .query (fun db => .ok ((), deleteTokensOfUser db r.user_id)) fun _ =>
            .effect .cleared
              (.reply ⟨401, errorBody "Token reuse detected. All sessions revoked."⟩)
          | none => .reply ⟨401, errorBody "Invalid or expired refresh token"⟩
        | some stored =>
          .query (fun db => .ok ((), insertRevoked db hashedToken stored.user_id now))
            fun _ =>
          .query (fun db => .ok ((), deleteTokensByHash db hashedToken)) fun _ =>
          .query (insertRefreshTokenQuery schema thrown
            { user_id := stored.user_id, token_hash := env.hashToken newRawToken, ip := ip,
              user_agent := userAgent, expires_at := now + sevenDays }) fun _ =>
          .query (fun db => .ok (findUserById db stored.user_id, db)) fun user =>
          .effect (setRefreshCookie env newRawToken)
            (match user with
            | none => .throw thrown.undefinedUser
            | some u => .reply ⟨200, refreshBody u⟩))
    .next

/-- The route `POST /api/auth/logout` with the cookie as `cookie-parser`
delivers it. -/
def logoutRoute (env : Env) (thrown : Thrown) (rawToken : JsValue) : Prog Sent :=
  .tryCatch
    (if jsTruthy rawToken then
      match hashTokenJs env thrown rawToken with
      | .error err => .throw err
      | .ok hashedToken =>
        .query (fun db => .ok ((), deleteTokensByHash db hashedToken)) fun _ =>
        .effect .cleared (.reply ⟨200, logoutBody⟩)
    else .effect .cleared (.reply ⟨200, logoutBody⟩))
    .next

/-- The reply the client receives at the end of a run: the reply sent by the
handler, or the reply of the global error handler for the forwarded error; an
escaped exception gives no reply. -/
def Exec.status {ρ : Type} (statusOf : ρ → Nat) (r : Exec ρ) : Option Nat :=
  match r.ending with
  | .sent reply => some (statusOf reply)
  | .forwarded err => some (errorStatus err)
  | .escaped _ => none

/-- The run of a string-typed handler as a run of the route: store, cookie
effect and ending. -/
def Step.asRun (thrown : Thrown) (s : Step) : Db × CookieEffect × Ending Sent :=
  match s.outcome with
  | .sent res => (s.db, res.cookie, .sent ⟨res.status, res.body⟩)
  | .forwarded err cookie => (s.db, cookie, .forwarded (thrown.ofServerError err))

/-- The store, cookie effect and ending of a run. -/
def Exec.asRun {ρ : Type} (r : Exec ρ) : Db × CookieEffect × Ending ρ :=
  (r.db, r.cookie, r.ending)

/-- Sample error objects: the exceptions carry a message and a stack and no
status. -/
def sampleThrown : Thrown :=
  { hashArgument := thrownError "The data argument must be of type string" "TypeError",
    compareArgument := thrownError "Illegal arguments: number, string" "Error",
    invalidText := thrownError "invalid byte sequence for encoding UTF8: 0x00" "error",
    uniqueViolation := thrownError "duplicate key value violates unique constraint" "error",
    undefinedUser := thrownError "Cannot read properties of undefined (reading id)"
      "TypeError" }

/-- The cookie value of the request header `Cookie: refreshToken=j:{"a":1}`:
`cookie-parser` hands the handler the parsed object, which is truthy. -/
def objectCookie : JsValue :=
  .other true "\x7b\x22a\x22:1\x7d"

/-- The body field `12345678` of a JSON body: a number, truthy, sent by the
driver as the text of its digits. -/
def numberPassword : JsValue :=
  .other true "12345678"

/-- The `catch (err) { next(err); }` clause applied to the run of the `try`
block: an exception that left the block is passed to `next`. -/
def catchNext {ρ : Type} (r : Exec ρ) : Exec ρ :=
  match r.ending with
  | .escaped err => { r with ending := .forwarded err }
  | _ => r

/-- A statement whose text parameters come from the request: the database
refuses it when one of them holds NUL, and runs `stmt` otherwise. -/
def withTexts {β : Type} (thrown : Thrown) (texts : List String)
    (stmt : Db → Except ErrorObject (β × Db)) (db : Db) : Except ErrorObject (β × Db) :=
  if texts.all textOk then stmt db else .error thrown.invalidText

/-- An error reply `res.status(status).json({ success: false, error })` of a
guarded route. -/
def errorReply {α : Type} (status : Nat) (msg : String) : Reply α :=
  { status := status, success := false, error := some msg, message := none, user := none }

/-- The route `GET /api/auth/me`, run with `req.user` after `authenticateToken`. -/
def meRoute (user : JwtPayload) : Prog (Reply UserInfo) :=
  .tryCatch
    (.query (fun db => .ok (findUserById db user.id, db)) fun found =>
      match found with
      | none => .reply (errorReply 404 "User not found")
      | some u =>
        .reply { status := 200, success := true, error := none, message := none,
                 user := some u })
    .next

/-- The statement of `createUser` as a statement that can throw. -/
def createUserQuery (conflict : List UserRow → UserRow → Bool) (gen : UserDefaults)
    (thrown : Thrown) (username email hashedPassword role : String)
    (fullName phone createdBy : Option String) (db : Db) :
    Except ErrorObject (UserRow × Db) :=
  match createUser conflict gen db username email hashedPassword role fullName phone
      createdBy with
  | .error e => .error (thrown.ofServerError e)
  | .ok (db1, user) => .ok (user, db1)

/-- The route `POST /api/auth/register`, run with `req.user` after the two
middlewares, on body fields that are strings or absent; `hashedPassword` is the
value of `bcrypt.hash(password, 12)`. -/
def registerRoute (conflict : List UserRow → UserRow → Bool) (gen : UserDefaults)
    (thrown : Thrown) (hashedPassword : String) (reqUser : JwtPayload)
    (req : RegisterRequest) : Prog (Reply CreatedUser) :=
  .tryCatch
    (match truthy req.username, truthy req.email, truthy req.password with
    | some username, some email, some password =>
      if !emailFormatOk email then .reply (errorReply 400 "Invalid email format")
      else if jsLength password < 8 then
        .reply (errorReply 400 "Password must be at least 8 characters")
      else if req.role.getD "staff" = "admin" then
        .reply (errorReply 400 "An admin account already exists. Only one admin is allowed.")
      else if req.role.getD "staff" ≠ "staff" then
        .reply (errorReply 400 "Invalid role. Only staff accounts can be created.")
      else
        .query (findUserByEmailQuery thrown (.str email)) fun existing =>
        match existing with
        | some _ => .reply (errorReply 409 "Email already registered")
        | none =>
          .query (withTexts thrown (username :: email :: req.full_name.toList)
            (createUserQuery conflict gen thrown username email hashedPassword "staff"
              req.full_name none (some reqUser.id))) fun user =>
          .reply { status := 201, success := true, error := none,
                   message := some "Staff account created successfully",
                   user := some { id := user.id, username := user.username,
                                  email := user.email, role := user.role } }
    | _, _, _ => .reply (errorReply 400 "Username, email and password are required"))
    .next

/-- A row of the staff list: the columns of the SELECT of `GET /staff`. -/
structure StaffRow where
  id : String
  username : String
  email : String
  role : String
  full_name : Option String
  phone : Option String
  is_active : Bool
  created_at : Timestamp
  created_by_username : Option String
  deriving DecidableEq, Repr

/-- The reply `res.json({ success: true, staff: rows })`. -/
structure StaffReply where
  status : Nat
  success : Bool
  staff : List StaffRow
  deriving DecidableEq, Repr

/-- The columns of a user row in the staff list, with the creator's name. -/
def staffRow (u : UserRow) (creator : Option String) : StaffRow :=
  { id := u.id, username := u.username, email := u.email, role := u.role,
    full_name := u.full_name, phone := u.phone, is_active := u.is_active,
    created_at := u.created_at, created_by_username := creator }

/-- The rows of `users u LEFT JOIN users creator ON u.created_by = creator.id`,
before they are ordered. -/
def staffJoin (db : Db) : List StaffRow :=
  db.users.flatMap fun u =>
    match db.users.filter (fun c => u.created_by == some c.id) with
    | [] => [staffRow u none]
    | creators => creators.map (fun c => staffRow u (some c.username))

/-- The route `GET /api/auth/staff`, run after the two middlewares; `order` is
the ordering `ORDER BY u.created_at DESC` as the database carries it out (the
order of rows created at the same time is its choice). -/
def staffRoute (order : List StaffRow → List StaffRow) : Prog StaffReply :=
  .tryCatch
    (.query (fun db => .ok (order (staffJoin db), db)) fun rows =>
      .reply { status := 200, success := true, staff := rows })
    .next

/-- The rows of `RETURNING id, username, is_active` for the rows with id `id`. -/
def returningRows (db : Db) (id : String) : List DeactivatedUser :=
  (db.users.filter (fun u => u.id == id)).map
    (fun u => ({ id := u.id, username := u.username, is_active := u.is_active } :
      DeactivatedUser))

/-- The route `PATCH /api/auth/staff/:id/deactivate`, run with `req.user` after
the two middlewares; `id` is `req.params.id`. -/
def deactivateRoute (thrown : Thrown) (reqUser : JwtPayload) (id : String) :
    Prog (Reply DeactivatedUser) :=
  .tryCatch
    (if id = reqUser.id then .reply (errorReply 400 "Cannot deactivate your own account")
    else
      .query (withTexts thrown [id]
        (fun db => .ok (db.users.find? (fun u => u.id == id), db))) fun target =>
      match target with
      | none => .reply (errorReply 404 "Staff member not found")
      | some t =>
        if t.role = "admin" then
          .reply (errorReply 400 "Cannot deactivate the admin account")
        else
          .query (withTexts thrown [id]
            (fun db => .ok (returningRows (setInactive db id) id, setInactive db id)))
            fun rows =>
          .query (withTexts thrown [id] (fun db => .ok ((), deleteTokensOfUser db id)))
            fun _ =>
          .reply { status := 200, success := true, error := none,
                   message := some "Staff member deactivated", user := rows.head? })
    .next

/-- The route `PATCH /api/auth/staff/:id/reactivate`, run after the two
middlewares; `id` is `req.params.id`. -/
def reactivateRoute (thrown : Thrown) (id : String) : Prog (Reply DeactivatedUser) :=
  .tryCatch
    (.query (withTexts thrown [id]
      (fun db => .ok (returningRows (withActiveFlag db id true) id,
        withActiveFlag db id true))) fun rows =>
      match rows.head? with
      | none => .reply (errorReply 404 "Staff member not found")
      | some row =>
        .reply { status := 200, success := true, error := none,
                 message := some "Staff member reactivated", user := some row })
    .next

/-- A handler body in which nothing catches an exception and nothing calls
`next`: replies, throws, statements and cookie effects only. -/
def Prog.straight {ρ : Type} : Prog ρ → Prop
  | .reply _ => True
  | .next _ => False
  | .throw _ => True
  | .query _ rest => ∀ b, (rest b).straight
  | .effect _ rest => rest.straight
  | .tryCatch _ _ => False

/-- A handler forwards what is thrown in it: against every behaviour of the
database and on every store, its run does not end with an exception that left
the handler, and when the database refuses a statement the handler has sent,
the run ends at that statement with that error passed to `next`. -/
def Forwards {ρ : Type} (handler : Prog ρ) : Prop :=
  ∀ (fail : Nat → Option ErrorObject) (db : Db),
    (∀ err, (handler.exec fail 0 db .untouched).ending ≠ .escaped err) ∧
      ∀ k err, k < (handler.exec fail 0 db .untouched).queries → fail k = some err →
        (handler.exec fail 0 db .untouched).ending = .forwarded err ∧
          (handler.exec fail 0 db .untouched).queries = k + 1

/-- The run of a string-typed handler of a guarded route as a run of the route:
store and ending. -/
def AdminStep.asRun {α : Type} (thrown : Thrown) (s : AdminStep α) :
    Db × Ending (Reply α) :=
  match s.outcome with
  | .sent reply => (s.db, .sent reply)
  | .forwarded err => (s.db, .forwarded (thrown.ofServerError err))

/-! ## Basic facts about the statements -/

theorem truthy_of_ne_empty {s : String} (h : s ≠ "") : truthy (some s) = some s := by
  simp [truthy, h]

theorem insertRevoked_users (db : Db) (h u : String) (now : Timestamp) :
    (insertRevoked db h u now).users = db.users := by
  unfold insertRevoked; split <;> rfl

theorem insertRevoked_refresh_tokens (db : Db) (h u : String) (now : Timestamp) :
    (insertRevoked db h u now).refresh_tokens = db.refresh_tokens := by
  unfold insertRevoked; split <;> rfl

theorem insertRefreshToken_ok (schema : Schema) (db : Db) (row : RefreshToken)
    (h : schema.refresh_token_hash_unique = true →
      ∀ r ∈ db.refresh_tokens, r.token_hash ≠ row.token_hash) :
    insertRefreshToken schema db row
      = .ok { db with refresh_tokens := db.refresh_tokens ++ [row] } := by
  unfold insertRefreshToken
  rw [if_neg]
  simp only [Bool.and_eq_true, List.any_eq_true, beq_iff_eq, not_and, not_exists]
  intro hu r hr
  exact h hu r hr

/-- The rotation branch of refresh, in closed form. -/
theorem refresh_of_active (env : Env) (schema : Schema) (now : Timestamp) (s s' : String)
    (db : Db) (ip ua : Option String) (stored : RefreshToken)
    (hs : s ≠ "")
    (hstored : (selectActiveByHash db (env.hashToken s) now).head? = some stored)
    (hfresh : schema.refresh_token_hash_unique = true →
      ∀ r ∈ db.refresh_tokens, r.token_hash ≠ env.hashToken s') :
    refresh env schema now s' db ⟨some s, ip, ua⟩ =
      ⟨rotated db (env.hashToken s) (env.hashToken s') stored ip ua now,
        match findUserById db stored.user_id with
        | none => .forwarded .typeError (setRefreshCookie env s')
        | some user => .sent ⟨200, refreshBody user, setRefreshCookie env s'⟩⟩ := by
  unfold refresh
  simp only [truthy_of_ne_empty hs, hstored]
  rw [insertRefreshToken_ok]
  · simp only [findUserById, deleteTokensByHash, insertRevoked_users,
      insertRevoked_refresh_tokens, rotated, sessionRow]
    cases hu : List.find? (fun u => u.id == stored.user_id) db.users <;> simp
  · intro hu r hr
    simp only [deleteTokensByHash, insertRevoked_refresh_tokens, List.mem_filter] at hr
    exact hfresh hu r hr.1

/-- The branch of refresh taken when no unexpired active row has the hash. -/
theorem refresh_of_not_active (env : Env) (schema : Schema) (now : Timestamp) (s s' : String)
    (db : Db) (ip ua : Option String)
    (hs : s ≠ "")
    (hnone : (selectActiveByHash db (env.hashToken s) now).head? = none) :
    refresh env schema now s' db ⟨some s, ip, ua⟩ =
      match (selectRevokedByHash db (env.hashToken s)).head? with
      | some revoked => ⟨deleteTokensOfUser db revoked.user_id, .sent reuseDetected⟩
      | none => ⟨db, .sent invalidOrExpired⟩ := by
  unfold refresh
  simp only [truthy_of_ne_empty hs, hnone]

theorem revoked_head_insertRevoked (db : Db) (h u : String) (now : Timestamp) :
    (selectRevokedByHash (insertRevoked db h u now) h).head?
      = some ((selectRevokedByHash db h).head?.getD
          { token_hash := h, user_id := u, revoked_at := now }) := by
  unfold insertRevoked selectRevokedByHash
  split
  · next hany =>
    rw [List.any_eq_true] at hany
    obtain ⟨e, he, heq⟩ := hany
    cases hf : List.filter (fun r => r.token_hash == h) db.refresh_tokens_revoked with
    | nil =>
      have : e ∈ List.filter (fun r => r.token_hash == h) db.refresh_tokens_revoked :=
        List.mem_filter.mpr ⟨he, heq⟩
      rw [hf] at this
      cases this
    | cons x xs => simp
  · next hany =>
    have hnil : List.filter (fun r => r.token_hash == h) db.refresh_tokens_revoked = [] := by
      rw [List.filter_eq_nil_iff]
      intro e he heq
      exact hany (List.any_eq_true.mpr ⟨e, he, heq⟩)
    simp [List.filter_append, hnil]

theorem selectActive_rotated (db : Db) (h h' : String) (stored : RefreshToken)
    (ip ua : Option String) (now now2 : Timestamp) (hne : h' ≠ h) :
    selectActiveByHash (rotated db h h' stored ip ua now) h now2 = [] := by
  unfold selectActiveByHash rotated sessionRow
  rw [List.filter_eq_nil_iff]
  intro r hr
  simp only [List.mem_append, List.mem_filter, List.mem_singleton] at hr
  rcases hr with ⟨_, hr⟩ | hr
  · simp only [Bool.not_eq_true', beq_eq_false_iff_ne, ne_eq] at hr
    simp [hr]
  · subst hr
    simp [hne]

/-- A refresh that answers with the reuse reply took the reuse branch. -/
theorem refresh_reuse_inv (env : Env) (schema : Schema) (now : Timestamp) (s' : String)
    (db : Db) (req : CookieRequest)
    (h : (refresh env schema now s' db req).outcome = .sent reuseDetected) :
    ∃ raw rv, truthy req.refreshToken = some raw ∧
      (selectActiveByHash db (env.hashToken raw) now).head? = none ∧
      (selectRevokedByHash db (env.hashToken raw)).head? = some rv ∧
      (refresh env schema now s' db req).db = deleteTokensOfUser db rv.user_id := by
  cases ht : truthy req.refreshToken with
  | none => simp [refresh, ht, reuseDetected, errorBody] at h
  | some raw =>
    cases ha : (selectActiveByHash db (env.hashToken raw) now).head? with
    | none =>
      cases hr : (selectRevokedByHash db (env.hashToken raw)).head? with
      | none => simp [refresh, ht, ha, hr, reuseDetected, invalidOrExpired, errorBody] at h
      | some rv =>
        refine ⟨raw, rv, rfl, ha, hr, ?_⟩
        simp [refresh, ht, ha, hr]
    | some stored =>
      simp only [refresh, ht, ha] at h
      split at h
      · simp at h
      · split at h
        · simp at h
        · simp [reuseDetected] at h

/-- A refresh with a secret whose hash no active row carries answers 401,
creates no row and leaves the history as it is. -/
theorem refresh_fails_of_no_row (env : Env) (schema : Schema) (now : Timestamp)
    (t t' : String) (db : Db) (ip ua : Option String)
    (hno : ∀ r ∈ db.refresh_tokens, r.token_hash ≠ env.hashToken t) :
    ∃ res, (refresh env schema now t' db ⟨some t, ip, ua⟩).outcome = .sent res ∧
      res.status = 401 ∧ res.body.accessToken = none ∧
      (∀ c o, res.cookie ≠ .set c o) ∧
      (∀ r ∈ (refresh env schema now t' db ⟨some t, ip, ua⟩).db.refresh_tokens,
        r ∈ db.refresh_tokens) ∧
      (refresh env schema now t' db ⟨some t, ip, ua⟩).db.refresh_tokens_revoked
        = db.refresh_tokens_revoked := by
  by_cases ht : t = ""
  · subst ht
    refine ⟨⟨401, errorBody "Refresh token required", .untouched⟩, ?_⟩
    simp [refresh, truthy, errorBody]
  · have hnone : (selectActiveByHash db (env.hashToken t) now).head? = none := by
      have : selectActiveByHash db (env.hashToken t) now = [] := by
        unfold selectActiveByHash
        rw [List.filter_eq_nil_iff]
        intro r hr
        simp [hno r hr]
      rw [this]; rfl
    rw [refresh_of_not_active env schema now t t' db ip ua ht hnone]
    cases hr : (selectRevokedByHash db (env.hashToken t)).head? with
    | none =>
      refine ⟨invalidOrExpired, ?_⟩
      simp [invalidOrExpired, errorBody]
    | some rv =>
      refine ⟨reuseDetected, ?_⟩
      simp only [reuseDetected, errorBody, deleteTokensOfUser, List.mem_filter, true_and,
        ne_eq, reduceCtorEq, not_false_eq_true, implies_true]
      exact ⟨fun r hr => hr.1, trivial⟩

/-- The successful branch of login, in closed form. -/
theorem login_of_valid (env : Env) (schema : Schema) (now : Timestamp) (raw : String)
    (db : Db) (email password : String) (ip ua : Option String) (user : UserRow)
    (he : email ≠ "") (hp : password ≠ "")
    (huser : findUserByEmail db email = some user)
    (hpw : env.bcryptCompare password user.password = true)
    (hfresh : schema.refresh_token_hash_unique = true →
      ∀ r ∈ db.refresh_tokens, r.token_hash ≠ env.hashToken raw) :
    login env schema now raw db ⟨some email, some password, ip, ua⟩ =
      ⟨{ db with refresh_tokens :=
          db.refresh_tokens ++ [sessionRow user.id (env.hashToken raw) ip ua now] },
        .sent ⟨200, loginBody user, setRefreshCookie env raw⟩⟩ := by
  have hact : user.is_active = true := by
    have := List.find?_some huser
    simp only [Bool.and_eq_true] at this
    exact this.2
  unfold login
  simp only [truthy_of_ne_empty he, truthy_of_ne_empty hp, huser, hpw, hact]
  rw [insertRefreshToken_ok schema db _ hfresh]
  rfl

/-- A user located by email is also located by its id. -/
theorem findUserById_of_findUserByEmail (db : Db) (email : String) (user : UserRow)
    (huser : findUserByEmail db email = some user) :
    ∃ u, findUserById db user.id = some u ∧ u.id = user.id := by
  have hmem : user ∈ db.users := List.mem_of_find?_eq_some huser
  cases hf : db.users.find? (fun u => u.id == user.id) with
  | none =>
    rw [List.find?_eq_none] at hf
    exact absurd (by simp) (hf user hmem)
  | some u =>
    refine ⟨u.info, by simp [findUserById, hf], ?_⟩
    have := List.find?_some hf
    simpa [UserRow.info] using this

/-- No row of the history of a store after `insertRevoked` for hash `h` carries
another hash `h'` unless the history had it before. -/
theorem revoked_other_insertRevoked (db : Db) (h h' u : String) (now : Timestamp)
    (hne : h' ≠ h) (hno : ∀ e ∈ db.refresh_tokens_revoked, e.token_hash ≠ h') :
    ∀ e ∈ (insertRevoked db h u now).refresh_tokens_revoked, e.token_hash ≠ h' := by
  intro e he
  unfold insertRevoked at he
  split at he
  · exact hno e he
  · simp only [List.mem_append, List.mem_singleton] at he
    rcases he with he | he
    · exact hno e he
    · subst he
      exact fun hc => hne hc.symm

theorem head?_filter_none {α : Type} (p : α → Bool) (l : List α)
    (h : ∀ x ∈ l, p x = false) : (l.filter p).head? = none := by
  have : l.filter p = [] := by
    rw [List.filter_eq_nil_iff]
    intro x hx
    simp [h x hx]
  rw [this]; rfl

/-- C1. Rotation is single-use: when the cookie carries a secret whose hash has
an unexpired active row with an existing owner, and the successor secret has a
different hash (and does not collide with a row under a unique constraint),
the first refresh answers 200 with a new access token and the new cookie, and
a second refresh with the same secret, at any later clock reading, answers 401
with the reuse message. -/
theorem refresh_single_use (env : Env) (schema : Schema) (now now2 : Timestamp)
    (s s' s'' : String) (db : Db) (ip ua ip2 ua2 : Option String)
    (stored : RefreshToken) (user : UserInfo)
    (hs : s ≠ "")
    (hstored : (selectActiveByHash db (env.hashToken s) now).head? = some stored)
    (huser : findUserById db stored.user_id = some user)
    (hne : env.hashToken s' ≠ env.hashToken s)
    (hfresh : schema.refresh_token_hash_unique = true →
      ∀ r ∈ db.refresh_tokens, r.token_hash ≠ env.hashToken s') :
    (refresh env schema now s' db ⟨some s, ip, ua⟩).outcome
        = .sent ⟨200, refreshBody user, setRefreshCookie env s'⟩ ∧
      (refresh env schema now2 s''
        (refresh env schema now s' db ⟨some s, ip, ua⟩).db ⟨some s, ip2, ua2⟩).outcome
        = .sent reuseDetected := by
  rw [refresh_of_active env schema now s s' db ip ua stored hs hstored hfresh]
  simp only [huser, true_and]
  rw [refresh_of_not_active env schema now2 s s'' _ ip2 ua2 hs
    (by rw [selectActive_rotated _ _ _ _ _ _ _ _ hne]; rfl)]
  have hrev := revoked_head_insertRevoked db (env.hashToken s) stored.user_id now
  simp only [selectRevokedByHash] at hrev
  simp only [selectRevokedByHash, rotated, hrev]

/-- Witness of `refresh_single_use` on the sample store. -/
theorem refresh_single_use_witness :
    (refresh sampleEnv ⟨true⟩ 10 "s1" sampleDbSession ⟨some "s0", none, none⟩).outcome
        = .sent ⟨200, refreshBody sampleUser.info, setRefreshCookie sampleEnv "s1"⟩ ∧
      (refresh sampleEnv ⟨true⟩ 20 "s2"
        (refresh sampleEnv ⟨true⟩ 10 "s1" sampleDbSession ⟨some "s0", none, none⟩).db
        ⟨some "s0", none, none⟩).outcome = .sent reuseDetected :=
  refresh_single_use sampleEnv ⟨true⟩ 10 20 "s0" "s1" "s2" sampleDbSession none none none none
    { user_id := "u1", token_hash := "sha:s0", ip := none, user_agent := none,
      expires_at := 1000 }
    sampleUser.info (by decide) (by decide) (by decide) (by decide) (by decide)

/-- C2. Reuse detection cascades: after a refresh that answered with the reuse
reply for a hash whose history entry belongs to principal `P`, no active row of
`P` is left; and any other secret `t` of `P` (every active row carrying its
hash belonged to `P`) presented afterwards is answered with 401, without access
token or cookie, creates no active row and adds nothing to the history. -/
theorem reuse_cascades (env : Env) (schema : Schema) (now now2 : Timestamp)
    (s s' t t' : String) (db : Db) (ip ua ip2 ua2 : Option String) (revoked : RevokedToken)
    (hreuse : (refresh env schema now s' db ⟨some s, ip, ua⟩).outcome = .sent reuseDetected)
    (hrev : (selectRevokedByHash db (env.hashToken s)).head? = some revoked)
    (hown : ∀ r ∈ db.refresh_tokens, r.token_hash = env.hashToken t →
      r.user_id = revoked.user_id) :
    (∀ r ∈ (refresh env schema now s' db ⟨some s, ip, ua⟩).db.refresh_tokens,
        r.user_id ≠ revoked.user_id) ∧
      ∃ res,
        (refresh env schema now2 t' (refresh env schema now s' db ⟨some s, ip, ua⟩).db
          ⟨some t, ip2, ua2⟩).outcome = .sent res ∧
        res.status = 401 ∧ res.body.accessToken = none ∧
        (∀ c o, res.cookie ≠ .set c o) ∧
        (∀ r ∈ (refresh env schema now2 t' (refresh env schema now s' db ⟨some s, ip, ua⟩).db
            ⟨some t, ip2, ua2⟩).db.refresh_tokens,
          r ∈ (refresh env schema now s' db ⟨some s, ip, ua⟩).db.refresh_tokens) ∧
        (refresh env schema now2 t' (refresh env schema now s' db ⟨some s, ip, ua⟩).db
            ⟨some t, ip2, ua2⟩).db.refresh_tokens_revoked
          = (refresh env schema now s' db ⟨some s, ip, ua⟩).db.refresh_tokens_revoked := by
  obtain ⟨raw, rv, hraw, _, hrv, hdb⟩ := refresh_reuse_inv env schema now s' db _ hreuse
  have hs : raw = s := by
    simp only [truthy] at hraw
    split at hraw
    · cases hraw
    · exact (Option.some.inj hraw).symm
  subst hs
  rw [hrev] at hrv
  cases hrv
  have hgone : ∀ r ∈ (deleteTokensOfUser db revoked.user_id).refresh_tokens,
      r.user_id ≠ revoked.user_id := by
    intro r hr
    simp only [deleteTokensOfUser, List.mem_filter, Bool.not_eq_true', beq_eq_false_iff_ne,
      ne_eq] at hr
    exact hr.2
  rw [hdb]
  refine ⟨hgone, ?_⟩
  apply refresh_fails_of_no_row
  intro r hr heq
  refine hgone r hr (hown r ?_ heq)
  simp only [deleteTokensOfUser, List.mem_filter] at hr
  exact hr.1

/-- Witness of `reuse_cascades` on the sample store: the replay of `s0` and then
the other secret `t` of account `u1`. -/
theorem reuse_cascades_witness :
    (∀ r ∈ (refresh sampleEnv ⟨true⟩ 10 "s1" sampleDbReplay
        ⟨some "s0", none, none⟩).db.refresh_tokens, r.user_id ≠ "u1") ∧
      ∃ res,
        (refresh sampleEnv ⟨true⟩ 20 "t1"
          (refresh sampleEnv ⟨true⟩ 10 "s1" sampleDbReplay ⟨some "s0", none, none⟩).db
          ⟨some "t", none, none⟩).outcome = .sent res ∧
        res.status = 401 ∧ res.body.accessToken = none ∧
        (∀ c o, res.cookie ≠ .set c o) ∧
        (∀ r ∈ (refresh sampleEnv ⟨true⟩ 20 "t1"
            (refresh sampleEnv ⟨true⟩ 10 "s1" sampleDbReplay ⟨some "s0", none, none⟩).db
            ⟨some "t", none, none⟩).db.refresh_tokens,
          r ∈ (refresh sampleEnv ⟨true⟩ 10 "s1" sampleDbReplay
            ⟨some "s0", none, none⟩).db.refresh_tokens) ∧
        (refresh sampleEnv ⟨true⟩ 20 "t1"
            (refresh sampleEnv ⟨true⟩ 10 "s1" sampleDbReplay ⟨some "s0", none, none⟩).db
            ⟨some "t", none, none⟩).db.refresh_tokens_revoked
          = (refresh sampleEnv ⟨true⟩ 10 "s1" sampleDbReplay
            ⟨some "s0", none, none⟩).db.refresh_tokens_revoked :=
  reuse_cascades sampleEnv ⟨true⟩ 10 20 "s0" "s1" "t" "t1" sampleDbReplay none none none none
    { token_hash := "sha:s0", user_id := "u1", revoked_at := 5 }
    (by decide) (by decide) (by decide)

/-- C3. Scenario login, refresh, replay: a valid login issues secret `s0`; a
refresh with `s0` before its expiry issues `s1`; a second refresh with `s0`
answers 401 with the reuse message; and a refresh with the newest secret `s1`
then answers 401 with the message for an invalid or expired token.  Both
secrets are freshly generated: the hash of each occurs in neither table of the
store in which it is drawn. -/
theorem login_refresh_replay (env : Env) (schema : Schema) (t0 t1 t2 t3 : Timestamp)
    (s0 s1 s2 s3 email password : String) (db : Db)
    (ip0 ua0 ip1 ua1 ip2 ua2 ip3 ua3 : Option String) (user : UserRow)
    (he : email ≠ "") (hp : password ≠ "")
    (huser : findUserByEmail db email = some user)
    (hpw : env.bcryptCompare password user.password = true)
    (hs0 : s0 ≠ "") (hs1 : s1 ≠ "")
    (hfresh0 : Fresh db (env.hashToken s0))
    (hfresh1 : Fresh (login env schema t0 s0 db ⟨some email, some password, ip0, ua0⟩).db
      (env.hashToken s1))
    (htime : t1 < t0 + sevenDays) :
    (login env schema t0 s0 db ⟨some email, some password, ip0, ua0⟩).outcome
        = .sent ⟨200, loginBody user, setRefreshCookie env s0⟩ ∧
      (∃ u, u.id = user.id ∧
        (refresh env schema t1 s1
          (login env schema t0 s0 db ⟨some email, some password, ip0, ua0⟩).db
          ⟨some s0, ip1, ua1⟩).outcome
          = .sent ⟨200, refreshBody u, setRefreshCookie env s1⟩) ∧
      (refresh env schema t2 s2
        (refresh env schema t1 s1
          (login env schema t0 s0 db ⟨some email, some password, ip0, ua0⟩).db
          ⟨some s0, ip1, ua1⟩).db
        ⟨some s0, ip2, ua2⟩).outcome = .sent reuseDetected ∧
      (refresh env schema t3 s3
        (refresh env schema t2 s2
          (refresh env schema t1 s1
            (login env schema t0 s0 db ⟨some email, some password, ip0, ua0⟩).db
            ⟨some s0, ip1, ua1⟩).db
          ⟨some s0, ip2, ua2⟩).db
        ⟨some s1, ip3, ua3⟩).outcome = .sent invalidOrExpired := by
  have e1 := login_of_valid env schema t0 s0 db email password ip0 ua0 user he hp huser hpw
    (fun _ => hfresh0.1)
  rw [e1] at hfresh1 ⊢
  obtain ⟨hf1a, hf1r⟩ := hfresh1
  simp only at hf1a hf1r
  have hne : env.hashToken s1 ≠ env.hashToken s0 := by
    intro hc
    exact hf1a (sessionRow user.id (env.hashToken s0) ip0 ua0 t0) (by simp) hc.symm
  have hsel : (selectActiveByHash
      { db with refresh_tokens :=
          db.refresh_tokens ++ [sessionRow user.id (env.hashToken s0) ip0 ua0 t0] }
      (env.hashToken s0) t1).head?
      = some (sessionRow user.id (env.hashToken s0) ip0 ua0 t0) := by
    have hnil : List.filter
        (fun r : RefreshToken => r.token_hash == env.hashToken s0 && decide (r.expires_at > t1))
        db.refresh_tokens = [] := by
      rw [List.filter_eq_nil_iff]
      intro r hr
      simp [hfresh0.1 r hr]
    simp [selectActiveByHash, List.filter_append, hnil, sessionRow, htime]
  have e2 := refresh_of_active env schema t1 s0 s1 _ ip1 ua1 _ hs0 hsel (fun _ => hf1a)
  obtain ⟨u, hu, hid⟩ := findUserById_of_findUserByEmail db email user huser
  have hu2 : findUserById
      { db with refresh_tokens :=
          db.refresh_tokens ++ [sessionRow user.id (env.hashToken s0) ip0 ua0 t0] }
      (sessionRow user.id (env.hashToken s0) ip0 ua0 t0).user_id = some u := hu
  rw [hu2] at e2
  rw [e2]
  have e3 := refresh_of_not_active env schema t2 s0 s2
    (rotated { db with refresh_tokens :=
        db.refresh_tokens ++ [sessionRow user.id (env.hashToken s0) ip0 ua0 t0] }
      (env.hashToken s0) (env.hashToken s1)
      (sessionRow user.id (env.hashToken s0) ip0 ua0 t0) ip1 ua1 t1) ip2 ua2 hs0
    (by rw [selectActive_rotated _ _ _ _ _ _ _ _ hne]; rfl)
  have hrev := revoked_head_insertRevoked
    { db with refresh_tokens :=
        db.refresh_tokens ++ [sessionRow user.id (env.hashToken s0) ip0 ua0 t0] }
    (env.hashToken s0) user.id t1
  have hrevnone : (selectRevokedByHash
      { db with refresh_tokens :=
          db.refresh_tokens ++ [sessionRow user.id (env.hashToken s0) ip0 ua0 t0] }
      (env.hashToken s0)).head? = none :=
    head?_filter_none _ _ (fun e hm => by simpa using hfresh0.2 e hm)
  rw [hrevnone] at hrev
  have hrev2 : (selectRevokedByHash
      (rotated { db with refresh_tokens :=
          db.refresh_tokens ++ [sessionRow user.id (env.hashToken s0) ip0 ua0 t0] }
        (env.hashToken s0) (env.hashToken s1)
        (sessionRow user.id (env.hashToken s0) ip0 ua0 t0) ip1 ua1 t1)
      (env.hashToken s0)).head?
      = some { token_hash := env.hashToken s0, user_id := user.id, revoked_at := t1 } := hrev
  rw [hrev2] at e3
  simp only at e3
  rw [e3]
  refine ⟨rfl, ⟨u, hid, rfl⟩, rfl, ?_⟩
  rw [refresh_of_not_active env schema t3 s1 s3 _ ip3 ua3 hs1]
  · rw [show (selectRevokedByHash _ (env.hashToken s1)).head? = none from ?_]
    apply head?_filter_none
    intro e hm
    have := revoked_other_insertRevoked
      { db with refresh_tokens :=
          db.refresh_tokens ++ [sessionRow user.id (env.hashToken s0) ip0 ua0 t0] }
      (env.hashToken s0) (env.hashToken s1) user.id t1 hne hf1r e hm
    simpa using this
  · apply head?_filter_none
    intro r hm
    simp only [deleteTokensOfUser, rotated, List.mem_filter, List.mem_append,
      List.mem_singleton] at hm
    obtain ⟨hm, hq⟩ := hm
    rcases hm with ⟨hm, _⟩ | hm
    · have hm2 : r ∈ db.refresh_tokens ++ [sessionRow user.id (env.hashToken s0) ip0 ua0 t0] := by
        simpa using hm
      simp [hf1a r hm2]
    · subst hm
      simp [sessionRow] at hq

/-- Witness of `login_refresh_replay` on the sample store. -/
theorem login_refresh_replay_witness :
    (login sampleEnv ⟨true⟩ 0 "s0" sampleDb
        ⟨some "a@x.com", some "correctpw", none, none⟩).outcome
        = .sent ⟨200, loginBody sampleUser, setRefreshCookie sampleEnv "s0"⟩ ∧
      (∃ u, u.id = sampleUser.id ∧
        (refresh sampleEnv ⟨true⟩ 1 "s1"
          (login sampleEnv ⟨true⟩ 0 "s0" sampleDb
            ⟨some "a@x.com", some "correctpw", none, none⟩).db
          ⟨some "s0", none, none⟩).outcome
          = .sent ⟨200, refreshBody u, setRefreshCookie sampleEnv "s1"⟩) ∧
      (refresh sampleEnv ⟨true⟩ 2 "s2"
        (refresh sampleEnv ⟨true⟩ 1 "s1"
          (login sampleEnv ⟨true⟩ 0 "s0" sampleDb
            ⟨some "a@x.com", some "correctpw", none, none⟩).db
          ⟨some "s0", none, none⟩).db
        ⟨some "s0", none, none⟩).outcome = .sent reuseDetected ∧
      (refresh sampleEnv ⟨true⟩ 3 "s3"
        (refresh sampleEnv ⟨true⟩ 2 "s2"
          (refresh sampleEnv ⟨true⟩ 1 "s1"
            (login sampleEnv ⟨true⟩ 0 "s0" sampleDb
              ⟨some "a@x.com", some "correctpw", none, none⟩).db
            ⟨some "s0", none, none⟩).db
          ⟨some "s0", none, none⟩).db
        ⟨some "s1", none, none⟩).outcome = .sent invalidOrExpired :=
  login_refresh_replay sampleEnv ⟨true⟩ 0 1 2 3 "s0" "s1" "s2" "s3" "a@x.com" "correctpw"
    sampleDb none none none none none none none none sampleUser
    (by decide) (by decide) (by decide) (by decide) (by decide) (by decide)
    ⟨by decide, by decide⟩ ⟨by decide, by decide⟩ (by decide)

/-- C4. Postcondition of a successful rotation: when the hash of the cookie secret
has an unexpired active row `stored` owned by principal `P`, the successor
secret has another hash, and the history is keyed by hash with any entry
already present for this hash being the one of `P`, then refresh leaves a store
whose history holds exactly one entry for the old hash, owned by `P` (the
history is unchanged or extended by that one entry), whose active table has no
row with the old hash and is the old table without those rows followed by one
new row for `P` with the new hash and expiry `now + 7 days`, and whose users
are unchanged; the reply is 200 with an access token for `P` and the new secret
in the cookie. -/
theorem rotation_postcondition (env : Env) (schema : Schema) (now : Timestamp)
    (s s' : String) (db : Db) (ip ua : Option String) (stored : RefreshToken) (P : UserInfo)
    (hs : s ≠ "")
    (hstored : (selectActiveByHash db (env.hashToken s) now).head? = some stored)
    (hP : findUserById db stored.user_id = some P)
    (hne : env.hashToken s' ≠ env.hashToken s)
    (hfresh : schema.refresh_token_hash_unique = true →
      ∀ r ∈ db.refresh_tokens, r.token_hash ≠ env.hashToken s')
    (hkey : (selectRevokedByHash db (env.hashToken s)).length ≤ 1)
    (hown : ∀ e ∈ db.refresh_tokens_revoked, e.token_hash = env.hashToken s →
      e.user_id = stored.user_id) :
    (∃ e, selectRevokedByHash (refresh env schema now s' db ⟨some s, ip, ua⟩).db
        (env.hashToken s) = [e] ∧ e.user_id = stored.user_id) ∧
      ((refresh env schema now s' db ⟨some s, ip, ua⟩).db.refresh_tokens_revoked
          = db.refresh_tokens_revoked ∨
        (refresh env schema now s' db ⟨some s, ip, ua⟩).db.refresh_tokens_revoked
          = db.refresh_tokens_revoked ++
            [{ token_hash := env.hashToken s, user_id := stored.user_id, revoked_at := now }]) ∧
      (∀ r ∈ (refresh env schema now s' db ⟨some s, ip, ua⟩).db.refresh_tokens,
        r.token_hash ≠ env.hashToken s) ∧
      (refresh env schema now s' db ⟨some s, ip, ua⟩).db.refresh_tokens
        = db.refresh_tokens.filter (fun r => !(r.token_hash == env.hashToken s)) ++
          [{ user_id := stored.user_id, token_hash := env.hashToken s', ip := ip,
             user_agent := ua, expires_at := now + sevenDays }] ∧
      (refresh env schema now s' db ⟨some s, ip, ua⟩).db.users = db.users ∧
      P.id = stored.user_id ∧
      (refresh env schema now s' db ⟨some s, ip, ua⟩).outcome
        = .sent ⟨200,
            { success := true, error := none, message := none,
              accessToken := some (generateAccessToken P.id P.email P.role), user := none },
            .set s' (refreshCookieOptions env)⟩ := by
  rw [refresh_of_active env schema now s s' db ip ua stored hs hstored hfresh]
  simp only [hP]
  refine ⟨?_, ?_, ?_, rfl, rfl, ?_, rfl⟩
  · simp only [selectRevokedByHash, rotated, insertRevoked]
    split
    · next hany =>
      rw [List.any_eq_true] at hany
      obtain ⟨x, hx, hxh⟩ := hany
      have hmem : x ∈ selectRevokedByHash db (env.hashToken s) :=
        List.mem_filter.mpr ⟨hx, hxh⟩
      cases hl : selectRevokedByHash db (env.hashToken s) with
      | nil => rw [hl] at hmem; cases hmem
      | cons e es =>
        rw [hl] at hkey
        have hes : es = [] := by
          cases es with
          | nil => rfl
          | cons _ _ => simp at hkey
        subst hes
        refine ⟨e, hl, ?_⟩
        have he : e ∈ selectRevokedByHash db (env.hashToken s) := by rw [hl]; simp
        have he2 := List.mem_filter.mp he
        exact hown e he2.1 (by simpa using he2.2)
    · next hany =>
      have hnil : List.filter (fun r => r.token_hash == env.hashToken s)
          db.refresh_tokens_revoked = [] := by
        rw [List.filter_eq_nil_iff]
        intro e he heq
        exact hany (List.any_eq_true.mpr ⟨e, he, heq⟩)
      exact ⟨{ token_hash := env.hashToken s, user_id := stored.user_id, revoked_at := now },
        by simp [List.filter_append, hnil], rfl⟩
  · simp only [rotated, insertRevoked]
    split
    · exact Or.inl rfl
    · exact Or.inr rfl
  · intro r hr
    simp only [rotated, sessionRow, List.mem_append, List.mem_filter, List.mem_singleton] at hr
    rcases hr with ⟨_, hr⟩ | hr
    · simpa using hr
    · subst hr
      exact hne
  · unfold findUserById at hP
    cases hf : db.users.find? (fun u => u.id == stored.user_id) with
    | none => rw [hf] at hP; cases hP
    | some u =>
      rw [hf] at hP
      have hu := List.find?_some hf
      cases hP
      simpa [UserRow.info] using hu

/-- Witness of `rotation_postcondition` on a sample store whose history already
holds the hash. -/
theorem rotation_postcondition_witness :
    (refresh sampleEnv ⟨true⟩ 10 "s1" sampleDbBoth ⟨some "s0", none, none⟩).db.refresh_tokens
        = [{ user_id := "u2", token_hash := "sha:z", ip := none, user_agent := none,
             expires_at := 1000 },
           { user_id := "u1", token_hash := "sha:s1", ip := none, user_agent := none,
             expires_at := 10 + sevenDays }] ∧
      (refresh sampleEnv ⟨true⟩ 10 "s1" sampleDbBoth
        ⟨some "s0", none, none⟩).db.refresh_tokens_revoked
        = sampleDbBoth.refresh_tokens_revoked :=
  have h := rotation_postcondition sampleEnv ⟨true⟩ 10 "s0" "s1" sampleDbBoth none none
    { user_id := "u1", token_hash := "sha:s0", ip := none, user_agent := none,
      expires_at := 1000 }
    sampleUser.info (by decide) (by decide) (by decide) (by decide) (by decide) (by decide)
    (by decide)
  ⟨h.2.2.2.1, by decide⟩

/-- C5. Postcondition of a valid login: when the email locates an active principal,
the password matches its stored hash and the drawn secret is fresh (no active
row carries its hash), the reply is 200 with the secret in the cookie, exactly
one active row carries the hash of that secret, this row belongs to the
principal and expires at `now + 7 days`, and the rows present before the call
are all kept unchanged (the new row is appended; history and users are as
before). -/
theorem login_postcondition (env : Env) (schema : Schema) (now : Timestamp) (raw : String)
    (db : Db) (email password : String) (ip ua : Option String) (user : UserRow)
    (he : email ≠ "") (hp : password ≠ "")
    (huser : findUserByEmail db email = some user)
    (hpw : env.bcryptCompare password user.password = true)
    (hfresh : ∀ r ∈ db.refresh_tokens, r.token_hash ≠ env.hashToken raw) :
    (login env schema now raw db ⟨some email, some password, ip, ua⟩).outcome
        = .sent ⟨200, loginBody user, .set raw (refreshCookieOptions env)⟩ ∧
      (login env schema now raw db
          ⟨some email, some password, ip, ua⟩).db.refresh_tokens.filter
          (fun r => r.token_hash == env.hashToken raw)
        = [{ user_id := user.id, token_hash := env.hashToken raw, ip := ip,
             user_agent := ua, expires_at := now + sevenDays }] ∧
      (login env schema now raw db ⟨some email, some password, ip, ua⟩).db.refresh_tokens
        = db.refresh_tokens ++
          [{ user_id := user.id, token_hash := env.hashToken raw, ip := ip,
             user_agent := ua, expires_at := now + sevenDays }] ∧
      (login env schema now raw db
          ⟨some email, some password, ip, ua⟩).db.refresh_tokens_revoked
        = db.refresh_tokens_revoked ∧
      (login env schema now raw db ⟨some email, some password, ip, ua⟩).db.users
        = db.users := by
  rw [login_of_valid env schema now raw db email password ip ua user he hp huser hpw
    (fun _ => hfresh)]
  refine ⟨rfl, ?_, rfl, rfl, rfl⟩
  have hnil : List.filter (fun r : RefreshToken => r.token_hash == env.hashToken raw)
      db.refresh_tokens = [] := by
    rw [List.filter_eq_nil_iff]
    intro r hr
    simpa using hfresh r hr
  simp [List.filter_append, hnil, sessionRow]

/-- Witness of `login_postcondition`: a login on a sample store that already
holds a session. -/
theorem login_postcondition_witness :
    (login sampleEnv ⟨true⟩ 7 "s9" sampleDbSession
        ⟨some "a@x.com", some "correctpw", some "10.0.0.1", none⟩).db.refresh_tokens
      = sampleDbSession.refresh_tokens ++
          [{ user_id := "u1", token_hash := "sha:s9", ip := some "10.0.0.1",
             user_agent := none, expires_at := 7 + sevenDays }] :=
  (login_postcondition sampleEnv ⟨true⟩ 7 "s9" sampleDbSession "a@x.com" "correctpw"
    (some "10.0.0.1") none sampleUser (by decide) (by decide) (by decide) (by decide)
    (by decide)).2.2.1

/-- C6. Expiry fails closed: when the only active row for the hash of the cookie
secret is `r` and `r` expired before `now`, refresh replies as it does on the
store without `r` and leaves the same store up to the presence of `r`; the
reply is 401 without access token, the reuse reply when the hash is in the
history and the invalid-or-expired reply otherwise; no active row is created;
and in the invalid-or-expired case the store, with `r` in it, is unchanged. -/
theorem expiry_fails_closed (env : Env) (schema : Schema) (now : Timestamp) (s s' : String)
    (db : Db) (ip ua : Option String) (r : RefreshToken)
    (hs : s ≠ "")
    (hr : r ∈ db.refresh_tokens)
    (hrh : r.token_hash = env.hashToken s)
    (hexp : r.expires_at < now)
    (honly : ∀ x ∈ db.refresh_tokens, x.token_hash = env.hashToken s → x = r) :
    (refresh env schema now s' db ⟨some s, ip, ua⟩).outcome
        = (refresh env schema now s' (removeRow db r) ⟨some s, ip, ua⟩).outcome ∧
      (refresh env schema now s' (removeRow db r) ⟨some s, ip, ua⟩).db
        = removeRow (refresh env schema now s' db ⟨some s, ip, ua⟩).db r ∧
      (∃ res, (refresh env schema now s' db ⟨some s, ip, ua⟩).outcome = .sent res ∧
        res.status = 401 ∧ res.body.accessToken = none) ∧
      ((∃ e ∈ db.refresh_tokens_revoked, e.token_hash = env.hashToken s) →
        (refresh env schema now s' db ⟨some s, ip, ua⟩).outcome = .sent reuseDetected) ∧
      ((∀ e ∈ db.refresh_tokens_revoked, e.token_hash ≠ env.hashToken s) →
        (refresh env schema now s' db ⟨some s, ip, ua⟩).outcome = .sent invalidOrExpired ∧
        (refresh env schema now s' db ⟨some s, ip, ua⟩).db = db ∧
        r ∈ (refresh env schema now s' db ⟨some s, ip, ua⟩).db.refresh_tokens) ∧
      (∀ x ∈ (refresh env schema now s' db ⟨some s, ip, ua⟩).db.refresh_tokens,
        x ∈ db.refresh_tokens) := by
  have hnone : (selectActiveByHash db (env.hashToken s) now).head? = none := by
    apply head?_filter_none
    intro x hx
    by_cases hxh : x.token_hash = env.hashToken s
    · have := honly x hx hxh
      subst this
      simp [not_lt.mpr (le_of_lt hexp)]
    · simp [hxh]
  have hnoneR : (selectActiveByHash (removeRow db r) (env.hashToken s) now).head? = none := by
    apply head?_filter_none
    intro x hx
    simp only [removeRow, List.mem_filter] at hx
    by_cases hxh : x.token_hash = env.hashToken s
    · have := honly x hx.1 hxh
      subst this
      simp [not_lt.mpr (le_of_lt hexp)]
    · simp [hxh]
  rw [refresh_of_not_active env schema now s s' db ip ua hs hnone,
    refresh_of_not_active env schema now s s' (removeRow db r) ip ua hs hnoneR]
  have hsame : selectRevokedByHash (removeRow db r) (env.hashToken s)
      = selectRevokedByHash db (env.hashToken s) := rfl
  rw [hsame]
  cases hrev : (selectRevokedByHash db (env.hashToken s)).head? with
  | none =>
    refine ⟨rfl, rfl, ⟨invalidOrExpired, rfl, rfl, rfl⟩, ?_, ?_, fun x hx => hx⟩
    · rintro ⟨e, he, heq⟩
      have hmem : e ∈ selectRevokedByHash db (env.hashToken s) :=
        List.mem_filter.mpr ⟨he, by simpa using heq⟩
      cases hl : selectRevokedByHash db (env.hashToken s) with
      | nil => rw [hl] at hmem; cases hmem
      | cons y ys => rw [hl] at hrev; cases hrev
    · intro _
      exact ⟨rfl, rfl, hr⟩
  | some rv =>
    refine ⟨rfl, ?_, ⟨reuseDetected, rfl, rfl, rfl⟩, fun _ => rfl, ?_, ?_⟩
    · simp only [deleteTokensOfUser, removeRow, List.filter_filter, Bool.and_comm]
    · intro hno
      have hmem : rv ∈ selectRevokedByHash db (env.hashToken s) := by
        cases hl : selectRevokedByHash db (env.hashToken s) with
        | nil => rw [hl] at hrev; cases hrev
        | cons y ys =>
          rw [hl] at hrev
          cases hrev
          simp
      have h2 := List.mem_filter.mp hmem
      exact absurd (by simpa using h2.2) (hno rv h2.1)
    · intro x hx
      simp only [deleteTokensOfUser, List.mem_filter] at hx
      exact hx.1

/-- Witness of `expiry_fails_closed`: the session of the sample store, read
after its expiry. -/
theorem expiry_fails_closed_witness :
    (refresh sampleEnv ⟨true⟩ 2000 "s1" sampleDbSession ⟨some "s0", none, none⟩).outcome
        = .sent invalidOrExpired ∧
      (refresh sampleEnv ⟨true⟩ 2000 "s1" sampleDbSession ⟨some "s0", none, none⟩).db
        = sampleDbSession :=
  have h := (expiry_fails_closed sampleEnv ⟨true⟩ 2000 "s0" "s1" sampleDbSession none none
    { user_id := "u1", token_hash := "sha:s0", ip := none, user_agent := none,
      expires_at := 1000 }
    (by decide) (by decide) (by decide) (by decide) (by decide)).2.2.2.2.1 (by decide)
  ⟨h.1, h.2.1⟩


/-- The handler `logout` on a cookie that is a string or absent is idempotent:
for every store and every such cookie value logout answers 200 with the
success body and clears the cookie, and a
second logout with the same request gives the same reply and the same store as
the first. -/
theorem logout_idempotent (env : Env) (db : Db) (req : CookieRequest) :
    (logout env db req).outcome = .sent ⟨200, logoutBody, .cleared⟩ ∧
      logout env (logout env db req).db req = logout env db req := by
  unfold logout
  cases ht : truthy req.refreshToken with
  | none => simp
  | some raw => simp [deleteTokensByHash, List.filter_filter]

/-- C8. Sessions of one principal are independent: two valid logins of the same
principal with freshly drawn secrets `a` and `b` leave two distinct active rows
of that principal; after a logout with `a` the row of `b` is still the one
active row for its hash, and a refresh with `b` before its expiry answers 200
with an access token for the principal and a new cookie. -/
theorem sessions_independent (env : Env) (schema : Schema) (t0 t1 t3 : Timestamp)
    (a b c email password : String) (db : Db)
    (ip0 ua0 ip1 ua1 ip2 ua2 ip3 ua3 : Option String) (user : UserRow)
    (he : email ≠ "") (hp : password ≠ "")
    (huser : findUserByEmail db email = some user)
    (hpw : env.bcryptCompare password user.password = true)
    (hb : b ≠ "")
    (hfa : ∀ r ∈ db.refresh_tokens, r.token_hash ≠ env.hashToken a)
    (hfb : ∀ r ∈ (login env schema t0 a db
      ⟨some email, some password, ip0, ua0⟩).db.refresh_tokens,
      r.token_hash ≠ env.hashToken b)
    (hfc : schema.refresh_token_hash_unique = true →
      ∀ r ∈ (logout env
          (login env schema t1 b
            (login env schema t0 a db ⟨some email, some password, ip0, ua0⟩).db
            ⟨some email, some password, ip1, ua1⟩).db
          ⟨some a, ip2, ua2⟩).db.refresh_tokens,
        r.token_hash ≠ env.hashToken c)
    (htime : t3 < t1 + sevenDays) :
    (login env schema t1 b
        (login env schema t0 a db ⟨some email, some password, ip0, ua0⟩).db
        ⟨some email, some password, ip1, ua1⟩).db.refresh_tokens
        = db.refresh_tokens ++
          [{ user_id := user.id, token_hash := env.hashToken a, ip := ip0,
             user_agent := ua0, expires_at := t0 + sevenDays },
           { user_id := user.id, token_hash := env.hashToken b, ip := ip1,
             user_agent := ua1, expires_at := t1 + sevenDays }] ∧
      env.hashToken a ≠ env.hashToken b ∧
      (logout env
          (login env schema t1 b
            (login env schema t0 a db ⟨some email, some password, ip0, ua0⟩).db
            ⟨some email, some password, ip1, ua1⟩).db
          ⟨some a, ip2, ua2⟩).db.refresh_tokens.filter
          (fun r => r.token_hash == env.hashToken b)
        = [{ user_id := user.id, token_hash := env.hashToken b, ip := ip1,
             user_agent := ua1, expires_at := t1 + sevenDays }] ∧
      ∃ u, u.id = user.id ∧
        (refresh env schema t3 c
          (logout env
            (login env schema t1 b
              (login env schema t0 a db ⟨some email, some password, ip0, ua0⟩).db
              ⟨some email, some password, ip1, ua1⟩).db
            ⟨some a, ip2, ua2⟩).db
          ⟨some b, ip3, ua3⟩).outcome
          = .sent ⟨200, refreshBody u, setRefreshCookie env c⟩ := by
  have e1 := login_of_valid env schema t0 a db email password ip0 ua0 user he hp huser hpw
    (fun _ => hfa)
  rw [e1] at hfb hfc ⊢
  simp only at hfb
  have e2 := login_of_valid env schema t1 b
    { db with refresh_tokens :=
        db.refresh_tokens ++ [sessionRow user.id (env.hashToken a) ip0 ua0 t0] }
    email password ip1 ua1 user he hp huser hpw (fun _ => hfb)
  rw [e2] at hfc ⊢
  have hab : env.hashToken a ≠ env.hashToken b :=
    hfb (sessionRow user.id (env.hashToken a) ip0 ua0 t0) (by simp)
  have hfb0 : ∀ r ∈ db.refresh_tokens, r.token_hash ≠ env.hashToken b :=
    fun r hr => hfb r (by simp [hr])
  have hnilb : List.filter (fun r : RefreshToken => r.token_hash == env.hashToken b)
      db.refresh_tokens = [] := by
    rw [List.filter_eq_nil_iff]
    intro r hr
    simpa using hfb0 r hr
  have hfilter : (logout env
      { db with refresh_tokens :=
          (db.refresh_tokens ++ [sessionRow user.id (env.hashToken a) ip0 ua0 t0]) ++
            [sessionRow user.id (env.hashToken b) ip1 ua1 t1] }
      ⟨some a, ip2, ua2⟩).db.refresh_tokens.filter
        (fun r => r.token_hash == env.hashToken b)
      = [sessionRow user.id (env.hashToken b) ip1 ua1 t1] := by
    unfold logout
    cases hta : truthy (some a) with
    | none =>
      simp [List.filter_append, hnilb, sessionRow, hab]
    | some raw =>
      have hraw : raw = a := by
        simp only [truthy] at hta
        split at hta
        · cases hta
        · exact (Option.some.inj hta).symm
      subst hraw
      simp only [deleteTokensByHash, List.filter_filter]
      have hnil2 : List.filter
          (fun r : RefreshToken =>
            r.token_hash == env.hashToken b && !(r.token_hash == env.hashToken raw))
          db.refresh_tokens = [] := by
        rw [List.filter_eq_nil_iff]
        intro r hr
        simp [hfb0 r hr]
      simp [List.filter_append, hnil2, sessionRow, hab, Ne.symm hab]
  refine ⟨by simp [sessionRow], hab, hfilter, ?_⟩
  obtain ⟨u, hu, hid⟩ := findUserById_of_findUserByEmail db email user huser
  have hsel : (selectActiveByHash
      (logout env
        { db with refresh_tokens :=
            (db.refresh_tokens ++ [sessionRow user.id (env.hashToken a) ip0 ua0 t0]) ++
              [sessionRow user.id (env.hashToken b) ip1 ua1 t1] }
        ⟨some a, ip2, ua2⟩).db (env.hashToken b) t3).head?
      = some (sessionRow user.id (env.hashToken b) ip1 ua1 t1) := by
    have hsplit : selectActiveByHash
        (logout env
          { db with refresh_tokens :=
              (db.refresh_tokens ++ [sessionRow user.id (env.hashToken a) ip0 ua0 t0]) ++
                [sessionRow user.id (env.hashToken b) ip1 ua1 t1] }
          ⟨some a, ip2, ua2⟩).db (env.hashToken b) t3
        = ((logout env
          { db with refresh_tokens :=
              (db.refresh_tokens ++ [sessionRow user.id (env.hashToken a) ip0 ua0 t0]) ++
                [sessionRow user.id (env.hashToken b) ip1 ua1 t1] }
          ⟨some a, ip2, ua2⟩).db.refresh_tokens.filter
            (fun r => r.token_hash == env.hashToken b)).filter
            (fun r => decide (r.expires_at > t3)) := by
      simp only [selectActiveByHash, List.filter_filter, Bool.and_comm]
    rw [hsplit, hfilter]
    simp [sessionRow, htime]
  have hdbu : (logout env
      { db with refresh_tokens :=
          (db.refresh_tokens ++ [sessionRow user.id (env.hashToken a) ip0 ua0 t0]) ++
            [sessionRow user.id (env.hashToken b) ip1 ua1 t1] }
      ⟨some a, ip2, ua2⟩).db.users = db.users := by
    unfold logout
    split <;> rfl
  have e4 := refresh_of_active env schema t3 b c _ ip3 ua3 _ hb hsel hfc
  have hu2 : findUserById
      (logout env
        { db with refresh_tokens :=
            (db.refresh_tokens ++ [sessionRow user.id (env.hashToken a) ip0 ua0 t0]) ++
              [sessionRow user.id (env.hashToken b) ip1 ua1 t1] }
        ⟨some a, ip2, ua2⟩).db
      (sessionRow user.id (env.hashToken b) ip1 ua1 t1).user_id = some u := by
    unfold findUserById at hu ⊢
    rw [hdbu]
    exact hu
  rw [hu2] at e4
  rw [e4]
  exact ⟨u, hid, rfl⟩

/-- Witness of `sessions_independent`: two logins of the sample account, a
logout of the first session and a refresh of the second. -/
theorem sessions_independent_witness :
    ∃ u, u.id = sampleUser.id ∧
      (refresh sampleEnv ⟨true⟩ 3 "c"
        (logout sampleEnv
          (login sampleEnv ⟨true⟩ 1 "b"
            (login sampleEnv ⟨true⟩ 0 "a" sampleDb
              ⟨some "a@x.com", some "correctpw", none, none⟩).db
            ⟨some "a@x.com", some "correctpw", none, none⟩).db
          ⟨some "a", none, none⟩).db
        ⟨some "b", none, none⟩).outcome
        = .sent ⟨200, refreshBody u, setRefreshCookie sampleEnv "c"⟩ :=
  (sessions_independent sampleEnv ⟨true⟩ 0 1 3 "a" "b" "c" "a@x.com" "correctpw" sampleDb
    none none none none none none none none sampleUser
    (by decide) (by decide) (by decide) (by decide) (by decide) (by decide) (by decide)
    (by decide) (by decide)).2.2.2

/-- C9. Sweep convergence: after the cleanup job has run at clock reading `now`,
every remaining active row expires at `now` or later and every remaining
history row was revoked at `now - 7 days` or later; the rows that satisfied
these bounds before the run are all still present, and no row is added. -/
theorem cleanup_converges (now : Timestamp) (db : Db) :
    (∀ r ∈ (cleanupTokens now db).refresh_tokens, r.expires_at ≥ now) ∧
      (∀ e ∈ (cleanupTokens now db).refresh_tokens_revoked,
        e.revoked_at ≥ now - sevenDays) ∧
      (∀ r ∈ db.refresh_tokens, r.expires_at ≥ now →
        r ∈ (cleanupTokens now db).refresh_tokens) ∧
      (∀ e ∈ db.refresh_tokens_revoked, e.revoked_at ≥ now - sevenDays →
        e ∈ (cleanupTokens now db).refresh_tokens_revoked) ∧
      (cleanupTokens now db).refresh_tokens.Sublist db.refresh_tokens ∧
      (cleanupTokens now db).refresh_tokens_revoked.Sublist db.refresh_tokens_revoked ∧
      (cleanupTokens now db).users = db.users := by
  unfold cleanupTokens
  refine ⟨?_, ?_, ?_, ?_, List.filter_sublist _, List.filter_sublist _, rfl⟩
  · intro r hr
    simp only [List.mem_filter, Bool.not_eq_true', decide_eq_false_iff_not, not_lt] at hr
    exact hr.2
  · intro e he
    simp only [List.mem_filter, Bool.not_eq_true', decide_eq_false_iff_not, not_lt] at he
    exact he.2
  · intro r hr hb
    simp only [List.mem_filter, Bool.not_eq_true', decide_eq_false_iff_not, not_lt]
    exact ⟨hr, hb⟩
  · intro e he hb
    simp only [List.mem_filter, Bool.not_eq_true', decide_eq_false_iff_not, not_lt]
    exact ⟨he, hb⟩

/-- No login is ever answered with status 403: `findUserByEmail` returns active
rows only, so the inactive branch of the handler is never taken. -/
theorem login_never_forbidden (env : Env) (schema : Schema) (now : Timestamp) (raw : String)
    (db : Db) (req : LoginRequest) :
    ¬ ∃ res, (login env schema now raw db req).outcome = .sent res ∧ res.status = 403 := by
  rintro ⟨res, hres, hst⟩
  unfold login at hres
  split at hres
  · next email password _ _ =>
    cases hu : findUserByEmail db email with
    | none =>
      simp only [hu] at hres
      cases hres
      simp at hst
    | some user =>
      have hact : user.is_active = true := by
        have := List.find?_some hu
        simp only [Bool.and_eq_true] at this
        exact this.2
      simp only [hu, hact] at hres
      split at hres
      · cases hres
        simp at hst
      · simp only [Bool.not_true, Bool.false_eq_true, if_false] at hres
        split at hres
        · cases hres
        · cases hres
          simp at hst
  · cases hres
    simp at hst

/-- C10 (evaluation at the failing input). The login of the deactivated sample
account with its own email and its correct password is answered with 401 and
the message for invalid credentials, not with 403; no session row is created. -/
theorem login_inactive_is_unauthorized :
    login sampleEnv ⟨true⟩ 0 "s0" sampleDb ⟨some "b@x.com", some "pw2", none, none⟩
      = ⟨sampleDb, .sent ⟨401, errorBody "Invalid credentials", .untouched⟩⟩ ∧
    sampleInactiveUser ∈ sampleDb.users ∧
    sampleInactiveUser.email = "b@x.com" ∧
    sampleInactiveUser.is_active = false ∧
    sampleEnv.bcryptCompare "pw2" sampleInactiveUser.password = true := by
  decide

/-- The handler `login` on body fields that are strings does not tell a wrong
password from an unknown email: a login whose
email locates no principal and a login whose password matches no principal
carrying its email (an existing principal with a wrong password) get the
identical reply,
401 with the message for invalid credentials and no cookie, and each leaves its
store unchanged. -/
theorem login_failures_indistinguishable (env : Env) (schema : Schema)
    (now1 now2 : Timestamp) (raw1 raw2 : String) (db1 db2 : Db)
    (email1 password1 email2 password2 : String) (ip1 ua1 ip2 ua2 : Option String)
    (he1 : email1 ≠ "") (hp1 : password1 ≠ "") (he2 : email2 ≠ "") (hp2 : password2 ≠ "")
    (hunknown : findUserByEmail db1 email1 = none)
    (hwrong : ∀ u ∈ db2.users, u.email = email2 →
      env.bcryptCompare password2 u.password = false) :
    login env schema now1 raw1 db1 ⟨some email1, some password1, ip1, ua1⟩
        = ⟨db1, .sent ⟨401, errorBody "Invalid credentials", .untouched⟩⟩ ∧
      login env schema now2 raw2 db2 ⟨some email2, some password2, ip2, ua2⟩
        = ⟨db2, .sent ⟨401, errorBody "Invalid credentials", .untouched⟩⟩ ∧
      (login env schema now1 raw1 db1 ⟨some email1, some password1, ip1, ua1⟩).outcome
        = (login env schema now2 raw2 db2 ⟨some email2, some password2, ip2, ua2⟩).outcome := by
  have h1 : login env schema now1 raw1 db1 ⟨some email1, some password1, ip1, ua1⟩
      = ⟨db1, .sent ⟨401, errorBody "Invalid credentials", .untouched⟩⟩ := by
    unfold login
    simp only [truthy_of_ne_empty he1, truthy_of_ne_empty hp1, hunknown]
  have h2 : login env schema now2 raw2 db2 ⟨some email2, some password2, ip2, ua2⟩
      = ⟨db2, .sent ⟨401, errorBody "Invalid credentials", .untouched⟩⟩ := by
    unfold login
    simp only [truthy_of_ne_empty he2, truthy_of_ne_empty hp2]
    cases hf : findUserByEmail db2 email2 with
    | none => rfl
    | some u =>
      have hmem : u ∈ db2.users := List.mem_of_find?_eq_some hf
      have hu := List.find?_some hf
      simp only [Bool.and_eq_true, beq_iff_eq] at hu
      simp [hwrong u hmem hu.1]
  exact ⟨h1, h2, by rw [h1, h2]⟩

/-- Witness of `login_failures_indistinguishable`: an unknown email and the
sample account with a wrong password. -/
theorem login_failures_indistinguishable_witness :
    (login sampleEnv ⟨true⟩ 1 "r1" sampleDb ⟨some "nobody@x.com", some "pw", none, none⟩).outcome
      = (login sampleEnv ⟨true⟩ 2 "r2" sampleDb
          ⟨some "a@x.com", some "wrongpw", none, none⟩).outcome :=
  (login_failures_indistinguishable sampleEnv ⟨true⟩ 1 2 "r1" "r2" sampleDb sampleDb
    "nobody@x.com" "pw" "a@x.com" "wrongpw" none none none none
    (by decide) (by decide) (by decide) (by decide) (by decide) (by decide)).2.2

/-- A refresh with a non-empty secret whose hash has only expired active rows
and no history entry gets the invalid-or-expired reply and changes nothing. -/
theorem refresh_of_unknown (env : Env) (schema : Schema) (now : Timestamp) (s s' : String)
    (db : Db) (ip ua : Option String)
    (hs : s ≠ "")
    (hexp : ∀ r ∈ db.refresh_tokens, r.token_hash = env.hashToken s → r.expires_at ≤ now)
    (hrev : ∀ e ∈ db.refresh_tokens_revoked, e.token_hash ≠ env.hashToken s) :
    refresh env schema now s' db ⟨some s, ip, ua⟩ = ⟨db, .sent invalidOrExpired⟩ := by
  have hnone : (selectActiveByHash db (env.hashToken s) now).head? = none := by
    apply head?_filter_none
    intro x hx
    by_cases hxh : x.token_hash = env.hashToken s
    · simp [hxh, not_lt.mpr (hexp x hx hxh)]
    · simp [hxh]
  rw [refresh_of_not_active env schema now s s' db ip ua hs hnone]
  have hr : (selectRevokedByHash db (env.hashToken s)).head? = none :=
    head?_filter_none _ _ (fun e hm => by simpa using hrev e hm)
  rw [hr]

/-- C14. Never-existed and naturally expired refresh tokens are not distinguished:
a refresh with a secret whose hash is in neither table and a refresh with a
secret whose hash is only in expired active rows get the identical reply, 401
with the invalid-or-expired message, the cookie untouched and no access token,
and each leaves its store unchanged. -/
theorem refresh_unknown_vs_expired (env : Env) (schema : Schema) (now1 now2 : Timestamp)
    (s1 s2 n1 n2 : String) (db1 db2 : Db) (ip1 ua1 ip2 ua2 : Option String)
    (hs1 : s1 ≠ "") (hs2 : s2 ≠ "")
    (hnever : Fresh db1 (env.hashToken s1))
    (hexp : ∀ x ∈ db2.refresh_tokens, x.token_hash = env.hashToken s2 → x.expires_at ≤ now2)
    (hnorev : ∀ e ∈ db2.refresh_tokens_revoked, e.token_hash ≠ env.hashToken s2) :
    refresh env schema now1 n1 db1 ⟨some s1, ip1, ua1⟩
        = ⟨db1, .sent ⟨401, errorBody "Invalid or expired refresh token", .untouched⟩⟩ ∧
      refresh env schema now2 n2 db2 ⟨some s2, ip2, ua2⟩
        = ⟨db2, .sent ⟨401, errorBody "Invalid or expired refresh token", .untouched⟩⟩ ∧
      (errorBody "Invalid or expired refresh token").accessToken = none := by
  have h1 := refresh_of_unknown env schema now1 s1 n1 db1 ip1 ua1 hs1
    (fun x hx hxh => absurd hxh (hnever.1 x hx)) hnever.2
  have h2 := refresh_of_unknown env schema now2 s2 n2 db2 ip2 ua2 hs2 hexp hnorev
  rw [h1, h2]
  exact ⟨rfl, rfl, rfl⟩

/-- Witness of `refresh_unknown_vs_expired`: an unknown secret and the expired
session of the sample store. -/
theorem refresh_unknown_vs_expired_witness :
    refresh sampleEnv ⟨true⟩ 2000 "n1" sampleDbSession ⟨some "zz", none, none⟩
        = ⟨sampleDbSession,
            .sent ⟨401, errorBody "Invalid or expired refresh token", .untouched⟩⟩ ∧
      refresh sampleEnv ⟨true⟩ 2000 "n2" sampleDbSession ⟨some "s0", none, none⟩
        = ⟨sampleDbSession,
            .sent ⟨401, errorBody "Invalid or expired refresh token", .untouched⟩⟩ :=
  have h := refresh_unknown_vs_expired sampleEnv ⟨true⟩ 2000 2000 "zz" "s0" "n1" "n2"
    sampleDbSession sampleDbSession none none none none
    (by decide) (by decide) ⟨by decide, by decide⟩ (by decide) (by decide)
  ⟨h.1, h.2.1⟩

/-- The handler `refresh` on a cookie that is a string or absent answers every
failure with 401, and only reuse clears the cookie: for a
request that does not rotate (the cookie is missing or empty, or no unexpired
active row carries the hash of its secret) the reply has status 401; the cookie
is cleared exactly when the reply is the reuse reply, which is the case exactly
when the history holds the hash; and a request without cookie gets the same
reply on every store and leaves the store as it is. -/
theorem refresh_failures_are_401 (env : Env) (schema : Schema) (now : Timestamp)
    (n : String) (db : Db) (req : CookieRequest)
    (hfail : ∀ raw, truthy req.refreshToken = some raw →
      (selectActiveByHash db (env.hashToken raw) now).head? = none) :
    ∃ res, (refresh env schema now n db req).outcome = .sent res ∧
      res.status = 401 ∧
      (res.cookie = .cleared ↔ res = reuseDetected) ∧
      (res.cookie = .cleared ∨ res.cookie = .untouched) ∧
      (res = reuseDetected ↔
        ∃ raw e, truthy req.refreshToken = some raw ∧ e ∈ db.refresh_tokens_revoked ∧
          e.token_hash = env.hashToken raw) ∧
      (truthy req.refreshToken = none →
        ∀ db2, refresh env schema now n db2 req
          = ⟨db2, .sent ⟨401, errorBody "Refresh token required", .untouched⟩⟩) := by
  cases ht : truthy req.refreshToken with
  | none =>
    refine ⟨⟨401, errorBody "Refresh token required", .untouched⟩, ?_, rfl, ?_, Or.inr rfl, ?_, ?_⟩
    · simp [refresh, ht]
    · simp [reuseDetected]
    · simp [reuseDetected, errorBody]
    · intro _ db2
      simp [refresh, ht]
  | some raw =>
    have hnone := hfail raw ht
    cases hr : (selectRevokedByHash db (env.hashToken raw)).head? with
    | none =>
      refine ⟨invalidOrExpired, ?_, rfl, ?_, Or.inr rfl, ?_, ?_⟩
      · simp [refresh, ht, hnone, hr]
      · simp [reuseDetected, invalidOrExpired]
      · constructor
        · intro h
          simp [reuseDetected, invalidOrExpired, errorBody] at h
        · rintro ⟨raw2, e, hraw2, he, heq⟩
          cases hraw2
          have hmem : e ∈ selectRevokedByHash db (env.hashToken raw) :=
            List.mem_filter.mpr ⟨he, by simpa using heq⟩
          cases hl : selectRevokedByHash db (env.hashToken raw) with
          | nil => rw [hl] at hmem; cases hmem
          | cons y ys => rw [hl] at hr; cases hr
      · intro h; cases h
    | some rv =>
      refine ⟨reuseDetected, ?_, rfl, ?_, Or.inl rfl, ?_, ?_⟩
      · simp [refresh, ht, hnone, hr]
      · simp [reuseDetected]
      · refine ⟨fun _ => ?_, fun _ => rfl⟩
        have hmem : rv ∈ selectRevokedByHash db (env.hashToken raw) := by
          cases hl : selectRevokedByHash db (env.hashToken raw) with
          | nil => rw [hl] at hr; cases hr
          | cons y ys =>
            rw [hl] at hr
            cases hr
            simp
        have h2 := List.mem_filter.mp hmem
        exact ⟨raw, rv, rfl, h2.1, by simpa using h2.2⟩
      · intro h; cases h

/-- Witness of `refresh_failures_are_401`: the replay of the rotated-out secret
of the sample store. -/
theorem refresh_failures_are_401_witness :
    ∃ res, (refresh sampleEnv ⟨true⟩ 10 "n" sampleDbReplay ⟨some "s0", none, none⟩).outcome
        = .sent res ∧
      res.status = 401 ∧
      (res.cookie = .cleared ↔ res = reuseDetected) ∧
      (res.cookie = .cleared ∨ res.cookie = .untouched) ∧
      (res = reuseDetected ↔
        ∃ raw e, truthy (some "s0") = some raw ∧ e ∈ sampleDbReplay.refresh_tokens_revoked ∧
          e.token_hash = sampleEnv.hashToken raw) ∧
      (truthy (some "s0") = none →
        ∀ db2, refresh sampleEnv ⟨true⟩ 10 "n" db2 ⟨some "s0", none, none⟩
          = ⟨db2, .sent ⟨401, errorBody "Refresh token required", .untouched⟩⟩) :=
  refresh_failures_are_401 sampleEnv ⟨true⟩ 10 "n" sampleDbReplay ⟨some "s0", none, none⟩
    (fun raw h => by
      have hraw : raw = "s0" := (Option.some.inj h).symm
      subst hraw
      decide)

/-- C16. Logout deletes outright and writes no history: logout with a secret
removes exactly the active rows carrying its hash, keeps the other active rows,
the whole history and the users; and when the hash was not in the history, a
later refresh with the same secret, at any clock reading, gets the
invalid-or-expired reply and not the reuse reply, and changes nothing (no
cascade). -/
theorem logout_writes_no_history (env : Env) (schema : Schema) (db : Db) (s : String)
    (ip ua : Option String) (hs : s ≠ "") :
    (logout env db ⟨some s, ip, ua⟩).db.refresh_tokens
        = db.refresh_tokens.filter (fun r => !(r.token_hash == env.hashToken s)) ∧
      (logout env db ⟨some s, ip, ua⟩).db.refresh_tokens_revoked
        = db.refresh_tokens_revoked ∧
      (logout env db ⟨some s, ip, ua⟩).db.users = db.users ∧
      ((∀ e ∈ db.refresh_tokens_revoked, e.token_hash ≠ env.hashToken s) →
        ∀ (now : Timestamp) (n : String) (ip2 ua2 : Option String),
          refresh env schema now n (logout env db ⟨some s, ip, ua⟩).db ⟨some s, ip2, ua2⟩
            = ⟨(logout env db ⟨some s, ip, ua⟩).db, .sent invalidOrExpired⟩ ∧
          invalidOrExpired ≠ reuseDetected) := by
  have hl : logout env db ⟨some s, ip, ua⟩
      = ⟨deleteTokensByHash db (env.hashToken s), .sent ⟨200, logoutBody, .cleared⟩⟩ := by
    unfold logout
    simp only [truthy_of_ne_empty hs]
  rw [hl]
  refine ⟨rfl, rfl, rfl, ?_⟩
  intro hrev now n ip2 ua2
  refine ⟨?_, by decide⟩
  apply refresh_of_unknown env schema now s n _ ip2 ua2 hs
  · intro r hr hrh
    simp only [deleteTokensByHash, List.mem_filter] at hr
    simp [hrh] at hr
  · exact hrev

/-- Witness of `logout_writes_no_history`: logout of the session `s0` of the
sample store, then a refresh with `s0`. -/
theorem logout_writes_no_history_witness :
    (logout sampleEnv sampleDbTwo ⟨some "s0", none, none⟩).db.refresh_tokens
        = [{ user_id := "u2", token_hash := "sha:z", ip := none, user_agent := none,
             expires_at := 1000 }] ∧
      refresh sampleEnv ⟨true⟩ 10 "n"
          (logout sampleEnv sampleDbTwo ⟨some "s0", none, none⟩).db ⟨some "s0", none, none⟩
        = ⟨(logout sampleEnv sampleDbTwo ⟨some "s0", none, none⟩).db,
            .sent invalidOrExpired⟩ :=
  have h := logout_writes_no_history sampleEnv ⟨true⟩ sampleDbTwo "s0" none none (by decide)
  ⟨h.1, (h.2.2.2 (by decide) 10 "n" none none).1⟩

/-- A login that answers 200 took the successful branch. -/
theorem login_success_inv (env : Env) (schema : Schema) (now : Timestamp) (raw : String)
    (db : Db) (req : LoginRequest) (res : Response)
    (hres : (login env schema now raw db req).outcome = .sent res)
    (hst : res.status = 200) :
    ∃ email password user, truthy req.email = some email ∧
      truthy req.password = some password ∧
      findUserByEmail db email = some user ∧
      login env schema now raw db req =
        ⟨{ db with refresh_tokens := db.refresh_tokens ++
            [sessionRow user.id (env.hashToken raw) req.ip req.userAgent now] },
          .sent ⟨200, loginBody user, setRefreshCookie env raw⟩⟩ := by
  unfold login at hres ⊢
  cases he : truthy req.email with
  | none =>
    simp only [he] at hres
    cases hres
    simp at hst
  | some email =>
    cases hp : truthy req.password with
    | none =>
      simp only [he, hp] at hres
      cases hres
      simp at hst
    | some password =>
      simp only [he, hp] at hres ⊢
      cases hu : findUserByEmail db email with
      | none =>
        simp only [hu] at hres
        cases hres
        simp at hst
      | some user =>
        simp only [hu] at hres ⊢
        refine ⟨email, password, user, rfl, rfl, hu, ?_⟩
        split at hres
        · cases hres
          simp at hst
        · split at hres
          · cases hres
            simp at hst
          · next hpw hact =>
            simp only [hpw, hact, if_false, Bool.false_eq_true]
            split at hres
            · cases hres
            · next db1 hins =>
              unfold insertRefreshToken at hins
              split at hins
              · cases hins
              · cases hins
                rfl

/-- A refresh that answers 200 took the rotation branch. -/
theorem refresh_success_inv (env : Env) (schema : Schema) (now : Timestamp) (raw : String)
    (db : Db) (req : CookieRequest) (res : Response)
    (hres : (refresh env schema now raw db req).outcome = .sent res)
    (hst : res.status = 200) :
    ∃ s stored user, truthy req.refreshToken = some s ∧
      (selectActiveByHash db (env.hashToken s) now).head? = some stored ∧
      findUserById db stored.user_id = some user ∧
      refresh env schema now raw db req =
        ⟨rotated db (env.hashToken s) (env.hashToken raw) stored req.ip req.userAgent now,
          .sent ⟨200, refreshBody user, setRefreshCookie env raw⟩⟩ := by
  unfold refresh at hres ⊢
  cases ht : truthy req.refreshToken with
  | none =>
    simp only [ht] at hres
    cases hres
    simp at hst
  | some s =>
    simp only [ht] at hres ⊢
    cases ha : (selectActiveByHash db (env.hashToken s) now).head? with
    | none =>
      simp only [ha] at hres
      split at hres
      · cases hres
        simp [reuseDetected] at hst
      · cases hres
        simp [invalidOrExpired] at hst
    | some stored =>
      simp only [ha] at hres ⊢
      split at hres
      · cases hres
      · next db3 hins =>
        unfold insertRefreshToken at hins
        split at hins
        · cases hins
        · cases hins
          simp only [findUserById, deleteTokensByHash, insertRevoked_users] at hres ⊢
          cases hu : List.find? (fun u => u.id == stored.user_id) db.users with
          | none =>
            simp only [hu, Option.map_none'] at hres
            cases hres
          | some u =>
            refine ⟨s, stored, u.info, rfl, ha, by simp [findUserById, hu], ?_⟩
            simp [hu, rotated, sessionRow, insertRevoked_refresh_tokens]

/-- C20. The refresh secret travels only in the cookie: in every login and every
refresh that answers 200, the drawn secret is the value of the cookie, set with
`httpOnly`, `sameSite` strict and `maxAge` 7 * 24 * 60 * 60 * 1000; the body
consists of constants and of columns of a user row of the store (the claims of
the access token are the `id`, `email` and `role` of that row), so it is the
same whatever secret is drawn; and the store is changed by one new row whose
`token_hash` is the hash of the secret, its other columns coming from the owner,
the request and the clock. -/
theorem secret_only_in_cookie (env : Env) (schema : Schema) (now : Timestamp) (db : Db) :
    (∀ (raw : String) (req : LoginRequest) (res : Response),
      (login env schema now raw db req).outcome = .sent res → res.status = 200 →
      res.cookie = .set raw { httpOnly := true, secure := env.isProduction,
                              sameSite := "strict", maxAge := 7 * 24 * 60 * 60 * 1000 } ∧
      ∃ user ∈ db.users,
        res.body =
          { success := true, error := none, message := some "Login successful",
            accessToken := some { id := user.id, email := user.email, role := user.role,
                                  expiresIn := "15m" },
            user := some { id := user.id, username := user.username, email := user.email,
                           role := user.role, full_name := user.full_name } } ∧
        (login env schema now raw db req).db =
          { db with refresh_tokens := db.refresh_tokens ++
              [{ user_id := user.id, token_hash := env.hashToken raw, ip := req.ip,
                 user_agent := req.userAgent, expires_at := now + sevenDays }] }) ∧
    (∀ (raw1 raw2 : String) (req : LoginRequest) (res1 res2 : Response),
      (login env schema now raw1 db req).outcome = .sent res1 → res1.status = 200 →
      (login env schema now raw2 db req).outcome = .sent res2 → res2.status = 200 →
      res1.body = res2.body) ∧
    (∀ (raw : String) (req : CookieRequest) (res : Response),
      (refresh env schema now raw db req).outcome = .sent res → res.status = 200 →
      res.cookie = .set raw { httpOnly := true, secure := env.isProduction,
                              sameSite := "strict", maxAge := 7 * 24 * 60 * 60 * 1000 } ∧
      ∃ s stored user, truthy req.refreshToken = some s ∧ stored ∈ db.refresh_tokens ∧
        findUserById db stored.user_id = some user ∧
        res.body =
          { success := true, error := none, message := none,
            accessToken := some { id := user.id, email := user.email, role := user.role,
                                  expiresIn := "15m" },
            user := none } ∧
        (refresh env schema now raw db req).db =
          { users := db.users,
            refresh_tokens :=
              db.refresh_tokens.filter (fun r => !(r.token_hash == env.hashToken s)) ++
                [{ user_id := stored.user_id, token_hash := env.hashToken raw, ip := req.ip,
                   user_agent := req.userAgent, expires_at := now + sevenDays }],
            refresh_tokens_revoked :=
              (insertRevoked db (env.hashToken s) stored.user_id now).refresh_tokens_revoked }) ∧
    (∀ (raw1 raw2 : String) (req : CookieRequest) (res1 res2 : Response),
      (refresh env schema now raw1 db req).outcome = .sent res1 → res1.status = 200 →
      (refresh env schema now raw2 db req).outcome = .sent res2 → res2.status = 200 →
      res1.body = res2.body) := by
  refine ⟨?_, ?_, ?_, ?_⟩
  · intro raw req res hres hst
    obtain ⟨email, password, user, _, _, hu, heq⟩ :=
      login_success_inv env schema now raw db req res hres hst
    rw [heq] at hres ⊢
    cases hres
    exact ⟨rfl, user, List.mem_of_find?_eq_some hu, rfl, rfl⟩
  · intro raw1 raw2 req res1 res2 h1 hs1 h2 hs2
    obtain ⟨e1, _, u1, he1, _, hu1, heq1⟩ :=
      login_success_inv env schema now raw1 db req res1 h1 hs1
    obtain ⟨e2, _, u2, he2, _, hu2, heq2⟩ :=
      login_success_inv env schema now raw2 db req res2 h2 hs2
    rw [heq1] at h1
    rw [heq2] at h2
    rw [he1] at he2
    cases he2
    rw [hu1] at hu2
    cases hu2
    cases h1
    cases h2
    rfl
  · intro raw req res hres hst
    obtain ⟨s, stored, user, hs, hsel, hu, heq⟩ :=
      refresh_success_inv env schema now raw db req res hres hst
    rw [heq] at hres ⊢
    cases hres
    have hmem : stored ∈ db.refresh_tokens := by
      have h1 : stored ∈ selectActiveByHash db (env.hashToken s) now := by
        cases hl : selectActiveByHash db (env.hashToken s) now with
        | nil => rw [hl] at hsel; cases hsel
        | cons y ys =>
          rw [hl] at hsel
          cases hsel
          simp
      exact (List.mem_filter.mp h1).1
    exact ⟨rfl, s, stored, user, hs, hmem, hu, rfl, rfl⟩
  · intro raw1 raw2 req res1 res2 h1 hs1 h2 hs2
    obtain ⟨s1, st1, u1, ht1, hsel1, hu1, heq1⟩ :=
      refresh_success_inv env schema now raw1 db req res1 h1 hs1
    obtain ⟨s2, st2, u2, ht2, hsel2, hu2, heq2⟩ :=
      refresh_success_inv env schema now raw2 db req res2 h2 hs2
    rw [heq1] at h1
    rw [heq2] at h2
    rw [ht1] at ht2
    cases ht2
    rw [hsel1] at hsel2
    cases hsel2
    rw [hu1] at hu2
    cases hu2
    cases h1
    cases h2
    rfl

/-- C12 (counterexample). A request to `GET /me` whose bearer token fails
verification for another reason than expiry is answered with status 403, not
401. -/
theorem getMe_invalid_token_is_403 :
    sampleVerify "forged" = .invalid ∧
      getMe sampleVerify sampleDb (some "Bearer forged")
        = .denied ⟨403, errorBody "Invalid token", .untouched⟩ ∧
      routedStatus (getMe sampleVerify sampleDb (some "Bearer forged")) ≠ 401 := by
  decide

/-- C12 (amended). The status of `GET /me` for every verifier, store and header:
401 when the bearer token is missing, 401 when it is expired, 403 when it is
invalid for another reason, 404 when it is valid and its principal id is not
found, and 200 otherwise. -/
theorem getMe_status (jwtVerify : String → JwtVerdict) (db : Db)
    (authorization : Option String) :
    routedStatus (getMe jwtVerify db authorization) =
      match bearerToken authorization with
      | none => 401
      | some token =>
        match jwtVerify token with
        | .expired => 401
        | .invalid => 403
        | .valid payload => if (findUserById db payload.id).isSome then 200 else 404 := by
  unfold getMe authenticateToken
  cases hb : bearerToken authorization with
  | none => rfl
  | some token =>
    cases hv : jwtVerify token with
    | expired => simp only [hv, routedStatus]
    | invalid => simp only [hv, routedStatus]
    | valid payload =>
      simp only [hv, routedStatus, me]
      cases hu : findUserById db payload.id <;> simp

/-- C13. Expired and invalid access tokens are distinguishable: for a header
whose token is well-formed and correctly signed but expired, and a header whose
token fails verification for another reason (an invalid signature),
`authenticateToken` sends two different replies, the first with the message
for an expired token and the second with the message for an invalid token, and
in neither case does it call `next()`. -/
theorem expired_and_invalid_differ (jwtVerify : String → JwtVerdict)
    (a1 a2 : Option String) (t1 t2 : String)
    (h1 : bearerToken a1 = some t1) (hv1 : jwtVerify t1 = .expired)
    (h2 : bearerToken a2 = some t2) (hv2 : jwtVerify t2 = .invalid) :
    authenticateToken jwtVerify a1
        = .rejected ⟨401, errorBody "Token expired", .untouched⟩ ∧
      authenticateToken jwtVerify a2
        = .rejected ⟨403, errorBody "Invalid token", .untouched⟩ ∧
      authenticateToken jwtVerify a1 ≠ authenticateToken jwtVerify a2 ∧
      (∀ user, authenticateToken jwtVerify a1 ≠ .next user) ∧
      (∀ user, authenticateToken jwtVerify a2 ≠ .next user) := by
  have e1 : authenticateToken jwtVerify a1
      = .rejected ⟨401, errorBody "Token expired", .untouched⟩ := by
    simp only [authenticateToken, h1, hv1]
  have e2 : authenticateToken jwtVerify a2
      = .rejected ⟨403, errorBody "Invalid token", .untouched⟩ := by
    simp only [authenticateToken, h2, hv2]
  rw [e1, e2]
  refine ⟨rfl, rfl, by decide, ?_, ?_⟩ <;> intro user h <;> cases h

/-- Witness of `expired_and_invalid_differ` with the sample verifier. -/
theorem expired_and_invalid_differ_witness :
    authenticateToken sampleVerify (some "Bearer old")
        = .rejected ⟨401, errorBody "Token expired", .untouched⟩ ∧
      authenticateToken sampleVerify (some "Bearer forged")
        = .rejected ⟨403, errorBody "Invalid token", .untouched⟩ :=
  have h := expired_and_invalid_differ sampleVerify (some "Bearer old") (some "Bearer forged")
    "old" "forged" (by decide) (by decide) (by decide) (by decide)
  ⟨h.1, h.2.1⟩

/-- The register handler leaves the store as it is or appends one row of role
`staff`, and the latter only for a requested role `staff`. -/
theorem register_db (conflict : List UserRow → UserRow → Bool) (gen : UserDefaults)
    (hashedPassword : String) (db : Db) (reqUser : JwtPayload) (req : RegisterRequest) :
    (register conflict gen hashedPassword db reqUser req).db = db ∨
      ∃ u, u.role = "staff" ∧ req.role.getD "staff" = "staff" ∧
        (register conflict gen hashedPassword db reqUser req).db
          = { db with users := db.users ++ [u] } := by
  unfold register
  dsimp only
  split
  · split_ifs with h1 h2 h3 h4
    · exact Or.inl rfl
    · exact Or.inl rfl
    · exact Or.inl rfl
    · exact Or.inl rfl
    · split
      · exact Or.inl rfl
      · unfold createUser
        split
        · exact Or.inl rfl
        · next db1 user heq =>
          dsimp only at heq
          split at heq
          · cases heq
          · cases heq
            exact Or.inr ⟨_, rfl, not_not.mp h4, rfl⟩
  · exact Or.inl rfl

/-- A register request whose role is not `staff` is answered with 400 and
changes nothing. -/
theorem register_bad_role (conflict : List UserRow → UserRow → Bool) (gen : UserDefaults)
    (hashedPassword : String) (db : Db) (reqUser : JwtPayload) (req : RegisterRequest)
    (hrole : req.role.getD "staff" ≠ "staff") :
    (register conflict gen hashedPassword db reqUser req).db = db ∧
      ∃ r, (register conflict gen hashedPassword db reqUser req).outcome = .sent r ∧
        r.status = 400 := by
  unfold register
  dsimp only
  split
  · split_ifs with h1 h2 h3
    · exact ⟨rfl, _, rfl, rfl⟩
    · exact ⟨rfl, _, rfl, rfl⟩
    · exact ⟨rfl, _, rfl, rfl⟩
    · exact ⟨rfl, _, rfl, rfl⟩
  · exact ⟨rfl, _, rfl, rfl⟩

/-- C18. Registration never creates a second admin: every register call leaves
the store as it is or appends exactly one user row, whose role is `staff`; a
request with role `admin`, and a request with any role other than `staff`, is
answered with 400 and creates no principal; so the number of principals with
role `admin` is the same before and after every call. -/
theorem register_never_creates_admin (conflict : List UserRow → UserRow → Bool)
    (gen : UserDefaults) (hashedPassword : String) (db : Db) (reqUser : JwtPayload)
    (req : RegisterRequest) :
    ((register conflict gen hashedPassword db reqUser req).db = db ∨
        ∃ u, u.role = "staff" ∧
          (register conflict gen hashedPassword db reqUser req).db
            = { db with users := db.users ++ [u] }) ∧
      (req.role = some "admin" →
        (register conflict gen hashedPassword db reqUser req).db = db ∧
        ∃ r, (register conflict gen hashedPassword db reqUser req).outcome = .sent r ∧
          r.status = 400) ∧
      (∀ x, req.role = some x → x ≠ "staff" →
        (register conflict gen hashedPassword db reqUser req).db = db ∧
        ∃ r, (register conflict gen hashedPassword db reqUser req).outcome = .sent r ∧
          r.status = 400) ∧
      ((register conflict gen hashedPassword db reqUser req).db.users.filter
          (fun u => u.role == "admin")).length
        = (db.users.filter (fun u => u.role == "admin")).length := by
  refine ⟨?_, ?_, ?_, ?_⟩
  · rcases register_db conflict gen hashedPassword db reqUser req with h | ⟨u, hu, _, h⟩
    · exact Or.inl h
    · exact Or.inr ⟨u, hu, h⟩
  · intro hrole
    exact register_bad_role conflict gen hashedPassword db reqUser req
      (by rw [hrole]; decide)
  · intro x hrole hx
    exact register_bad_role conflict gen hashedPassword db reqUser req
      (by rw [hrole]; exact hx)
  · rcases register_db conflict gen hashedPassword db reqUser req with h | ⟨u, hu, _, h⟩
    · rw [h]
    · rw [h]
      simp [List.filter_append, hu]

/-- A deactivation that answers 200 ran both statements on a target that is in
the store. -/
theorem deactivate_success_inv (db : Db) (reqUser : JwtPayload) (id : String)
    (r : Reply DeactivatedUser)
    (hres : (deactivate db reqUser id).outcome = .sent r) (hst : r.status = 200) :
    (∃ target ∈ db.users, target.id = id) ∧
      (deactivate db reqUser id).db = deleteTokensOfUser (setInactive db id) id := by
  unfold deactivate at hres ⊢
  split_ifs at hres ⊢ with h1
  · simp only [adminError] at hres
    cases hres
    simp at hst
  · cases hf : db.users.find? (fun u => u.id == id) with
    | none =>
      simp only [hf, adminError] at hres
      cases hres
      simp at hst
    | some target =>
      simp only [hf] at hres ⊢
      split_ifs at hres ⊢ with h2
      · simp only [adminError] at hres
        cases hres
        simp at hst
      · refine ⟨⟨target, List.mem_of_find?_eq_some hf, ?_⟩, rfl⟩
        simpa using List.find?_some hf

/-- C19. Deactivation kicks the account out immediately: after every deactivation
that answers 200 the target is in the store with its active flag false, the
active table has no row with its id, and every refresh secret of that account
(every active row carrying its hash belonged to the account) is answered with
401 and no access token by refresh; and when the target is the caller or has
role `admin`, the call answers 400 and leaves the whole store, active flags and
refresh rows included, as it is. -/
theorem deactivate_kicks_out (env : Env) (schema : Schema) (db : Db) (reqUser : JwtPayload)
    (id : String) :
    (∀ r, (deactivate db reqUser id).outcome = .sent r → r.status = 200 →
      (∃ u ∈ (deactivate db reqUser id).db.users, u.id = id) ∧
      (∀ u ∈ (deactivate db reqUser id).db.users, u.id = id → u.is_active = false) ∧
      (∀ t ∈ (deactivate db reqUser id).db.refresh_tokens, t.user_id ≠ id) ∧
      (∀ (s n : String) (now : Timestamp) (ip ua : Option String),
        (∀ t ∈ db.refresh_tokens, t.token_hash = env.hashToken s → t.user_id = id) →
        ∃ res, (refresh env schema now n (deactivate db reqUser id).db
            ⟨some s, ip, ua⟩).outcome = .sent res ∧
          res.status = 401 ∧ res.body.accessToken = none)) ∧
      ((id = reqUser.id ∨
          ∃ target, db.users.find? (fun u => u.id == id) = some target ∧
            target.role = "admin") →
        (deactivate db reqUser id).db = db ∧
        ∃ r, (deactivate db reqUser id).outcome = .sent r ∧ r.status = 400) := by
  constructor
  · intro r hres hst
    obtain ⟨⟨target, htm, hti⟩, hdb⟩ := deactivate_success_inv db reqUser id r hres hst
    rw [hdb]
    have hgone : ∀ t ∈ (deleteTokensOfUser (setInactive db id) id).refresh_tokens,
        t.user_id ≠ id := by
      intro t ht
      simp only [deleteTokensOfUser, List.mem_filter, Bool.not_eq_true', beq_eq_false_iff_ne,
        ne_eq] at ht
      exact ht.2
    refine ⟨?_, ?_, hgone, ?_⟩
    · refine ⟨{ target with is_active := false }, ?_, hti⟩
      simp only [deleteTokensOfUser, setInactive, List.mem_map]
      exact ⟨target, htm, by simp [hti]⟩
    · intro u hu hid
      simp only [deleteTokensOfUser, setInactive, List.mem_map] at hu
      obtain ⟨v, _, hv⟩ := hu
      split at hv
      · rw [← hv]
      · next hne =>
        rw [← hv] at hid
        simp [hid] at hne
    · intro s n now ip ua hown
      obtain ⟨res, h1, h2, h3, _⟩ := refresh_fails_of_no_row env schema now s n
        (deleteTokensOfUser (setInactive db id) id) ip ua
        (by
          intro t ht heq
          refine hgone t ht (hown t ?_ heq)
          simp only [deleteTokensOfUser, setInactive, List.mem_filter] at ht
          exact ht.1)
      exact ⟨res, h1, h2, h3⟩
  · intro h
    unfold deactivate
    rcases h with h | ⟨target, hf, hrole⟩
    · rw [if_pos h]
      exact ⟨rfl, _, rfl, rfl⟩
    · by_cases h1 : id = reqUser.id
      · rw [if_pos h1]
        exact ⟨rfl, _, rfl, rfl⟩
      · rw [if_neg h1, hf]
        dsimp only
        rw [if_pos hrole]
        exact ⟨rfl, _, rfl, rfl⟩

/-- Witness of `deactivate_kicks_out`: the admin deactivates the staff account
of the sample store, whose secret `s0` is refused afterwards. -/
theorem deactivate_kicks_out_witness :
    (∀ t ∈ (deactivate sampleDbStaff sampleAdminPayload "u1").db.refresh_tokens,
        t.user_id ≠ "u1") ∧
      ∃ res, (refresh sampleEnv ⟨true⟩ 10 "n"
          (deactivate sampleDbStaff sampleAdminPayload "u1").db
          ⟨some "s0", none, none⟩).outcome = .sent res ∧
        res.status = 401 ∧ res.body.accessToken = none :=
  have h := (deactivate_kicks_out sampleEnv ⟨true⟩ sampleDbStaff sampleAdminPayload "u1").1
    { status := 200, success := true, error := none,
      message := some "Staff member deactivated",
      user := some { id := "u1", username := "asha", is_active := false } }
    (by decide) (by decide)
  ⟨h.2.2.1, h.2.2.2 "s0" "n" 10 none none (by decide)⟩

/-- The statements of one run of the handler, run without interruption, give
the handler: five statements reach the end, with the store and the outcome of
`refresh`. -/
theorem refreshSteps_eq_refresh (env : Env) (schema : Schema) (call : RefreshCall) (db : Db) :
    refreshSteps env schema call 5 (db, .start)
      = ((refresh env schema call.now call.newRawToken db call.req).db,
          .done (refresh env schema call.now call.newRawToken db call.req).outcome) := by
  simp only [refreshSteps, refreshStep, refresh]
  cases ht : truthy call.req.refreshToken with
  | none => simp [refreshStep]
  | some raw =>
    simp only []
    cases ha : (selectActiveByHash db (env.hashToken raw) call.now).head? with
    | none =>
      simp only [refreshStep]
      cases hr : (selectRevokedByHash db (env.hashToken raw)).head? with
      | none => simp [refreshStep]
      | some rv => simp [refreshStep]
    | some stored =>
      simp only [refreshStep]
      cases hi : insertRefreshToken schema
          (deleteTokensByHash (insertRevoked db (env.hashToken raw) stored.user_id call.now)
            (env.hashToken raw))
          { user_id := stored.user_id, token_hash := env.hashToken call.newRawToken,
            ip := call.req.ip, user_agent := call.req.userAgent,
            expires_at := call.now + sevenDays } with
      | error e => simp [refreshStep]
      | ok db3 =>
        simp only [refreshStep]
        cases hu : findUserById db3 stored.user_id with
        | none => simp [refreshStep]
        | some user => simp [refreshStep]

/-- C17 (counterexample). Two refresh requests with the same still-active secret
of the sample store, interleaved so that both lookups run before either
rotation: both runs end with the 200 reply, each with its own new secret, and
the store holds two new sessions. -/
theorem race_both_win :
    (race sampleEnv ⟨true⟩ sampleCallA sampleCallB
        [true, false, true, true, true, true, false, false, false, false]
        ⟨sampleDbSession, .start, .start⟩)
      = { db := { users := sampleDbSession.users,
                  refresh_tokens :=
                    [{ user_id := "u1", token_hash := "sha:sA", ip := none,
                       user_agent := none, expires_at := 10 + sevenDays },
                     { user_id := "u1", token_hash := "sha:sB", ip := none,
                       user_agent := none, expires_at := 10 + sevenDays }],
                  refresh_tokens_revoked :=
                    [{ token_hash := "sha:s0", user_id := "u1", revoked_at := 10 }] },
          first := .done (.sent ⟨200, refreshBody sampleUser.info,
            setRefreshCookie sampleEnv "sA"⟩),
          second := .done (.sent ⟨200, refreshBody sampleUser.info,
            setRefreshCookie sampleEnv "sB"⟩) } := by
  decide

theorem race_append (env : Env) (schema : Schema) (callA callB : RefreshCall)
    (l1 l2 : List Bool) (c : Race) :
    race env schema callA callB (l1 ++ l2) c
      = race env schema callA callB l2 (race env schema callA callB l1 c) := by
  simp [race, List.foldl_append]

theorem winnerPc_done (env : Env) (call : RefreshCall) (stored : RefreshToken) (user : UserInfo)
    (n : Nat) (h : 2 ≤ n) :
    winnerPc env call stored user n
      = .done (.sent ⟨200, refreshBody user, setRefreshCookie env call.newRawToken⟩) := by
  match n, h with
  | n + 2, _ => rfl

theorem loserPc_done (hashedToken owner : String) (n : Nat) (h : 3 ≤ n) :
    loserPc hashedToken owner n = .done (.sent reuseDetected) := by
  match n, h with
  | n + 3, _ => rfl

/-- Once the DELETE of one run has removed the old row, every interleaving of
the remaining statements of that run with the statements of a run that starts
afterwards moves the two runs along `winnerPc` and `loserPc`. -/
theorem race_after_delete_aux (env : Env) (schema : Schema) (callA callB : RefreshCall)
    (s : String) (stored : RefreshToken) (user : UserInfo)
    (users : List UserRow) (history : List RevokedToken) (owner : String)
    (hs : s ≠ "") (hB : callB.req.refreshToken = some s)
    (huser : (users.find? (fun u => u.id == stored.user_id)).map UserRow.info = some user)
    (hne : env.hashToken callA.newRawToken ≠ env.hashToken s)
    (howner : (history.filter (fun r => r.token_hash == env.hashToken s)).head?.map
      (fun r => r.user_id) = some owner) :
    ∀ (sched : List Bool) (db : Db) (j k : Nat),
      db.users = users → db.refresh_tokens_revoked = history →
      (∀ r ∈ db.refresh_tokens, r.token_hash ≠ env.hashToken s) →
      (j = 0 → schema.refresh_token_hash_unique = true →
        ∀ r ∈ db.refresh_tokens, r.token_hash ≠ env.hashToken callA.newRawToken) →
      ∃ db2, race env schema callA callB sched
          ⟨db, winnerPc env callA stored user j, loserPc (env.hashToken s) owner k⟩
        = ⟨db2, winnerPc env callA stored user (j + sched.count true),
            loserPc (env.hashToken s) owner (k + sched.count false)⟩ ∧
        ∀ r ∈ db2.refresh_tokens, r ∈ db.refresh_tokens ∨
          r = { user_id := stored.user_id, token_hash := env.hashToken callA.newRawToken,
                ip := callA.req.ip, user_agent := callA.req.userAgent,
                expires_at := callA.now + sevenDays } := by
  intro sched
  induction sched with
  | nil =>
    intro db j k _ _ _ _
    exact ⟨db, rfl, fun r hr => Or.inl hr⟩
  | cons b bs ih =>
    intro db j k hu hh hno hfresh
    cases b with
    | true =>
      have hcount : (true :: bs).count true = bs.count true + 1 := by simp
      have hcount2 : (true :: bs).count false = bs.count false := by simp
      rw [hcount, hcount2]
      match j with
      | 0 =>
        have hins := insertRefreshToken_ok schema db
          { user_id := stored.user_id, token_hash := env.hashToken callA.newRawToken,
            ip := callA.req.ip, user_agent := callA.req.userAgent,
            expires_at := callA.now + sevenDays } (hfresh rfl)
        obtain ⟨db2, h2, h3⟩ := ih
          { db with refresh_tokens := db.refresh_tokens ++
              [{ user_id := stored.user_id, token_hash := env.hashToken callA.newRawToken,
                 ip := callA.req.ip, user_agent := callA.req.userAgent,
                 expires_at := callA.now + sevenDays }] } 1 k hu hh
          (by
            intro r hr
            simp only [List.mem_append, List.mem_singleton] at hr
            rcases hr with hr | hr
            · exact hno r hr
            · subst hr
              exact hne)
          (by intro h; cases h)
        refine ⟨db2, ?_, ?_⟩
        swap
        · intro r hr
          rcases h3 r hr with h | h
          · simp only [List.mem_append, List.mem_singleton] at h
            exact h
          · exact Or.inr h
        rw [show 0 + (bs.count true + 1) = 1 + bs.count true by omega]
        rw [← h2]
        simp only [race, List.foldl_cons, raceStep, winnerPc, refreshStep, hins, if_true]
      | 1 =>
        obtain ⟨db2, h2, h3⟩ := ih db 2 k hu hh hno (by intro h; cases h)
        refine ⟨db2, ?_, h3⟩
        rw [show 1 + (bs.count true + 1) = 2 + bs.count true by omega]
        rw [← h2]
        have hf : findUserById db stored.user_id = some user := by
          unfold findUserById
          rw [hu]
          exact huser
        simp only [race, List.foldl_cons, raceStep, winnerPc, refreshStep, hf, if_true]
      | j + 2 =>
        obtain ⟨db2, h2, h3⟩ := ih db (j + 2) k hu hh hno (by intro h; cases h)
        refine ⟨db2, ?_, h3⟩
        rw [winnerPc_done env callA stored user (j + 2 + (bs.count true + 1)) (by omega)]
        rw [winnerPc_done env callA stored user (j + 2 + bs.count true) (by omega)] at h2
        rw [← h2]
        simp only [race, List.foldl_cons, raceStep, winnerPc, refreshStep, if_true]
    | false =>
      have hcount : (false :: bs).count true = bs.count true := by simp
      have hcount2 : (false :: bs).count false = bs.count false + 1 := by simp
      rw [hcount, hcount2]
      match k with
      | 0 =>
        obtain ⟨db2, h2, h3⟩ := ih db j 1 hu hh hno hfresh
        refine ⟨db2, ?_, h3⟩
        rw [show 0 + (bs.count false + 1) = 1 + bs.count false by omega]
        rw [← h2]
        have hnone : (selectActiveByHash db (env.hashToken s) callB.now).head? = none :=
          head?_filter_none _ _ (fun r hr => by simp [hno r hr])
        simp only [race, List.foldl_cons, raceStep, loserPc, refreshStep, hB,
          truthy_of_ne_empty hs, hnone, Bool.false_eq_true, if_false]
      | 1 =>
        obtain ⟨db2, h2, h3⟩ := ih db j 2 hu hh hno hfresh
        refine ⟨db2, ?_, h3⟩
        rw [show 1 + (bs.count false + 1) = 2 + bs.count false by omega]
        rw [← h2]
        cases hl : (history.filter (fun r => r.token_hash == env.hashToken s)).head? with
        | none => rw [hl] at howner; cases howner
        | some rv =>
          rw [hl] at howner
          have ho : rv.user_id = owner := by simpa using howner
          have hsel : (selectRevokedByHash db (env.hashToken s)).head? = some rv := by
            unfold selectRevokedByHash
            rw [hh]
            exact hl
          simp only [race, List.foldl_cons, raceStep, loserPc, refreshStep, hsel, ho,
            Bool.false_eq_true, if_false]
      | 2 =>
        obtain ⟨db2, h2, h3⟩ := ih (deleteTokensOfUser db owner) j 3 hu hh
          (by
            intro r hr
            simp only [deleteTokensOfUser, List.mem_filter] at hr
            exact hno r hr.1)
          (by
            intro hj hq r hr
            simp only [deleteTokensOfUser, List.mem_filter] at hr
            exact hfresh hj hq r hr.1)
        refine ⟨db2, ?_, ?_⟩
        swap
        · intro r hr
          rcases h3 r hr with h | h
          · simp only [deleteTokensOfUser, List.mem_filter] at h
            exact Or.inl h.1
          · exact Or.inr h
        rw [show 2 + (bs.count false + 1) = 3 + bs.count false by omega]
        rw [← h2]
        simp only [race, List.foldl_cons, raceStep, loserPc, refreshStep,
          Bool.false_eq_true, if_false]
      | k + 3 =>
        obtain ⟨db2, h2, h3⟩ := ih db j (k + 3) hu hh hno hfresh
        refine ⟨db2, ?_, h3⟩
        rw [loserPc_done (env.hashToken s) owner (k + 3 + (bs.count false + 1)) (by omega)]
        rw [loserPc_done (env.hashToken s) owner (k + 3 + bs.count false) (by omega)] at h2
        rw [← h2]
        simp only [race, List.foldl_cons, raceStep, loserPc, refreshStep,
          Bool.false_eq_true, if_false]

/-- C17 (amended). Racing refreshes when the lookup of one comes after the DELETE
of the other: two refresh requests carry the same secret, whose hash has an
unexpired active row with an existing owner; the first request runs its lookup,
its INSERT into the history and its DELETE of the old row before the second
request starts, and from there the statements of the two interleave in any
order until both have ended.  Then the first request answers 200 with its new
secret, the second ends with the reuse reply, and the only active row created
is the one of the first request. -/
theorem race_after_delete (env : Env) (schema : Schema) (callA callB : RefreshCall)
    (s : String) (db : Db) (stored : RefreshToken) (user : UserInfo) (sched : List Bool)
    (hs : s ≠ "")
    (hA : callA.req.refreshToken = some s) (hB : callB.req.refreshToken = some s)
    (hstored : (selectActiveByHash db (env.hashToken s) callA.now).head? = some stored)
    (huser : findUserById db stored.user_id = some user)
    (hne : env.hashToken callA.newRawToken ≠ env.hashToken s)
    (hfresh : schema.refresh_token_hash_unique = true →
      ∀ r ∈ db.refresh_tokens, r.token_hash ≠ env.hashToken callA.newRawToken)
    (hendA : 2 ≤ sched.count true) (hendB : 3 ≤ sched.count false) :
    (race env schema callA callB ([true, true, true] ++ sched) ⟨db, .start, .start⟩).first
        = .done (.sent ⟨200, refreshBody user, setRefreshCookie env callA.newRawToken⟩) ∧
      (race env schema callA callB ([true, true, true] ++ sched) ⟨db, .start, .start⟩).second
        = .done (.sent reuseDetected) ∧
      ∀ r ∈ (race env schema callA callB ([true, true, true] ++ sched)
          ⟨db, .start, .start⟩).db.refresh_tokens,
        r ∈ db.refresh_tokens ∨
        r = { user_id := stored.user_id, token_hash := env.hashToken callA.newRawToken,
              ip := callA.req.ip, user_agent := callA.req.userAgent,
              expires_at := callA.now + sevenDays } := by
  have h3 : race env schema callA callB [true, true, true] ⟨db, .start, .start⟩
      = ⟨deleteTokensByHash (insertRevoked db (env.hashToken s) stored.user_id callA.now)
          (env.hashToken s),
        winnerPc env callA stored user 0,
        loserPc (env.hashToken s) (historyOwner db (env.hashToken s) stored callA.now) 0⟩ := by
    simp only [race, List.foldl_cons, List.foldl_nil, raceStep, refreshStep, hA,
      truthy_of_ne_empty hs, hstored, if_true, winnerPc, loserPc]
  have howner : ((insertRevoked db (env.hashToken s) stored.user_id
      callA.now).refresh_tokens_revoked.filter
        (fun r => r.token_hash == env.hashToken s)).head?.map (fun r => r.user_id)
      = some (historyOwner db (env.hashToken s) stored callA.now) := by
    have := revoked_head_insertRevoked db (env.hashToken s) stored.user_id callA.now
    unfold selectRevokedByHash at this
    rw [this]
    rfl
  obtain ⟨db2, hrace, hrows⟩ := race_after_delete_aux env schema callA callB s stored user
    db.users (insertRevoked db (env.hashToken s) stored.user_id callA.now).refresh_tokens_revoked
    (historyOwner db (env.hashToken s) stored callA.now) hs hB huser hne howner sched
    (deleteTokensByHash (insertRevoked db (env.hashToken s) stored.user_id callA.now)
      (env.hashToken s)) 0 0
    (by simp [deleteTokensByHash, insertRevoked_users])
    rfl
    (by
      intro r hr
      simp only [deleteTokensByHash, List.mem_filter] at hr
      simpa using hr.2)
    (by
      intro _ hq r hr
      simp only [deleteTokensByHash, insertRevoked_refresh_tokens, List.mem_filter] at hr
      exact hfresh hq r hr.1)
  rw [race_append, h3, hrace]
  refine ⟨?_, ?_, ?_⟩
  · exact winnerPc_done env callA stored user _ (by omega)
  · exact loserPc_done _ _ _ (by omega)
  · intro r hr
    rcases hrows r hr with h | h
    · simp only [deleteTokensByHash, insertRevoked_refresh_tokens, List.mem_filter] at h
      exact Or.inl h.1
    · exact Or.inr h

/-- Witness of `race_after_delete`: the two sample runs, the second starting
after the DELETE of the first and then interleaved with it. -/
theorem race_after_delete_witness :
    (race sampleEnv ⟨true⟩ sampleCallA sampleCallB
        ([true, true, true] ++ [false, true, false, true, false])
        ⟨sampleDbSession, .start, .start⟩).first
        = .done (.sent ⟨200, refreshBody sampleUser.info,
            setRefreshCookie sampleEnv "sA"⟩) ∧
      (race sampleEnv ⟨true⟩ sampleCallA sampleCallB
        ([true, true, true] ++ [false, true, false, true, false])
        ⟨sampleDbSession, .start, .start⟩).second
        = .done (.sent reuseDetected) :=
  have h := race_after_delete sampleEnv ⟨true⟩ sampleCallA sampleCallB "s0" sampleDbSession
    { user_id := "u1", token_hash := "sha:s0", ip := none, user_agent := none,
      expires_at := 1000 }
    sampleUser.info [false, true, false, true, false]
    (by decide) (by decide) (by decide) (by decide) (by decide) (by decide) (by decide)
    (by decide) (by decide)
  ⟨h.1, h.2.1⟩

/-- Witness of `secret_only_in_cookie`: a login on the sample store puts the
drawn secret `s9` into the cookie and its hash into the new row. -/
theorem secret_only_in_cookie_witness :
    (∃ user ∈ sampleDb.users,
      (login sampleEnv ⟨true⟩ 7 "s9" sampleDb
          ⟨some "a@x.com", some "correctpw", none, none⟩).db =
        { sampleDb with refresh_tokens := sampleDb.refresh_tokens ++
            [{ user_id := user.id, token_hash := "sha:s9", ip := none,
               user_agent := none, expires_at := 7 + sevenDays }] }) :=
  have h := (secret_only_in_cookie sampleEnv ⟨true⟩ 7 sampleDb).1 "s9"
    ⟨some "a@x.com", some "correctpw", none, none⟩
    ⟨200, loginBody sampleUser, setRefreshCookie sampleEnv "s9"⟩ (by decide) (by decide)
  h.2.imp (fun _ hu => ⟨hu.1, hu.2.2⟩)

/-- C21. Role mismatch is a 403: for every list of allowed roles and every request,
`authorizeRole(...roles)` calls `next()` exactly when `req.user.role` is present,
is not the empty string and is an element of `roles`; in every other case it
sends a reply of status 403 (and so does not call `next()`). -/
theorem authorizeRole_next_iff (roles : List String) (user : Option JwtPayload) :
    (authorizeRole roles user = .next ↔
        ∃ u role, user = some u ∧ u.role = some role ∧ role ≠ "" ∧ role ∈ roles) ∧
      (authorizeRole roles user = .next ∨
        ∃ res, authorizeRole roles user = .rejected res ∧ res.status = 403) := by
  unfold authorizeRole
  cases user with
  | none => simp [truthy]
  | some u =>
    cases hr : u.role with
    | none => simp [truthy, hr]
    | some role =>
      by_cases he : role = ""
      · simp [truthy, hr, he]
      · by_cases hm : role ∈ roles
        · simp [truthy, hr, he, hm]
        · simp [truthy, hr, he, hm]

/-- The pieces of a header that starts with a word without space, a space, and
then `t`: the word, followed by the pieces of `t`. -/
theorem splitSpaceAux_word (w t : List Char) (hw : ∀ c ∈ w, c ≠ ' ') (cur : List Char) :
    splitSpaceAux (w ++ ' ' :: t) cur
      = String.mk (cur.reverse ++ w) :: splitSpaceAux t [] := by
  induction w generalizing cur with
  | nil => simp [splitSpaceAux]
  | cons c cs ih =>
    have hc : c ≠ ' ' := hw c (by simp)
    have hcs : ∀ x ∈ cs, x ≠ ' ' := fun x hx => hw x (by simp [hx])
    have h := ih hcs (c :: cur)
    simp only [List.cons_append, splitSpaceAux, hc, if_false]
    simpa using h

/-- The function `splitSpaceAux` never returns the empty list. -/
theorem splitSpaceAux_ne_nil (cs cur : List Char) : splitSpaceAux cs cur ≠ [] := by
  induction cs generalizing cur with
  | nil => simp [splitSpaceAux]
  | cons c cs ih =>
    simp only [splitSpaceAux]
    split_ifs
    · simp
    · exact ih _

/-- Joining the pieces of `splitSpaceAux` with single spaces gives back the
characters read. -/
theorem splitSpaceAux_join (cs cur : List Char) :
    List.intercalate [' '] ((splitSpaceAux cs cur).map String.data) = cur.reverse ++ cs := by
  induction cs generalizing cur with
  | nil => simp [splitSpaceAux, List.intercalate]
  | cons c cs ih =>
    simp only [splitSpaceAux]
    split_ifs with hc
    · have h := ih []
      have hne := splitSpaceAux_ne_nil cs []
      cases hs : splitSpaceAux cs [] with
      | nil => exact absurd hs hne
      | cons a rest =>
        rw [hs] at h
        simp only [List.intercalate, List.map_cons, List.intersperse_cons_cons,
          List.flatten_cons] at h ⊢
        simp only [List.reverse_nil, List.nil_append] at h
        rw [h, hc]
        simp
    · have h := ih (c :: cur)
      simpa using h

/-- No piece of `splitSpaceAux` holds a space. -/
theorem splitSpaceAux_no_space (cs cur : List Char) (hcur : ∀ c ∈ cur, c ≠ ' ') :
    ∀ p ∈ splitSpaceAux cs cur, ∀ c ∈ p.data, c ≠ ' ' := by
  induction cs generalizing cur with
  | nil =>
    intro p hp c hc
    simp only [splitSpaceAux, List.mem_singleton] at hp
    subst hp
    exact hcur c (by simpa using hc)
  | cons d cs ih =>
    intro p hp
    simp only [splitSpaceAux] at hp
    split_ifs at hp with hd
    · rcases List.mem_cons.mp hp with h | h
      · subst h
        intro c hc
        exact hcur c (by simpa using hc)
      · exact ih [] (by simp) p h
    · refine ih (d :: cur) ?_ p hp
      intro c hc
      rcases List.mem_cons.mp hc with h | h
      · exact h ▸ hd
      · exact hcur c h

/-- A text without space is one piece. -/
theorem splitSpaceAux_single (t cur : List Char) (ht : ∀ c ∈ t, c ≠ ' ') :
    splitSpaceAux t cur = [String.mk (cur.reverse ++ t)] := by
  induction t generalizing cur with
  | nil => simp [splitSpaceAux]
  | cons c cs ih =>
    have hc : c ≠ ' ' := ht c (by simp)
    have h := ih (c :: cur) (fun x hx => ht x (by simp [hx]))
    simp only [splitSpaceAux, hc, if_false]
    simpa using h

/-- The second piece of a header made of a word without space, one space, a
token without space and, possibly, a space and more text, is the token. -/
theorem bearerToken_of_word (w t : String) (hw : ∀ c ∈ w.data, c ≠ ' ')
    (ht : ∀ c ∈ t.data, c ≠ ' ') (hne : t ≠ "") :
    bearerToken (some (w ++ " " ++ t)) = some t ∧
      ∀ more : String, bearerToken (some (w ++ " " ++ t ++ " " ++ more)) = some t := by
  have htruthy : truthy (some t) = some t := by
    simp [truthy, hne]
  constructor
  · have h1 := splitSpaceAux_word w.data t.data hw []
    have h2 := splitSpaceAux_single t.data [] ht
    have hd : (w ++ " " ++ t).data = w.data ++ ' ' :: t.data := by
      simp [String.data_append]
    simp only [bearerToken, jsSplitSpace, hd, h1, h2, Option.bind]
    simpa using htruthy
  · intro more
    have h1 := splitSpaceAux_word w.data (t.data ++ ' ' :: more.data) hw []
    have h2 := splitSpaceAux_word t.data more.data ht []
    have hd : (w ++ " " ++ t ++ " " ++ more).data
        = w.data ++ ' ' :: (t.data ++ ' ' :: more.data) := by
      simp [String.data_append]
    simp only [bearerToken, jsSplitSpace, hd, h1, h2, Option.bind]
    simpa using htruthy

/-- C30. `authenticateToken` takes the token from the second space-separated
segment of the `Authorization` header and ignores the scheme word.
The segments are those of `split(' ')`: joined with single spaces they give the
header back and none of them holds a space. When the header is absent or its
second segment is absent or empty (as for `Bearer`, for `Bearer` followed by one
space, and for two spaces before the token) the reply is 401 with the message
that a token is required, and in no other case. For a header made of any scheme
word, one space and a non-empty token without space (followed or not by a space
and more text) the segment taken is that token. When a non-empty second segment
is there, the result is the verdict of `jwt.verify` on it: `next()` with the
payload when it is valid, 401 `Token expired` when it is expired, 403
`Invalid token` otherwise. So two headers with the same second segment get the
same result, and `Basic t` and `Bearer t` get the same result for every `t`. -/
theorem authenticateToken_second_segment (jwtVerify : String → JwtVerdict) :
    (∀ h : String,
      List.intercalate [' '] ((jsSplitSpace h).map String.data) = h.data ∧
        ∀ p ∈ jsSplitSpace h, ∀ c ∈ p.data, c ≠ ' ') ∧
    (∀ authorization,
      authenticateToken jwtVerify authorization
          = .rejected ⟨401, errorBody "Access token required", .untouched⟩
        ↔ bearerToken authorization = none) ∧
    (∀ h : String, bearerToken (some h) = none
        ↔ (jsSplitSpace h)[1]? = none ∨ (jsSplitSpace h)[1]? = some "") ∧
    bearerToken none = none ∧
    bearerToken (some "Bearer") = none ∧
    bearerToken (some "Bearer ") = none ∧
    (∀ t : String, bearerToken (some ("Bearer  " ++ t)) = none) ∧
    (∀ h token : String, bearerToken (some h) = some token
        ↔ (jsSplitSpace h)[1]? = some token ∧ token ≠ "") ∧
    (∀ w t : String, (∀ c ∈ w.data, c ≠ ' ') → (∀ c ∈ t.data, c ≠ ' ') → t ≠ "" →
      bearerToken (some (w ++ " " ++ t)) = some t ∧
        ∀ more : String, bearerToken (some (w ++ " " ++ t ++ " " ++ more)) = some t) ∧
    (∀ authorization token, bearerToken authorization = some token →
      authenticateToken jwtVerify authorization
        = match jwtVerify token with
          | .valid payload => .next payload
          | .expired => .rejected ⟨401, errorBody "Token expired", .untouched⟩
          | .invalid => .rejected ⟨403, errorBody "Invalid token", .untouched⟩) ∧
    (∀ a1 a2, bearerToken a1 = bearerToken a2 →
      authenticateToken jwtVerify a1 = authenticateToken jwtVerify a2) ∧
    (∀ t : String, authenticateToken jwtVerify (some ("Basic " ++ t))
      = authenticateToken jwtVerify (some ("Bearer " ++ t))) := by
  have hbasic : ∀ t : String, jsSplitSpace ("Basic " ++ t) = "Basic" :: jsSplitSpace t := by
    intro t
    have := splitSpaceAux_word "Basic".data t.data (by decide) []
    simpa [jsSplitSpace] using this
  have hbearer : ∀ t : String, jsSplitSpace ("Bearer " ++ t) = "Bearer" :: jsSplitSpace t := by
    intro t
    have := splitSpaceAux_word "Bearer".data t.data (by decide) []
    simpa [jsSplitSpace] using this
  refine ⟨?_, ?_, ?_, by decide, by decide, by decide, ?_, ?_, ?_, ?_, ?_, ?_⟩
  · intro h
    refine ⟨?_, ?_⟩
    · have := splitSpaceAux_join h.data []
      simpa [jsSplitSpace] using this
    · exact splitSpaceAux_no_space h.data [] (by simp)
  · intro authorization
    constructor
    · intro h
      cases hb : bearerToken authorization with
      | none => rfl
      | some token =>
        simp only [authenticateToken, hb] at h
        cases hv : jwtVerify token <;> simp [hv, errorBody] at h
    · intro h
      simp only [authenticateToken, h]
  · intro h
    simp only [bearerToken, Option.bind]
    cases hs : (jsSplitSpace h)[1]? with
    | none => simp [truthy]
    | some tok =>
      by_cases he : tok = ""
      · simp [truthy, he]
      · simp [truthy, he]
  · intro t
    have h2 : jsSplitSpace ("Bearer  " ++ t) = "Bearer" :: "" :: jsSplitSpace t := by
      have h1 := splitSpaceAux_word "Bearer".data (' ' :: t.data) (by decide) []
      have : ("Bearer  " ++ t).data = "Bearer".data ++ ' ' :: ' ' :: t.data := by
        simp [String.data_append]
      simp only [jsSplitSpace, this, h1, splitSpaceAux]
      simp
    simp [bearerToken, h2, truthy]
  · intro h token
    simp only [bearerToken, Option.bind]
    cases hs : (jsSplitSpace h)[1]? with
    | none => simp [truthy]
    | some tok =>
      by_cases he : tok = ""
      · subst he
        simp only [truthy]
        constructor
        · intro h0
          simp at h0
        · rintro ⟨h1, h2⟩
          exact absurd (Option.some.inj h1).symm h2
      · simp only [truthy, if_neg he]
        constructor
        · intro h0
          have := Option.some.inj h0
          subst this
          exact ⟨rfl, he⟩
        · rintro ⟨h1, _⟩
          exact h1
  · intro w t hw ht hne
    exact bearerToken_of_word w t hw ht hne
  · intro authorization token h
    simp only [authenticateToken, h]
  · intro a1 a2 h
    simp only [authenticateToken, h]
  · intro t
    have : bearerToken (some ("Basic " ++ t)) = bearerToken (some ("Bearer " ++ t)) := by
      simp [bearerToken, hbasic, hbearer]
    simp only [authenticateToken, this]

/-- The statement of C30 at the headers `Bearer good`, `Bearer old` and
`Bearer junk` of the sample verifier: the first passes with the payload of
`good`, the second is answered 401 `Token expired`, the third 403
`Invalid token`. -/
theorem authenticateToken_second_segment_witness :
    bearerToken (some ("Bearer" ++ " " ++ "good")) = some "good" ∧
      authenticateToken sampleVerify (some "Bearer good")
        = (match sampleVerify "good" with
          | .valid payload => .next payload
          | .expired => .rejected ⟨401, errorBody "Token expired", .untouched⟩
          | .invalid => .rejected ⟨403, errorBody "Invalid token", .untouched⟩) ∧
      authenticateToken sampleVerify (some "Bearer old")
        = .rejected ⟨401, errorBody "Token expired", .untouched⟩ ∧
      authenticateToken sampleVerify (some "Bearer junk")
        = .rejected ⟨403, errorBody "Invalid token", .untouched⟩ :=
  ⟨((authenticateToken_second_segment sampleVerify).2.2.2.2.2.2.2.2.1
      "Bearer" "good" (by decide) (by decide) (by decide)).1,
    (authenticateToken_second_segment sampleVerify).2.2.2.2.2.2.2.2.2.1
      (some "Bearer good") "good" (by decide),
    by decide, by decide⟩

/-- C23. The two sweep operations are idempotent and order-independent: the cleanup
job is the DELETE of expired active rows followed by the DELETE of aged history
rows; running it twice at the same clock reading gives the same store as
running it once; each of the two statements is idempotent; and the two
statements give the same store in either order. -/
theorem sweep_idempotent_commutes (now : Timestamp) (db : Db) :
    cleanupTokens now db = purgeOldRevoked now (purgeExpiredActive now db) ∧
      cleanupTokens now (cleanupTokens now db) = cleanupTokens now db ∧
      purgeExpiredActive now (purgeExpiredActive now db) = purgeExpiredActive now db ∧
      purgeOldRevoked now (purgeOldRevoked now db) = purgeOldRevoked now db ∧
      purgeOldRevoked now (purgeExpiredActive now db)
        = purgeExpiredActive now (purgeOldRevoked now db) := by
  refine ⟨rfl, ?_, ?_, ?_, rfl⟩
  · simp [cleanupTokens, List.filter_filter]
  · simp [purgeExpiredActive, List.filter_filter]
  · simp [purgeOldRevoked, List.filter_filter]

/-- C26. A failed login has no effect on the session store: when login answers with
status 400, 401 or 403, the whole store, the active and the history table
included, is the same after the call, the cookie is untouched and the body has
no access token. -/
theorem failed_login_no_effect (env : Env) (schema : Schema) (now : Timestamp) (raw : String)
    (db : Db) (req : LoginRequest) (res : Response)
    (hres : (login env schema now raw db req).outcome = .sent res)
    (hst : res.status = 400 ∨ res.status = 401 ∨ res.status = 403) :
    (login env schema now raw db req).db = db ∧
      res.cookie = .untouched ∧ res.body.accessToken = none := by
  unfold login at hres ⊢
  cases he : truthy req.email with
  | none =>
    simp only [he] at hres ⊢
    cases hres
    exact ⟨trivial, rfl, rfl⟩
  | some email =>
    cases hp : truthy req.password with
    | none =>
      simp only [he, hp] at hres ⊢
      cases hres
      exact ⟨trivial, rfl, rfl⟩
    | some password =>
      simp only [he, hp] at hres ⊢
      cases hu : findUserByEmail db email with
      | none =>
        simp only [hu] at hres ⊢
        cases hres
        exact ⟨trivial, rfl, rfl⟩
      | some user =>
        simp only [hu] at hres ⊢
        split_ifs at hres ⊢ with h1 h2
        · cases hres
          exact ⟨rfl, rfl, rfl⟩
        · cases hres
          exact ⟨rfl, rfl, rfl⟩
        · split at hres
          · cases hres
          · cases hres
            simp at hst

/-- Witness of `failed_login_no_effect`: the sample account with a wrong
password. -/
theorem failed_login_no_effect_witness :
    (login sampleEnv ⟨true⟩ 3 "r" sampleDbSession
        ⟨some "a@x.com", some "wrongpw", none, none⟩).db = sampleDbSession ∧
      (⟨401, errorBody "Invalid credentials", .untouched⟩ : Response).cookie = .untouched ∧
      (⟨401, errorBody "Invalid credentials", .untouched⟩ : Response).body.accessToken = none :=
  failed_login_no_effect sampleEnv ⟨true⟩ 3 "r" sampleDbSession
    ⟨some "a@x.com", some "wrongpw", none, none⟩
    ⟨401, errorBody "Invalid credentials", .untouched⟩ (by decide) (by decide)

/-- C27. Cascade revocation is scoped to the owning principal: after a refresh that
answered with the reuse reply for a history entry owned by `P`, the active table
is the old one without the rows of `P` (so the rows of every other principal
are unchanged and no row is created), the history and the users are unchanged,
and a later refresh with the same secret gets the reuse reply again. -/
theorem cascade_scoped (env : Env) (schema : Schema) (now now2 : Timestamp)
    (s n n2 : String) (db : Db) (ip ua ip2 ua2 : Option String) (revoked : RevokedToken)
    (hreuse : (refresh env schema now n db ⟨some s, ip, ua⟩).outcome = .sent reuseDetected)
    (hrev : (selectRevokedByHash db (env.hashToken s)).head? = some revoked)
    (hlater : now ≤ now2) :
    (refresh env schema now n db ⟨some s, ip, ua⟩).db.refresh_tokens
        = db.refresh_tokens.filter (fun r => !(r.user_id == revoked.user_id)) ∧
      (∀ Q, Q ≠ revoked.user_id →
        (refresh env schema now n db ⟨some s, ip, ua⟩).db.refresh_tokens.filter
            (fun r => r.user_id == Q)
          = db.refresh_tokens.filter (fun r => r.user_id == Q)) ∧
      (∀ r ∈ (refresh env schema now n db ⟨some s, ip, ua⟩).db.refresh_tokens,
        r ∈ db.refresh_tokens) ∧
      (refresh env schema now n db ⟨some s, ip, ua⟩).db.refresh_tokens_revoked
        = db.refresh_tokens_revoked ∧
      (refresh env schema now n db ⟨some s, ip, ua⟩).db.users = db.users ∧
      (refresh env schema now2 n2 (refresh env schema now n db ⟨some s, ip, ua⟩).db
        ⟨some s, ip2, ua2⟩).outcome = .sent reuseDetected := by
  obtain ⟨raw, rv, hraw, hnone, hrv, hdb⟩ := refresh_reuse_inv env schema now n db _ hreuse
  have hs : raw = s ∧ s ≠ "" := by
    simp only [truthy] at hraw
    split at hraw
    · cases hraw
    · next hne => exact ⟨(Option.some.inj hraw).symm, hne⟩
  obtain ⟨hraws, hs⟩ := hs
  subst hraws
  rw [hrev] at hrv
  cases hrv
  rw [hdb]
  refine ⟨rfl, ?_, ?_, rfl, rfl, ?_⟩
  · intro Q hQ
    simp only [deleteTokensOfUser, List.filter_filter]
    apply List.filter_congr
    intro r _
    by_cases hr : r.user_id = Q
    · simp [hr, hQ]
    · simp [hr]
  · intro r hr
    simp only [deleteTokensOfUser, List.mem_filter] at hr
    exact hr.1
  · have hnone2 : (selectActiveByHash (deleteTokensOfUser db revoked.user_id)
        (env.hashToken raw) now2).head? = none := by
      apply head?_filter_none
      intro r hr
      simp only [deleteTokensOfUser, List.mem_filter] at hr
      have hall : ∀ x ∈ selectActiveByHash db (env.hashToken raw) now, False := by
        intro x hx
        cases hl : selectActiveByHash db (env.hashToken raw) now with
        | nil => rw [hl] at hx; cases hx
        | cons y ys => rw [hl] at hnone; cases hnone
      by_cases hh : r.token_hash = env.hashToken raw
      · by_cases hexp : r.expires_at > now2
        · exact (hall r (List.mem_filter.mpr ⟨hr.1, by
            simp only [hh, beq_self_eq_true, Bool.true_and, decide_eq_true_eq]
            exact lt_of_le_of_lt hlater hexp⟩)).elim
        · simp [hexp]
      · simp [hh]
    rw [refresh_of_not_active env schema now2 raw n2 _ ip2 ua2 hs hnone2]
    have : (selectRevokedByHash (deleteTokensOfUser db revoked.user_id)
        (env.hashToken raw)).head? = some revoked := hrev
    rw [this]

/-- Witness of `cascade_scoped`: the replay of `s0` on the sample store, twice. -/
theorem cascade_scoped_witness :
    (refresh sampleEnv ⟨true⟩ 10 "n" sampleDbReplay ⟨some "s0", none, none⟩).db.refresh_tokens
        = [{ user_id := "u2", token_hash := "sha:z", ip := none, user_agent := none,
             expires_at := 1000 }] ∧
      (refresh sampleEnv ⟨true⟩ 20 "n2"
        (refresh sampleEnv ⟨true⟩ 10 "n" sampleDbReplay ⟨some "s0", none, none⟩).db
        ⟨some "s0", none, none⟩).outcome = .sent reuseDetected :=
  have h := cascade_scoped sampleEnv ⟨true⟩ 10 20 "s0" "n" "n2" sampleDbReplay
    none none none none { token_hash := "sha:s0", user_id := "u1", revoked_at := 5 }
    (by decide) (by decide) (by decide)
  ⟨h.1, h.2.2.2.2.2⟩

theorem find_withActiveFlag (users : List UserRow) (id : String) (b : Bool) (P : UserInfo)
    (hP : (users.find? (fun u => u.id == id)).map UserRow.info = some P) :
    ((users.map (fun u => if u.id == id then { u with is_active := b } else u)).find?
        (fun u => u.id == id)).map UserRow.info
      = some { P with is_active := b } := by
  induction users with
  | nil => simp at hP
  | cons u us ih =>
    by_cases hu : u.id = id
    · simp only [List.find?_cons, hu, beq_self_eq_true, Option.map_some', Option.some.injEq,
        List.map_cons, if_true] at hP ⊢
      rw [← hP]
      simp [UserRow.info, hu]
    · have hne : (u.id == id) = false := by simpa using hu
      simp only [List.find?_cons, hne, List.map_cons, Bool.false_eq_true, if_false] at hP ⊢
      exact ih hP

theorem findUserById_withActiveFlag (db : Db) (id : String) (b : Bool) (P : UserInfo)
    (hP : findUserById db id = some P) :
    findUserById (withActiveFlag db id b) id = some { P with is_active := b } :=
  find_withActiveFlag db.users id b P hP

/-- C28. Refresh does not consult the principal's active flag: for a store with an
unexpired active row for the hash of the secret, owned by `P`, and for the
store that differs from it only in the active flag of `P`, refresh rotates in
both runs and sends the same 200 reply, with the access token of `P` and the
new secret in the cookie, and leaves the same token tables. -/
theorem refresh_ignores_active_flag (env : Env) (schema : Schema) (now : Timestamp)
    (s s' : String) (db : Db) (ip ua : Option String) (stored : RefreshToken) (P : UserInfo)
    (b : Bool)
    (hs : s ≠ "")
    (hstored : (selectActiveByHash db (env.hashToken s) now).head? = some stored)
    (hP : findUserById db stored.user_id = some P)
    (hfresh : schema.refresh_token_hash_unique = true →
      ∀ r ∈ db.refresh_tokens, r.token_hash ≠ env.hashToken s') :
    (refresh env schema now s' db ⟨some s, ip, ua⟩).outcome
        = .sent ⟨200,
            { success := true, error := none, message := none,
              accessToken := some (generateAccessToken P.id P.email P.role), user := none },
            setRefreshCookie env s'⟩ ∧
      (refresh env schema now s' (withActiveFlag db stored.user_id b) ⟨some s, ip, ua⟩).outcome
        = (refresh env schema now s' db ⟨some s, ip, ua⟩).outcome ∧
      (refresh env schema now s' (withActiveFlag db stored.user_id b)
          ⟨some s, ip, ua⟩).db.refresh_tokens
        = (refresh env schema now s' db ⟨some s, ip, ua⟩).db.refresh_tokens ∧
      (refresh env schema now s' (withActiveFlag db stored.user_id b)
          ⟨some s, ip, ua⟩).db.refresh_tokens_revoked
        = (refresh env schema now s' db ⟨some s, ip, ua⟩).db.refresh_tokens_revoked := by
  have hstored2 : (selectActiveByHash (withActiveFlag db stored.user_id b)
      (env.hashToken s) now).head? = some stored := hstored
  have hfresh2 : schema.refresh_token_hash_unique = true →
      ∀ r ∈ (withActiveFlag db stored.user_id b).refresh_tokens,
        r.token_hash ≠ env.hashToken s' := hfresh
  rw [refresh_of_active env schema now s s' db ip ua stored hs hstored hfresh,
    refresh_of_active env schema now s s' _ ip ua stored hs hstored2 hfresh2,
    hP, findUserById_withActiveFlag db stored.user_id b P hP]
  refine ⟨rfl, rfl, rfl, ?_⟩
  simp only [rotated, insertRevoked, withActiveFlag]
  split <;> rfl

/-- Witness of `refresh_ignores_active_flag`: the session of the sample account,
with the account active and with its flag set to false. -/
theorem refresh_ignores_active_flag_witness :
    (refresh sampleEnv ⟨true⟩ 10 "s1" (withActiveFlag sampleDbSession "u1" false)
        ⟨some "s0", none, none⟩).outcome
      = (refresh sampleEnv ⟨true⟩ 10 "s1" sampleDbSession ⟨some "s0", none, none⟩).outcome :=
  (refresh_ignores_active_flag sampleEnv ⟨true⟩ 10 "s0" "s1" sampleDbSession none none
    { user_id := "u1", token_hash := "sha:s0", ip := none, user_agent := none,
      expires_at := 1000 }
    sampleUser.info false (by decide) (by decide) (by decide) (by decide)).2.1

/-- C29 (counterexample). A refresh with the secret of a session whose owner has no
row in `users`: the handler ends with the TypeError forwarded after
`setRefreshCookie` has run, so the cookie of the reply is set to the new
secret. -/
theorem refresh_orphan_sets_cookie :
    (selectActiveByHash sampleDbOrphan (sampleEnv.hashToken "s0") 10).head?
        = some { user_id := "gone", token_hash := "sha:s0", ip := none, user_agent := none,
                 expires_at := 1000 } ∧
      findUserById sampleDbOrphan "gone" = none ∧
      (refresh sampleEnv ⟨true⟩ 10 "s1" sampleDbOrphan ⟨some "s0", none, none⟩).outcome
        = .forwarded .typeError (.set "s1" (refreshCookieOptions sampleEnv)) ∧
      (refresh sampleEnv ⟨true⟩ 10 "s1" sampleDbOrphan ⟨some "s0", none, none⟩).outcome
        ≠ .forwarded .typeError .untouched := by
  decide

/-- C29 (amended). A refresh that fails after the lookup is not atomic: for a store
with an unexpired active row for the hash of the secret whose `user_id` matches
no row of `users`, refresh ends with a TypeError forwarded to the error
handler, which answers with status 500 and a body without access token, while
the cookie has already been set to the new secret; and the store has been
changed: the hash of the old secret is in the history, no active row carries
it, and the new row for the new secret has been inserted. -/
theorem refresh_orphan_not_atomic (env : Env) (schema : Schema) (now : Timestamp)
    (s s' : String) (db : Db) (ip ua : Option String) (stored : RefreshToken)
    (isProd : Bool) (message stack : String)
    (hs : s ≠ "")
    (hstored : (selectActiveByHash db (env.hashToken s) now).head? = some stored)
    (horphan : findUserById db stored.user_id = none)
    (hne : env.hashToken s' ≠ env.hashToken s)
    (hfresh : schema.refresh_token_hash_unique = true →
      ∀ r ∈ db.refresh_tokens, r.token_hash ≠ env.hashToken s') :
    (refresh env schema now s' db ⟨some s, ip, ua⟩).outcome
        = .forwarded .typeError (.set s' (refreshCookieOptions env)) ∧
      (errorHandler isProd (thrownError message stack)).status = 500 ∧
      (∃ e ∈ (refresh env schema now s' db ⟨some s, ip, ua⟩).db.refresh_tokens_revoked,
        e.token_hash = env.hashToken s) ∧
      (∀ r ∈ (refresh env schema now s' db ⟨some s, ip, ua⟩).db.refresh_tokens,
        r.token_hash ≠ env.hashToken s) ∧
      (refresh env schema now s' db ⟨some s, ip, ua⟩).db.refresh_tokens
        = db.refresh_tokens.filter (fun r => !(r.token_hash == env.hashToken s)) ++
          [{ user_id := stored.user_id, token_hash := env.hashToken s', ip := ip,
             user_agent := ua, expires_at := now + sevenDays }] := by
  rw [refresh_of_active env schema now s s' db ip ua stored hs hstored hfresh, horphan]
  refine ⟨rfl, ?_, ?_, ?_, rfl⟩
  · simp [errorHandler, errorStatus, thrownError, truthyNat]
  · have hhead := revoked_head_insertRevoked db (env.hashToken s) stored.user_id now
    cases hl : selectRevokedByHash (insertRevoked db (env.hashToken s) stored.user_id now)
        (env.hashToken s) with
    | nil => rw [hl] at hhead; cases hhead
    | cons e es =>
      have hmem : e ∈ selectRevokedByHash
          (insertRevoked db (env.hashToken s) stored.user_id now) (env.hashToken s) := by
        rw [hl]; simp
      have h2 := List.mem_filter.mp hmem
      exact ⟨e, h2.1, by simpa using h2.2⟩
  · intro r hr
    simp only [rotated, sessionRow, List.mem_append, List.mem_filter, List.mem_singleton] at hr
    rcases hr with ⟨_, hr⟩ | hr
    · simpa using hr
    · subst hr
      exact hne

/-- Witness of `refresh_orphan_not_atomic` on the sample store with an orphaned
session. -/
theorem refresh_orphan_not_atomic_witness :
    (refresh sampleEnv ⟨true⟩ 10 "s1" sampleDbOrphan ⟨some "s0", none, none⟩).db.refresh_tokens
      = [{ user_id := "gone", token_hash := "sha:s1", ip := none, user_agent := none,
           expires_at := 10 + sevenDays }] :=
  (refresh_orphan_not_atomic sampleEnv ⟨true⟩ 10 "s0" "s1" sampleDbOrphan none none
    { user_id := "gone", token_hash := "sha:s0", ip := none, user_agent := none,
      expires_at := 1000 }
    true "Cannot read properties of undefined" "at generateAccessToken"
    (by decide) (by decide) (by decide) (by decide) (by decide)).2.2.2.2

/-- What login does to the store: nothing, or it appends one row carrying the
hash of the drawn secret. -/
theorem login_frame (env : Env) (schema : Schema) (now : Timestamp) (raw : String)
    (db : Db) (req : LoginRequest) :
    (login env schema now raw db req).db = db ∨
      ∃ row, row.token_hash = env.hashToken raw ∧
        (login env schema now raw db req).db
          = { db with refresh_tokens := db.refresh_tokens ++ [row] } := by
  unfold login
  split
  · split
    · exact Or.inl rfl
    · split_ifs
      · exact Or.inl rfl
      · exact Or.inl rfl
      · unfold insertRefreshToken
        dsimp only
        split_ifs
        · exact Or.inl rfl
        · exact Or.inr ⟨_, rfl, rfl⟩
  · exact Or.inl rfl

/-- What refresh does to the store: the users are kept, no history entry is
removed, and the active table is filtered and possibly extended by one row
carrying the hash of the drawn secret. -/
theorem refresh_frame (env : Env) (schema : Schema) (now : Timestamp) (raw : String)
    (db : Db) (req : CookieRequest) :
    (refresh env schema now raw db req).db.users = db.users ∧
      (∀ e ∈ db.refresh_tokens_revoked,
        e ∈ (refresh env schema now raw db req).db.refresh_tokens_revoked) ∧
      ∃ p, (refresh env schema now raw db req).db.refresh_tokens = db.refresh_tokens.filter p ∨
        ∃ row, row.token_hash = env.hashToken raw ∧
          (refresh env schema now raw db req).db.refresh_tokens
            = db.refresh_tokens.filter p ++ [row] := by
  have hrev : ∀ (h u : String) (e : RevokedToken), e ∈ db.refresh_tokens_revoked →
      e ∈ (insertRevoked db h u now).refresh_tokens_revoked := by
    intro h u e he
    unfold insertRevoked
    split
    · exact he
    · simp [he]
  cases ht : truthy req.refreshToken with
  | none =>
    simp only [refresh, ht]
    exact ⟨by first | rfl | trivial, fun e he => he, fun _ => true, Or.inl (by simp)⟩
  | some s =>
    cases ha : (selectActiveByHash db (env.hashToken s) now).head? with
    | none =>
      cases hr : (selectRevokedByHash db (env.hashToken s)).head? with
      | none =>
        simp only [refresh, ht, ha, hr]
        exact ⟨by first | rfl | trivial, fun e he => he, fun _ => true, Or.inl (by simp)⟩
      | some rv =>
        simp only [refresh, ht, ha, hr]
        exact ⟨rfl, fun e he => he, _, Or.inl rfl⟩
    | some stored =>
      by_cases hc : (schema.refresh_token_hash_unique &&
          (deleteTokensByHash (insertRevoked db (env.hashToken s) stored.user_id now)
            (env.hashToken s)).refresh_tokens.any
            (fun r => r.token_hash == env.hashToken raw)) = true
      · have hins : insertRefreshToken schema
            (deleteTokensByHash (insertRevoked db (env.hashToken s) stored.user_id now)
              (env.hashToken s))
            { user_id := stored.user_id, token_hash := env.hashToken raw, ip := req.ip,
              user_agent := req.userAgent, expires_at := now + sevenDays }
            = .error .uniqueViolation := by
          unfold insertRefreshToken
          rw [if_pos hc]
        simp only [refresh, ht, ha, hins]
        refine ⟨insertRevoked_users _ _ _ _, hrev _ _,
          fun r => !(r.token_hash == env.hashToken s), Or.inl ?_⟩
        simp only [deleteTokensByHash, insertRevoked_refresh_tokens]
      · have hins : insertRefreshToken schema
            (deleteTokensByHash (insertRevoked db (env.hashToken s) stored.user_id now)
              (env.hashToken s))
            { user_id := stored.user_id, token_hash := env.hashToken raw, ip := req.ip,
              user_agent := req.userAgent, expires_at := now + sevenDays }
            = .ok (rotated db (env.hashToken s) (env.hashToken raw) stored req.ip
                req.userAgent now) := by
          unfold insertRefreshToken
          rw [if_neg hc]
          simp only [rotated, sessionRow, deleteTokensByHash, insertRevoked_refresh_tokens,
            insertRevoked_users]
        simp only [refresh, ht, ha, hins]
        split
        · exact ⟨rfl, hrev _ _, fun r => !(r.token_hash == env.hashToken s),
            Or.inr ⟨_, rfl, rfl⟩⟩
        · exact ⟨rfl, hrev _ _, fun r => !(r.token_hash == env.hashToken s),
            Or.inr ⟨_, rfl, rfl⟩⟩

/-- What deactivate does to the token tables: the history is kept and the
active table is filtered. -/
theorem deactivate_frame (db : Db) (reqUser : JwtPayload) (id : String) :
    (deactivate db reqUser id).db.refresh_tokens_revoked = db.refresh_tokens_revoked ∧
      ∃ p, (deactivate db reqUser id).db.refresh_tokens = db.refresh_tokens.filter p := by
  unfold deactivate
  split_ifs
  · exact ⟨rfl, fun _ => true, by simp⟩
  · split
    · exact ⟨rfl, fun _ => true, by simp⟩
    · split_ifs
      · exact ⟨rfl, fun _ => true, by simp⟩
      · exact ⟨rfl, _, rfl⟩

/-- What an operation does to the active table: it filters it and possibly
appends one row carrying the hash of the secret it draws. -/
theorem applyOp_tokens (env : Env) (schema : Schema) (db : Db) (op : Op) :
    ∃ p, (applyOp env schema db op).refresh_tokens = db.refresh_tokens.filter p ∨
      ∃ row raw, opSecret op = some raw ∧ row.token_hash = env.hashToken raw ∧
        (applyOp env schema db op).refresh_tokens = db.refresh_tokens.filter p ++ [row] := by
  cases op with
  | login now raw req =>
    rcases login_frame env schema now raw db req with h | ⟨row, hrow, h⟩
    · exact ⟨fun _ => true, Or.inl (by simp [applyOp, h])⟩
    · exact ⟨fun _ => true, Or.inr ⟨row, raw, rfl, hrow, by simp [applyOp, h]⟩⟩
  | refresh now raw req =>
    obtain ⟨_, _, p, h | ⟨row, hrow, h⟩⟩ := refresh_frame env schema now raw db req
    · exact ⟨p, Or.inl h⟩
    · exact ⟨p, Or.inr ⟨row, raw, rfl, hrow, h⟩⟩
  | logout req =>
    simp only [applyOp, logout]
    split
    · exact ⟨_, Or.inl rfl⟩
    · exact ⟨fun _ => true, Or.inl (by simp)⟩
  | deactivate reqUser id =>
    obtain ⟨_, p, h⟩ := deactivate_frame db reqUser id
    exact ⟨p, Or.inl h⟩
  | sweep now => exact ⟨_, Or.inl rfl⟩

/-- What an operation does to the history: a sweep removes the entries revoked
before `now - 7 days`, every other operation removes none. -/
theorem applyOp_history (env : Env) (schema : Schema) (db : Db) (op : Op)
    (e : RevokedToken) (he : e ∈ db.refresh_tokens_revoked)
    (hsweep : ∀ now, op = .sweep now → now - sevenDays ≤ e.revoked_at) :
    e ∈ (applyOp env schema db op).refresh_tokens_revoked := by
  cases op with
  | login now raw req =>
    rcases login_frame env schema now raw db req with h | ⟨row, _, h⟩
    · simpa [applyOp, h] using he
    · simpa [applyOp, h] using he
  | refresh now raw req =>
    exact (refresh_frame env schema now raw db req).2.1 e he
  | logout req =>
    simp only [applyOp, logout]
    split <;> exact he
  | deactivate reqUser id =>
    simp only [applyOp]
    rw [(deactivate_frame db reqUser id).1]
    exact he
  | sweep now =>
    simp only [applyOp, cleanupTokens, List.mem_filter, Bool.not_eq_true',
      decide_eq_false_iff_not, not_lt]
    exact ⟨he, hsweep now rfl⟩

/-- One operation keeps the hashes of the active table distinct when the secret
it draws has a hash that is not in the table. -/
theorem unique_hashes_step (env : Env) (schema : Schema) (db : Db) (op : Op)
    (hu : UniqueHashes db)
    (hf : ∀ raw, opSecret op = some raw →
      ∀ r ∈ db.refresh_tokens, r.token_hash ≠ env.hashToken raw) :
    UniqueHashes (applyOp env schema db op) := by
  unfold UniqueHashes at hu ⊢
  obtain ⟨p, h | ⟨row, raw, hs, hrow, h⟩⟩ := applyOp_tokens env schema db op
  · rw [h]
    exact hu.sublist ((List.filter_sublist db.refresh_tokens).map _)
  · rw [h, List.map_append, List.nodup_append]
    refine ⟨hu.sublist ((List.filter_sublist db.refresh_tokens).map _), by simp, ?_⟩
    intro x hx hx2
    simp only [List.map_cons, List.map_nil, List.mem_singleton] at hx2
    simp only [List.mem_map, List.mem_filter] at hx
    obtain ⟨r, ⟨hr, _⟩, hrx⟩ := hx
    exact hf raw hs r hr (by rw [hrx, hx2, hrow])

/-- C25. At most one active record per hash: starting from a store in which no two
active rows share a `token_hash`, every sequence of logins, refreshes (rotating,
failing or cascading), logouts, deactivations and sweeps in which each drawn
secret has a hash not in the active table at that moment leads to a store in
which no two active rows share a `token_hash`. -/
theorem unique_hashes_preserved (env : Env) (schema : Schema) (ops : List Op) (db : Db)
    (hu : UniqueHashes db) (hf : GeneratesFresh env schema db ops) :
    UniqueHashes (runOps env schema db ops) := by
  induction ops generalizing db with
  | nil => exact hu
  | cons op ops ih =>
    obtain ⟨h1, h2⟩ := hf
    exact ih (applyOp env schema db op) (unique_hashes_step env schema db op hu h1) h2

/-- Witness of `unique_hashes_preserved`: the sample sequence on the sample
store. -/
theorem unique_hashes_preserved_witness :
    UniqueHashes (runOps sampleEnv ⟨true⟩ sampleDbTwo sampleOps) :=
  unique_hashes_preserved sampleEnv ⟨true⟩ sampleOps sampleDbTwo
    (by unfold UniqueHashes; decide)
    (by
      refine ⟨?_, ?_, ?_, ?_, ?_, ?_, trivial⟩
      · intro raw h
        cases h
        decide
      · intro raw h
        cases h
        decide
      · intro raw h
        cases h
      · intro raw h
        cases h
      · intro raw h
        cases h
      · intro raw h
        cases h
        decide)

/-- One operation that may follow the rotation keeps the history entry of the
rotated hash and keeps the active table free of that hash. -/
theorem rotated_hash_step (env : Env) (schema : Schema) (h : String) (t : Timestamp)
    (db : Db) (op : Op) (hk : KeepsHash env h t op)
    (hentry : ∃ e ∈ db.refresh_tokens_revoked, e.token_hash = h ∧ e.revoked_at = t)
    (hnone : ∀ r ∈ db.refresh_tokens, r.token_hash ≠ h) :
    (∃ e ∈ (applyOp env schema db op).refresh_tokens_revoked,
        e.token_hash = h ∧ e.revoked_at = t) ∧
      ∀ r ∈ (applyOp env schema db op).refresh_tokens, r.token_hash ≠ h := by
  constructor
  · obtain ⟨e, he, heh, het⟩ := hentry
    refine ⟨e, applyOp_history env schema db op e he ?_, heh, het⟩
    intro now hop
    have hle := hk.2 now hop
    rw [het]
    exact sub_le_iff_le_add.mpr hle
  · obtain ⟨p, hp | ⟨row, raw, hs, hrow, hp⟩⟩ := applyOp_tokens env schema db op
    · intro r hr
      rw [hp] at hr
      exact hnone r (List.mem_filter.mp hr).1
    · intro r hr
      rw [hp] at hr
      simp only [List.mem_append, List.mem_filter, List.mem_singleton] at hr
      rcases hr with hr | hr
      · exact hnone r hr.1
      · subst hr
        rw [hrow]
        exact hk.1 raw hs

/-- C24. Rotated-out hashes stay recognisable for the whole grace window: when a
refresh at time `t` rotates out the secret `s`, whose hash was not in the
history before, and is followed by any sequence of logins, refreshes, logouts,
deactivations and sweeps in which no drawn secret has the hash of `s` and every
sweep runs at `t + 7 days` at the latest, then the history entry of the hash,
revoked at `t`, is still present afterwards, and presenting `s` to refresh, at
any clock reading, gets the reuse reply. -/
theorem rotated_hash_stays (env : Env) (schema : Schema) (t T : Timestamp)
    (s s' n : String) (db : Db) (req : CookieRequest) (res : Response) (ops : List Op)
    (ip ua : Option String)
    (hreq : req.refreshToken = some s)
    (hrot : (refresh env schema t s' db req).outcome = .sent res) (hst : res.status = 200)
    (hnew : ∀ e ∈ db.refresh_tokens_revoked, e.token_hash ≠ env.hashToken s)
    (hne : env.hashToken s' ≠ env.hashToken s)
    (hops : ∀ op ∈ ops, KeepsHash env (env.hashToken s) t op) :
    (∃ e ∈ (runOps env schema (refresh env schema t s' db req).db ops).refresh_tokens_revoked,
        e.token_hash = env.hashToken s ∧ e.revoked_at = t) ∧
      (refresh env schema T n (runOps env schema (refresh env schema t s' db req).db ops)
        ⟨some s, ip, ua⟩).outcome = .sent reuseDetected := by
  obtain ⟨s0, stored, user, hs0, hsel, hu, heq⟩ :=
    refresh_success_inv env schema t s' db req res hrot hst
  have hs : s0 = s ∧ s ≠ "" := by
    rw [hreq] at hs0
    simp only [truthy] at hs0
    split at hs0
    · cases hs0
    · next hne2 => exact ⟨(Option.some.inj hs0).symm, hne2⟩
  obtain ⟨hs0s, hs⟩ := hs
  subst hs0s
  rw [heq]
  have hinv : ∀ (ops : List Op) (d : Db),
      (∀ op ∈ ops, KeepsHash env (env.hashToken s0) t op) →
      (∃ e ∈ d.refresh_tokens_revoked, e.token_hash = env.hashToken s0 ∧ e.revoked_at = t) →
      (∀ r ∈ d.refresh_tokens, r.token_hash ≠ env.hashToken s0) →
      (∃ e ∈ (runOps env schema d ops).refresh_tokens_revoked,
          e.token_hash = env.hashToken s0 ∧ e.revoked_at = t) ∧
        ∀ r ∈ (runOps env schema d ops).refresh_tokens, r.token_hash ≠ env.hashToken s0 := by
    intro ops
    induction ops with
    | nil => intro d _ h1 h2; exact ⟨h1, h2⟩
    | cons op ops ih =>
      intro d hk h1 h2
      obtain ⟨h3, h4⟩ := rotated_hash_step env schema (env.hashToken s0) t d op
        (hk op (by simp)) h1 h2
      exact ih (applyOp env schema d op) (fun o ho => hk o (by simp [ho])) h3 h4
  obtain ⟨hentry, hnone⟩ := hinv ops
    (rotated db (env.hashToken s0) (env.hashToken s') stored req.ip req.userAgent t) hops
    (by
      refine ⟨{ token_hash := env.hashToken s0, user_id := stored.user_id, revoked_at := t },
        ?_, rfl, rfl⟩
      have hany : ¬ (db.refresh_tokens_revoked.any
          (fun r => r.token_hash == env.hashToken s0)) = true := by
        simp only [List.any_eq_true, beq_iff_eq, not_exists, not_and]
        exact hnew
      simp [rotated, insertRevoked, hany])
    (by
      intro r hr
      simp only [rotated, sessionRow, List.mem_append, List.mem_filter,
        List.mem_singleton] at hr
      rcases hr with ⟨_, hr⟩ | hr
      · simpa using hr
      · subst hr
        exact hne)
  refine ⟨hentry, ?_⟩
  have hnoneA : (selectActiveByHash
      (runOps env schema
        (rotated db (env.hashToken s0) (env.hashToken s') stored req.ip req.userAgent t) ops)
      (env.hashToken s0) T).head? = none :=
    head?_filter_none _ _ (fun r hr => by simp [hnone r hr])
  rw [refresh_of_not_active env schema T s0 n _ ip ua hs hnoneA]
  obtain ⟨e, he, heh, _⟩ := hentry
  cases hl : (selectRevokedByHash
      (runOps env schema
        (rotated db (env.hashToken s0) (env.hashToken s') stored req.ip req.userAgent t) ops)
      (env.hashToken s0)).head? with
  | some rv => rfl
  | none =>
    have hmem : e ∈ selectRevokedByHash
        (runOps env schema
          (rotated db (env.hashToken s0) (env.hashToken s') stored req.ip req.userAgent t) ops)
        (env.hashToken s0) := List.mem_filter.mpr ⟨he, by simpa using heh⟩
    cases hl2 : selectRevokedByHash
        (runOps env schema
          (rotated db (env.hashToken s0) (env.hashToken s') stored req.ip req.userAgent t) ops)
        (env.hashToken s0) with
    | nil => rw [hl2] at hmem; cases hmem
    | cons y ys => rw [hl2] at hl; cases hl

/-- Witness of `rotated_hash_stays`: the secret `s0` of the sample store is rotated
out at time 10 and presented again after the sample sequence. -/
theorem rotated_hash_stays_witness :
    (refresh sampleEnv ⟨true⟩ 99 "n"
      (runOps sampleEnv ⟨true⟩
        (refresh sampleEnv ⟨true⟩ 10 "s1" sampleDbSession ⟨some "s0", none, none⟩).db
        sampleOpsAfter)
      ⟨some "s0", none, none⟩).outcome = .sent reuseDetected :=
  (rotated_hash_stays sampleEnv ⟨true⟩ 10 99 "s0" "s1" "n" sampleDbSession
    ⟨some "s0", none, none⟩
    ⟨200, refreshBody sampleUser.info, setRefreshCookie sampleEnv "s1"⟩ sampleOpsAfter
    none none rfl (by decide) (by decide) (by decide) (by decide)
    (by
      intro op hop
      simp only [sampleOpsAfter, List.mem_cons, List.mem_singleton, List.not_mem_nil,
        or_false] at hop
      rcases hop with h | h | h | h
      · subst h
        exact ⟨fun raw hr => (by cases hr; decide), fun now hn => (by cases hn)⟩
      · subst h
        exact ⟨fun raw hr => (by cases hr), fun now hn => (by cases hn; exact le_refl _)⟩
      · subst h
        exact ⟨fun raw hr => (by cases hr; decide), fun now hn => (by cases hn)⟩
      · subst h
        exact ⟨fun raw hr => (by cases hr), fun now hn => (by cases hn)⟩)).2

/-! ## The routes with request values and failing statements -/

/-- The run of a handler whose whole body stands in `try` with the clause
`catch (err) { next(err); }`. -/
theorem exec_tryCatch_next {ρ : Type} (fail : Nat → Option ErrorObject) (body : Prog ρ)
    (n : Nat) (db : Db) (c : CookieEffect) :
    (Prog.tryCatch body Prog.next).exec fail n db c = catchNext (body.exec fail n db c) := by
  simp only [Prog.exec, catchNext]
  rcases h : body.exec fail n db c with ⟨db1, n1, c1, e⟩
  cases e <;> rfl

/-- On body fields that are strings or absent, an email without NUL and a
database that answers every statement, the route `POST /login` runs as the
handler `login`. -/
theorem loginRoute_of_string (env : Env) (schema : Schema) (thrown : Thrown)
    (now : Timestamp) (rawRefresh : String) (db : Db) (req : LoginRequest)
    (htext : ∀ e, req.email = some e → textOk e = true) :
    ((loginRoute env schema thrown now rawRefresh (.ofOption req.email)
        (.ofOption req.password) req.ip req.userAgent).exec noFault 0 db .untouched).asRun
      = (login env schema now rawRefresh db req).asRun thrown := by
  unfold loginRoute login
  rw [exec_tryCatch_next]
  cases he : req.email with
  | none =>
    simp [JsValue.ofOption, jsTruthy, Prog.exec, Exec.asRun, Step.asRun, truthy, catchNext]
  | some e =>
    have hok := htext e he
    by_cases he0 : e = ""
    · simp [he0, JsValue.ofOption, jsTruthy, Prog.exec, Exec.asRun,
        Step.asRun, truthy, catchNext]
    · cases hp : req.password with
      | none =>
        simp [he0, JsValue.ofOption, jsTruthy, Prog.exec,
          Exec.asRun, Step.asRun, truthy, catchNext]
      | some p =>
        by_cases hp0 : p = ""
        · simp [he0, hp0, JsValue.ofOption, jsTruthy, Prog.exec,
            Exec.asRun, Step.asRun, truthy, catchNext]
        · have h1 : (!jsTruthy (JsValue.str e) || !jsTruthy (JsValue.str p)) = false := by
            simp [jsTruthy, he0, hp0]
          simp only [JsValue.ofOption, h1, Bool.false_eq_true, if_false, Prog.exec, noFault,
            findUserByEmailQuery, JsValue.param, hok, if_true, truthy, he0, hp0]
          cases hu : findUserByEmail db e with
          | none => simp [Exec.asRun, Step.asRun, Prog.exec, catchNext]
          | some u =>
            simp only [Prog.exec, bcryptCompareJs]
            by_cases hc : env.bcryptCompare p u.password = true
            · by_cases ha : u.is_active = true
              · simp only [hc, ha, Bool.not_true, Bool.false_eq_true, if_false, Prog.exec,
                  noFault, insertRefreshTokenQuery]
                cases hi : insertRefreshToken schema db
                    { user_id := u.id, token_hash := env.hashToken rawRefresh, ip := req.ip,
                      user_agent := req.userAgent, expires_at := now + sevenDays } with
                | error err => simp [Exec.asRun, Step.asRun, Prog.exec, catchNext]
                | ok db1 => simp [Exec.asRun, Step.asRun, Prog.exec, catchNext]
              · simp [hc, ha, Exec.asRun, Step.asRun, Prog.exec, catchNext]
            · simp [hc, Exec.asRun, Step.asRun, Prog.exec, catchNext]

/-- On a cookie that is a string or absent and a database that answers every
statement, the route `POST /logout` runs as the handler `logout`. -/
theorem logoutRoute_of_string (env : Env) (thrown : Thrown) (db : Db) (req : CookieRequest) :
    ((logoutRoute env thrown (.ofOption req.refreshToken)).exec noFault 0 db .untouched).asRun
      = (logout env db req).asRun thrown := by
  unfold logoutRoute logout
  rw [exec_tryCatch_next]
  cases hr : req.refreshToken with
  | none =>
    simp [JsValue.ofOption, jsTruthy, Prog.exec, Exec.asRun, Step.asRun, truthy, catchNext]
  | some s =>
    by_cases hs : s = ""
    · simp [hs, JsValue.ofOption, jsTruthy, Prog.exec, Exec.asRun, Step.asRun, truthy,
        catchNext]
    · simp [hs, JsValue.ofOption, jsTruthy, Prog.exec, Exec.asRun, Step.asRun, truthy,
        catchNext, hashTokenJs, noFault]

/-- On a cookie that is a string or absent and a database that answers every
statement, the route `POST /refresh` runs as the handler `refresh`. -/
theorem refreshRoute_of_string (env : Env) (schema : Schema) (thrown : Thrown)
    (now : Timestamp) (newRawToken : String) (db : Db) (req : CookieRequest) :
    ((refreshRoute env schema thrown now newRawToken (.ofOption req.refreshToken)
        req.ip req.userAgent).exec noFault 0 db .untouched).asRun
      = (refresh env schema now newRawToken db req).asRun thrown := by
  unfold refreshRoute refresh
  rw [exec_tryCatch_next]
  cases hr : req.refreshToken with
  | none =>
    simp [JsValue.ofOption, jsTruthy, Prog.exec, Exec.asRun, Step.asRun, truthy, catchNext]
  | some s =>
    by_cases hs : s = ""
    · simp [hs, JsValue.ofOption, jsTruthy, Prog.exec, Exec.asRun, Step.asRun, truthy,
        catchNext]
    · have h1 : (!jsTruthy (JsValue.str s)) = false := by
        simp [jsTruthy, hs]
      simp only [JsValue.ofOption, h1, Bool.false_eq_true, if_false, Prog.exec, noFault,
        hashTokenJs, truthy, hs]
      cases ha : (selectActiveByHash db (env.hashToken s) now).head? with
      | none =>
        simp only [Prog.exec]
        cases hv : (selectRevokedByHash db (env.hashToken s)).head? with
        | none => simp [Exec.asRun, Step.asRun, Prog.exec, catchNext, invalidOrExpired]
        | some r => simp [Exec.asRun, Step.asRun, Prog.exec, catchNext, reuseDetected, noFault]
      | some stored =>
        simp only [Prog.exec, noFault, insertRefreshTokenQuery]
        cases hi : insertRefreshToken schema
            (deleteTokensByHash (insertRevoked db (env.hashToken s) stored.user_id now)
              (env.hashToken s))
            { user_id := stored.user_id, token_hash := env.hashToken newRawToken,
              ip := req.ip, user_agent := req.userAgent, expires_at := now + sevenDays } with
        | error err => simp [Exec.asRun, Step.asRun, Prog.exec, catchNext]
        | ok db3 =>
          simp only [Prog.exec]
          cases hu : findUserById db3 stored.user_id with
          | none => simp [Exec.asRun, Step.asRun, Prog.exec, catchNext, Thrown.ofServerError]
          | some u => simp [Exec.asRun, Step.asRun, Prog.exec, catchNext]

/-- The run of a body without `catch`: it passes nothing to `next`, and when the
database refuses a statement it has sent, the run ends there with that
exception. -/
theorem exec_straight {ρ : Type} (fail : Nat → Option ErrorObject) (body : Prog ρ)
    (hs : body.straight) (n : Nat) (db : Db) (c : CookieEffect) :
    n ≤ (body.exec fail n db c).queries ∧
      (∀ err, (body.exec fail n db c).ending ≠ .forwarded err) ∧
      (∀ k err, n ≤ k → k < (body.exec fail n db c).queries → fail k = some err →
        (body.exec fail n db c).ending = .escaped err ∧
          (body.exec fail n db c).queries = k + 1) := by
  induction body generalizing n db c with
  | reply r =>
    refine ⟨le_refl _, fun err h => (by cases h), ?_⟩
    intro k err h1 h2 _
    simp only [Prog.exec] at h2
    omega
  | next err => exact absurd hs (by simp [Prog.straight])
  | throw e =>
    refine ⟨le_refl _, fun err h => (by cases h), ?_⟩
    intro k err h1 h2 _
    simp only [Prog.exec] at h2
    omega
  | query stmt rest ih =>
    simp only [Prog.straight] at hs
    simp only [Prog.exec]
    cases hf : fail n with
    | some e =>
      refine ⟨by simp, fun err h => (by cases h), ?_⟩
      intro k err h1 h2 h3
      simp only at h2
      have hk : k = n := by omega
      subst hk
      rw [hf] at h3
      cases h3
      exact ⟨rfl, rfl⟩
    | none =>
      cases hq : stmt db with
      | error e =>
        refine ⟨by simp, fun err h => (by cases h), ?_⟩
        intro k err h1 h2 h3
        simp only at h2
        have hk : k = n := by omega
        subst hk
        rw [hf] at h3
        cases h3
      | ok p =>
        obtain ⟨b, db1⟩ := p
        have h := ih b (hs b) (n + 1) db1 c
        refine ⟨by simp only; omega, h.2.1, ?_⟩
        intro k err h1 h2 h3
        by_cases hk : k = n
        · subst hk
          rw [hf] at h3
          cases h3
        · exact h.2.2 k err (by omega) h2 h3
  | effect c1 rest ih =>
    simp only [Prog.straight] at hs
    simp only [Prog.exec]
    exact ih hs n db c1
  | tryCatch body handler _ _ => exact absurd hs (by simp [Prog.straight])

/-- A handler whose body stands in `try { ... } catch (err) { next(err); }`
lets no exception escape: an exception thrown in the body, and the refusal of a
statement the body has sent, end the run with that error passed to `next`, the
store and the cookie effect being as the body left them. -/
theorem tryCatch_next_forwards {ρ : Type} (fail : Nat → Option ErrorObject) (body : Prog ρ)
    (hs : body.straight) (n : Nat) (db : Db) (c : CookieEffect) :
    (∀ err, ((Prog.tryCatch body Prog.next).exec fail n db c).ending ≠ .escaped err) ∧
      (∀ k err, n ≤ k → k < ((Prog.tryCatch body Prog.next).exec fail n db c).queries →
        fail k = some err →
        ((Prog.tryCatch body Prog.next).exec fail n db c).ending = .forwarded err ∧
          ((Prog.tryCatch body Prog.next).exec fail n db c).queries = k + 1) ∧
      (∀ err, (body.exec fail n db c).ending = .escaped err →
        (Prog.tryCatch body Prog.next).exec fail n db c
          = { body.exec fail n db c with ending := .forwarded err }) := by
  rw [exec_tryCatch_next]
  have h := exec_straight fail body hs n db c
  rcases hr : body.exec fail n db c with ⟨db1, n1, c1, e⟩
  rw [hr] at h
  cases e with
  | sent r =>
    refine ⟨fun err h0 => (by cases h0), ?_, fun err h0 => (by cases h0)⟩
    intro k err h1 h2 h3
    have := (h.2.2 k err h1 h2 h3).1
    cases this
  | forwarded e => exact absurd rfl (h.2.1 e)
  | escaped e =>
    refine ⟨fun err h0 => (by cases h0), ?_, ?_⟩
    · intro k err h1 h2 h3
      have h4 := h.2.2 k err h1 h2 h3
      have h5 := h4.1
      cases h5
      exact ⟨rfl, h4.2⟩
    · intro err h0
      cases h0
      rfl

/-- A handler whose body, free of `catch` and `next`, stands in
`try { ... } catch (err) { next(err); }` forwards what is thrown in it. -/
theorem forwards_of_straight {ρ : Type} (body : Prog ρ) (hs : body.straight) :
    Forwards (Prog.tryCatch body Prog.next) := by
  intro fail db
  have h := tryCatch_next_forwards fail body hs 0 db .untouched
  exact ⟨h.1, fun k err h1 h2 => h.2.1 k err (Nat.zero_le k) h1 h2⟩

/-- The route `POST /login` forwards what is thrown in it. -/
theorem loginRoute_forwards (env : Env) (schema : Schema) (thrown : Thrown)
    (now : Timestamp) (rawRefresh : String) (email password : JsValue)
    (ip userAgent : Option String) :
    Forwards (loginRoute env schema thrown now rawRefresh email password ip userAgent) := by
  unfold loginRoute
  apply forwards_of_straight
  split_ifs
  · trivial
  · intro found
    cases found with
    | none => trivial
    | some user =>
      simp only
      cases bcryptCompareJs env thrown password user.password with
      | error err => trivial
      | ok same =>
        simp only
        split_ifs
        · trivial
        · trivial
        · intro _
          trivial

/-- The route `POST /refresh` forwards what is thrown in it. -/
theorem refreshRoute_forwards (env : Env) (schema : Schema) (thrown : Thrown)
    (now : Timestamp) (newRawToken : String) (rawToken : JsValue)
    (ip userAgent : Option String) :
    Forwards (refreshRoute env schema thrown now newRawToken rawToken ip userAgent) := by
  unfold refreshRoute
  apply forwards_of_straight
  split_ifs
  · trivial
  · cases hashTokenJs env thrown rawToken with
    | error err => trivial
    | ok hashedToken =>
      intro found
      cases found with
      | none =>
        intro revoked
        cases revoked with
        | none => trivial
        | some r =>
          intro _
          trivial
      | some stored =>
        intro _ _ _ user
        cases user with
        | none => trivial
        | some u => trivial

/-- The route `POST /logout` forwards what is thrown in it. -/
theorem logoutRoute_forwards (env : Env) (thrown : Thrown) (rawToken : JsValue) :
    Forwards (logoutRoute env thrown rawToken) := by
  unfold logoutRoute
  apply forwards_of_straight
  split_ifs
  · cases hashTokenJs env thrown rawToken with
    | error err => trivial
    | ok hashedToken =>
      intro _
      trivial
  · trivial

/-- The route `GET /me` forwards what is thrown in it. -/
theorem meRoute_forwards (user : JwtPayload) : Forwards (meRoute user) := by
  unfold meRoute
  apply forwards_of_straight
  intro found
  cases found with
  | none => trivial
  | some u => trivial

/-- The route `POST /register` forwards what is thrown in it. -/
theorem registerRoute_forwards (conflict : List UserRow → UserRow → Bool)
    (gen : UserDefaults) (thrown : Thrown) (hashedPassword : String) (reqUser : JwtPayload)
    (req : RegisterRequest) :
    Forwards (registerRoute conflict gen thrown hashedPassword reqUser req) := by
  unfold registerRoute
  apply forwards_of_straight
  split
  · split_ifs
    · trivial
    · trivial
    · trivial
    · trivial
    · intro existing
      cases existing with
      | some _ => trivial
      | none =>
        intro _
        trivial
  · trivial

/-- The route `GET /staff` forwards what is thrown in it. -/
theorem staffRoute_forwards (order : List StaffRow → List StaffRow) :
    Forwards (staffRoute order) := by
  unfold staffRoute
  apply forwards_of_straight
  intro _
  trivial

/-- The route `PATCH /staff/:id/deactivate` forwards what is thrown in it. -/
theorem deactivateRoute_forwards (thrown : Thrown) (reqUser : JwtPayload) (id : String) :
    Forwards (deactivateRoute thrown reqUser id) := by
  unfold deactivateRoute
  apply forwards_of_straight
  split_ifs
  · trivial
  · intro target
    cases target with
    | none => trivial
    | some t =>
      simp only
      split_ifs
      · trivial
      · intro _ _
        trivial

/-- The route `PATCH /staff/:id/reactivate` forwards what is thrown in it. -/
theorem reactivateRoute_forwards (thrown : Thrown) (id : String) :
    Forwards (reactivateRoute thrown id) := by
  unfold reactivateRoute
  apply forwards_of_straight
  intro rows
  simp only
  split
  · trivial
  · trivial

/-- On a database that answers every statement, the route `GET /me` sends the
reply of the handler `me` and leaves the store as it is. -/
theorem meRoute_of_me (db : Db) (user : JwtPayload) :
    (meRoute user).exec noFault 0 db .untouched = ⟨db, 1, .untouched, .sent (me db user)⟩ := by
  unfold meRoute me
  rw [exec_tryCatch_next]
  simp only [Prog.exec, noFault]
  cases findUserById db user.id <;> simp [Prog.exec, catchNext, errorReply]

/-- On an id without NUL and a database that answers every statement, the route
`PATCH /staff/:id/deactivate` runs as the handler `deactivate`. -/
theorem deactivateRoute_of_string (thrown : Thrown) (db : Db) (reqUser : JwtPayload)
    (id : String) (hid : textOk id = true) :
    (((deactivateRoute thrown reqUser id).exec noFault 0 db .untouched).db,
        ((deactivateRoute thrown reqUser id).exec noFault 0 db .untouched).ending)
      = (deactivate db reqUser id).asRun thrown := by
  unfold deactivateRoute deactivate
  rw [exec_tryCatch_next]
  by_cases h1 : id = reqUser.id
  · simp [h1, Prog.exec, catchNext, AdminStep.asRun, adminError, errorReply]
  · simp only [h1, if_false, Prog.exec, noFault, withTexts, List.all_cons, hid, List.all_nil,
      Bool.and_self, if_true]
    cases ht : db.users.find? (fun u => u.id == id) with
    | none => simp [Prog.exec, catchNext, AdminStep.asRun, adminError, errorReply]
    | some t =>
      by_cases h2 : t.role = "admin"
      · simp [h2, Prog.exec, catchNext, AdminStep.asRun, adminError, errorReply]
      · simp [h2, Prog.exec, catchNext, AdminStep.asRun, noFault, withTexts, hid,
          returningRows]

/-- On body fields without NUL and a database that answers every statement, the
route `POST /register` runs as the handler `register`. -/
theorem registerRoute_of_string (conflict : List UserRow → UserRow → Bool)
    (gen : UserDefaults) (thrown : Thrown) (hashedPassword : String) (db : Db)
    (reqUser : JwtPayload) (req : RegisterRequest)
    (hu : ∀ s, req.username = some s → textOk s = true)
    (he : ∀ s, req.email = some s → textOk s = true)
    (hf : ∀ s, req.full_name = some s → textOk s = true) :
    (((registerRoute conflict gen thrown hashedPassword reqUser req).exec
          noFault 0 db .untouched).db,
        ((registerRoute conflict gen thrown hashedPassword reqUser req).exec
          noFault 0 db .untouched).ending)
      = (register conflict gen hashedPassword db reqUser req).asRun thrown := by
  unfold registerRoute register
  rw [exec_tryCatch_next]
  dsimp only
  split
  · rename_i username email password hun hem hpw
    have hu1 : textOk username = true := by
      cases hq : req.username with
      | none => simp [hq, truthy] at hun
      | some s =>
        simp only [hq, truthy] at hun
        split_ifs at hun
        cases hun
        exact hu _ hq
    have he1 : textOk email = true := by
      cases hq : req.email with
      | none => simp [hq, truthy] at hem
      | some s =>
        simp only [hq, truthy] at hem
        split_ifs at hem
        cases hem
        exact he _ hq
    have hf1 : (req.full_name.toList).all textOk = true := by
      cases hq : req.full_name with
      | none => simp
      | some s => simp [hf s hq]
    split_ifs with c1 c2 c3 c4
    · simp [Prog.exec, catchNext, AdminStep.asRun, adminError, errorReply]
    · simp [Prog.exec, catchNext, AdminStep.asRun, adminError, errorReply]
    · simp [Prog.exec, catchNext, AdminStep.asRun, adminError, errorReply]
    · simp [Prog.exec, catchNext, AdminStep.asRun, adminError, errorReply]
    · simp only [Prog.exec, noFault, findUserByEmailQuery, JsValue.param, he1, if_true]
      cases hx : findUserByEmail db email with
      | some _ => simp [Prog.exec, catchNext, AdminStep.asRun, adminError, errorReply]
      | none =>
        simp only [Prog.exec, noFault, withTexts, List.all_cons, hu1, he1, hf1, Bool.and_self,
          if_true, createUserQuery]
        cases hc : createUser conflict gen db username email hashedPassword "staff"
            req.full_name none (some reqUser.id) with
        | error e => simp [Prog.exec, catchNext, AdminStep.asRun]
        | ok p =>
          obtain ⟨db1, user⟩ := p
          simp [Prog.exec, catchNext, AdminStep.asRun]
  · simp [Prog.exec, catchNext, AdminStep.asRun, adminError, errorReply]

/-- C7 (evaluation at the failing input). A logout whose cookie `refreshToken`
is not a string (the header `Cookie: refreshToken=j:{"a":1}` reaches the handler
as an object) is not answered 200: `hashToken` throws before any statement is
sent, the error is passed to `next` with the store unchanged and the cookie not
cleared, whatever the database does, and the client gets the reply of the
global error handler, status 500 with the generic message in production. The
same logout with the string cookie `s0` is answered 200 with the cookie
cleared. -/
theorem logoutRoute_object_cookie :
    (∀ (env : Env) (thrown : Thrown) (fail : Nat → Option ErrorObject) (db : Db)
        (text : String),
      (logoutRoute env thrown (.other true text)).exec fail 0 db .untouched
        = ⟨db, 0, .untouched, .forwarded thrown.hashArgument⟩) ∧
    (logoutRoute sampleEnv sampleThrown objectCookie).exec noFault 0 sampleDbSession .untouched
      = ⟨sampleDbSession, 0, .untouched, .forwarded sampleThrown.hashArgument⟩ ∧
    Exec.status Sent.status
      ((logoutRoute sampleEnv sampleThrown objectCookie).exec noFault 0 sampleDbSession
        .untouched) = some 500 ∧
    errorHandler true sampleThrown.hashArgument
      = ⟨500, false, "Something went wrong. Please try again later.", none⟩ ∧
    (logoutRoute sampleEnv sampleThrown (.str "s0")).exec noFault 0 sampleDbSession .untouched
      = ⟨{ sampleDbSession with refresh_tokens := [] }, 1, .cleared, .sent ⟨200, logoutBody⟩⟩ := by
  refine ⟨?_, by decide, by decide, by decide, by decide⟩
  intro env thrown fail db text
  unfold logoutRoute
  rw [exec_tryCatch_next]
  simp [jsTruthy, hashTokenJs, Prog.exec, catchNext]

/-- C15 (evaluation at the failing input). A refresh whose cookie
`refreshToken` is not a string (the header `Cookie: refreshToken=j:{"a":1}`
reaches the handler as an object) does not rotate and is not answered 401:
`hashToken` throws before any statement is sent, the error is passed to `next`
with the store unchanged and the cookie untouched, whatever the database does,
and the client gets the reply of the global error handler, status 500. -/
theorem refreshRoute_object_cookie :
    (∀ (env : Env) (schema : Schema) (thrown : Thrown) (fail : Nat → Option ErrorObject)
        (now : Timestamp) (newRawToken : String) (db : Db) (text : String)
        (ip ua : Option String),
      (refreshRoute env schema thrown now newRawToken (.other true text) ip ua).exec
          fail 0 db .untouched
        = ⟨db, 0, .untouched, .forwarded thrown.hashArgument⟩) ∧
    (refreshRoute sampleEnv ⟨true⟩ sampleThrown 10 "n" objectCookie none none).exec
        noFault 0 sampleDbSession .untouched
      = ⟨sampleDbSession, 0, .untouched, .forwarded sampleThrown.hashArgument⟩ ∧
    Exec.status Sent.status
      ((refreshRoute sampleEnv ⟨true⟩ sampleThrown 10 "n" objectCookie none none).exec
        noFault 0 sampleDbSession .untouched) = some 500 ∧
    Exec.status Sent.status
      ((refreshRoute sampleEnv ⟨true⟩ sampleThrown 10 "n" (.str "unknown") none none).exec
        noFault 0 sampleDbSession .untouched) = some 401 := by
  refine ⟨?_, by decide, by decide, by decide⟩
  intro env schema thrown fail now newRawToken db text ip ua
  unfold refreshRoute
  rw [exec_tryCatch_next]
  simp [jsTruthy, hashTokenJs, Prog.exec, catchNext]

/-- C11 (evaluation at the failing input). A login whose `password` field is
not a string (the JSON body carries the number `12345678`) tells an existing
email from an unknown one: for an email that locates no principal the reply is
401 with the message for invalid credentials, and for the email of an existing
active principal `bcrypt.compare` throws, the error is passed to `next` and the
client gets the reply of the global error handler, status 500. An email with
the character NUL, which locates no principal, is refused by the database and
answered 500 as well, whatever the password. In all these runs the store is
unchanged and no cookie is set. -/
theorem loginRoute_number_password :
    (∀ (env : Env) (schema : Schema) (thrown : Thrown) (now : Timestamp) (raw : String)
        (db : Db) (email text : String) (ip ua : Option String) (user : UserRow),
      email ≠ "" → textOk email = true → findUserByEmail db email = some user →
      (loginRoute env schema thrown now raw (.str email) (.other true text) ip ua).exec
          noFault 0 db .untouched
        = ⟨db, 1, .untouched, .forwarded thrown.compareArgument⟩) ∧
    (∀ (env : Env) (schema : Schema) (thrown : Thrown) (now : Timestamp) (raw : String)
        (db : Db) (email text : String) (ip ua : Option String),
      email ≠ "" → textOk email = true → findUserByEmail db email = none →
      (loginRoute env schema thrown now raw (.str email) (.other true text) ip ua).exec
          noFault 0 db .untouched
        = ⟨db, 1, .untouched, .sent ⟨401, errorBody "Invalid credentials"⟩⟩) ∧
    (∀ (env : Env) (schema : Schema) (thrown : Thrown) (now : Timestamp) (raw : String)
        (db : Db) (email : String) (password : JsValue) (ip ua : Option String),
      email ≠ "" → jsTruthy password = true → textOk email = false →
      (loginRoute env schema thrown now raw (.str email) password ip ua).exec
          noFault 0 db .untouched
        = ⟨db, 1, .untouched, .forwarded thrown.invalidText⟩) ∧
    Exec.status Sent.status
      ((loginRoute sampleEnv ⟨true⟩ sampleThrown 0 "s0" (.str "a@x.com") numberPassword
        none none).exec noFault 0 sampleDb .untouched) = some 500 ∧
    Exec.status Sent.status
      ((loginRoute sampleEnv ⟨true⟩ sampleThrown 0 "s0" (.str "nobody@x.com") numberPassword
        none none).exec noFault 0 sampleDb .untouched) = some 401 ∧
    findUserByEmail sampleDb "a@x.com" = some sampleUser ∧
    findUserByEmail sampleDb "nobody@x.com" = none := by
  refine ⟨?_, ?_, ?_, by decide, by decide, by decide, by decide⟩
  · intro env schema thrown now raw db email text ip ua user he hok hu
    unfold loginRoute
    rw [exec_tryCatch_next]
    simp [jsTruthy, he, Prog.exec, noFault, findUserByEmailQuery, JsValue.param, hok, hu,
      bcryptCompareJs, catchNext]
  · intro env schema thrown now raw db email text ip ua he hok hu
    unfold loginRoute
    rw [exec_tryCatch_next]
    simp [jsTruthy, he, Prog.exec, noFault, findUserByEmailQuery, JsValue.param, hok, hu,
      catchNext]
  · intro env schema thrown now raw db email password ip ua he hp hbad
    have h1 : (!jsTruthy (JsValue.str email) || !jsTruthy password) = false := by
      rw [hp]
      simp [jsTruthy, he]
    unfold loginRoute
    rw [exec_tryCatch_next]
    simp [h1, Prog.exec, noFault, findUserByEmailQuery, JsValue.param, hbad, catchNext]

/-- C22. Storage errors surface as Internal with the message suppressed in
production. An error without (truthy) `statusCode` and `status` is answered
with status 500; in production a reply of status 500 carries exactly the
generic message and no stack, whatever the message of the error; an exception
of the database driver or the runtime is answered with 500. Every route
handler of `auth.js` (login, register, staff list, deactivate, reactivate,
refresh, logout, me) forwards what is thrown in it: whatever the database does
and whatever the store and the request are, its run never ends with an
exception that left the handler, and when the database refuses a statement the
handler has sent, the run ends at that statement with that very error passed
to `next`. The same holds for the exceptions of the library calls and of the
statements themselves: `hashToken` on a cookie that is not a string (logout,
refresh), `bcrypt.compare` on a password that is not a string (login), a
refused INSERT (login, refresh, register) and the TypeError of refresh for a
missing owner all end the run with that error passed to `next`, the store and
the cookie being as the statements before the exception left them. -/
theorem errors_surface_as_internal :
    (∀ (isProd : Bool) (err : ErrorObject),
      truthyNat err.statusCode = none → truthyNat err.status = none →
      (errorHandler isProd err).status = 500) ∧
    (∀ err : ErrorObject, (errorHandler true err).status = 500 →
      (errorHandler true err).error = "Something went wrong. Please try again later." ∧
      (errorHandler true err).stack = none ∧ (errorHandler true err).success = false) ∧
    (∀ (isProd : Bool) (message stack : String),
      (errorHandler isProd (thrownError message stack)).status = 500) ∧
    (∀ (env : Env) (schema : Schema) (thrown : Thrown) (now : Timestamp) (raw : String)
        (email password : JsValue) (ip ua : Option String),
      Forwards (loginRoute env schema thrown now raw email password ip ua)) ∧
    (∀ (conflict : List UserRow → UserRow → Bool) (gen : UserDefaults) (thrown : Thrown)
        (hashedPassword : String) (reqUser : JwtPayload) (req : RegisterRequest),
      Forwards (registerRoute conflict gen thrown hashedPassword reqUser req)) ∧
    (∀ order : List StaffRow → List StaffRow, Forwards (staffRoute order)) ∧
    (∀ (thrown : Thrown) (reqUser : JwtPayload) (id : String),
      Forwards (deactivateRoute thrown reqUser id)) ∧
    (∀ (thrown : Thrown) (id : String), Forwards (reactivateRoute thrown id)) ∧
    (∀ (env : Env) (schema : Schema) (thrown : Thrown) (now : Timestamp) (raw : String)
        (rawToken : JsValue) (ip ua : Option String),
      Forwards (refreshRoute env schema thrown now raw rawToken ip ua)) ∧
    (∀ (env : Env) (thrown : Thrown) (rawToken : JsValue),
      Forwards (logoutRoute env thrown rawToken)) ∧
    (∀ user : JwtPayload, Forwards (meRoute user)) ∧
    (∀ (env : Env) (thrown : Thrown) (fail : Nat → Option ErrorObject) (db : Db)
        (text : String),
      (logoutRoute env thrown (.other true text)).exec fail 0 db .untouched
        = ⟨db, 0, .untouched, .forwarded thrown.hashArgument⟩) ∧
    (∀ (env : Env) (schema : Schema) (thrown : Thrown) (fail : Nat → Option ErrorObject)
        (now : Timestamp) (raw : String) (db : Db) (text : String) (ip ua : Option String),
      (refreshRoute env schema thrown now raw (.other true text) ip ua).exec
          fail 0 db .untouched
        = ⟨db, 0, .untouched, .forwarded thrown.hashArgument⟩) ∧
    (∀ (env : Env) (schema : Schema) (thrown : Thrown) (now : Timestamp) (raw : String)
        (db : Db) (email text : String) (ip ua : Option String) (user : UserRow),
      email ≠ "" → textOk email = true → findUserByEmail db email = some user →
      (loginRoute env schema thrown now raw (.str email) (.other true text) ip ua).exec
          noFault 0 db .untouched
        = ⟨db, 1, .untouched, .forwarded thrown.compareArgument⟩) ∧
    (∀ (env : Env) (schema : Schema) (thrown : Thrown) (now : Timestamp)
        (raw email password : String) (db : Db) (ip ua : Option String) (user : UserRow)
        (e : ServerError),
      email ≠ "" → password ≠ "" → textOk email = true →
      findUserByEmail db email = some user →
      env.bcryptCompare password user.password = true →
      insertRefreshToken schema db
        { user_id := user.id, token_hash := env.hashToken raw, ip := ip, user_agent := ua,
          expires_at := now + sevenDays } = .error e →
      (loginRoute env schema thrown now raw (.str email) (.str password) ip ua).exec
          noFault 0 db .untouched
        = ⟨db, 2, .untouched, .forwarded (thrown.ofServerError e)⟩) ∧
    (∀ (env : Env) (schema : Schema) (thrown : Thrown) (now : Timestamp) (s raw : String)
        (db : Db) (ip ua : Option String) (stored : RefreshToken) (e : ServerError),
      s ≠ "" → (selectActiveByHash db (env.hashToken s) now).head? = some stored →
      insertRefreshToken schema
        (deleteTokensByHash (insertRevoked db (env.hashToken s) stored.user_id now)
          (env.hashToken s))
        { user_id := stored.user_id, token_hash := env.hashToken raw, ip := ip,
          user_agent := ua, expires_at := now + sevenDays } = .error e →
      (refreshRoute env schema thrown now raw (.str s) ip ua).exec noFault 0 db .untouched
        = ⟨deleteTokensByHash (insertRevoked db (env.hashToken s) stored.user_id now)
            (env.hashToken s), 4, .untouched, .forwarded (thrown.ofServerError e)⟩) ∧
    (∀ (env : Env) (schema : Schema) (thrown : Thrown) (now : Timestamp) (s raw : String)
        (db db3 : Db) (ip ua : Option String) (stored : RefreshToken),
      s ≠ "" → (selectActiveByHash db (env.hashToken s) now).head? = some stored →
      insertRefreshToken schema
        (deleteTokensByHash (insertRevoked db (env.hashToken s) stored.user_id now)
          (env.hashToken s))
        { user_id := stored.user_id, token_hash := env.hashToken raw, ip := ip,
          user_agent := ua, expires_at := now + sevenDays } = .ok db3 →
      findUserById db3 stored.user_id = none →
      (refreshRoute env schema thrown now raw (.str s) ip ua).exec noFault 0 db .untouched
        = ⟨db3, 5, setRefreshCookie env raw, .forwarded thrown.undefinedUser⟩) ∧
    (∀ (conflict : List UserRow → UserRow → Bool) (gen : UserDefaults) (thrown : Thrown)
        (hashedPassword username email password : String) (db : Db) (reqUser : JwtPayload)
        (fullName role : Option String) (e : ServerError),
      username ≠ "" → email ≠ "" → password ≠ "" → emailFormatOk email = true →
      8 ≤ jsLength password → role.getD "staff" = "staff" →
      textOk username = true → textOk email = true →
      (∀ f, fullName = some f → textOk f = true) →
      findUserByEmail db email = none →
      createUser conflict gen db username email hashedPassword "staff" fullName none
        (some reqUser.id) = .error e →
      (registerRoute conflict gen thrown hashedPassword reqUser
          ⟨some username, some email, some password, fullName, role⟩).exec
          noFault 0 db .untouched
        = ⟨db, 2, .untouched, .forwarded (thrown.ofServerError e)⟩) := by
  refine ⟨?_, ?_, ?_, loginRoute_forwards, registerRoute_forwards, staffRoute_forwards,
    deactivateRoute_forwards, reactivateRoute_forwards, refreshRoute_forwards,
    logoutRoute_forwards, meRoute_forwards, ?_, ?_, ?_, ?_, ?_, ?_, ?_⟩
  · intro isProd err h1 h2
    simp [errorHandler, errorStatus, h1, h2]
  · intro err h
    simp only [errorHandler] at h ⊢
    simp [h]
  · intro isProd message stack
    simp [errorHandler, errorStatus, thrownError, truthyNat]
  · intro env thrown fail db text
    unfold logoutRoute
    rw [exec_tryCatch_next]
    simp [jsTruthy, hashTokenJs, Prog.exec, catchNext]
  · intro env schema thrown fail now raw db text ip ua
    unfold refreshRoute
    rw [exec_tryCatch_next]
    simp [jsTruthy, hashTokenJs, Prog.exec, catchNext]
  · intro env schema thrown now raw db email text ip ua user he hok hu
    unfold loginRoute
    rw [exec_tryCatch_next]
    simp [jsTruthy, he, Prog.exec, noFault, findUserByEmailQuery, JsValue.param, hok, hu,
      bcryptCompareJs, catchNext]
  · intro env schema thrown now raw email password db ip ua user e he hp hok hu hpw hins
    have hact : user.is_active = true := by
      have := List.find?_some hu
      simp only [Bool.and_eq_true] at this
      exact this.2
    unfold loginRoute
    rw [exec_tryCatch_next]
    simp [jsTruthy, he, hp, Prog.exec, noFault, findUserByEmailQuery, JsValue.param, hok, hu,
      bcryptCompareJs, hpw, hact, insertRefreshTokenQuery, hins, catchNext]
  · intro env schema thrown now s raw db ip ua stored e hs hsel hins
    unfold refreshRoute
    rw [exec_tryCatch_next]
    simp [jsTruthy, hs, hashTokenJs, Prog.exec, noFault, hsel, insertRefreshTokenQuery, hins,
      catchNext]
  · intro env schema thrown now s raw db db3 ip ua stored hs hsel hins hnone
    unfold refreshRoute
    rw [exec_tryCatch_next]
    simp [jsTruthy, hs, hashTokenJs, Prog.exec, noFault, hsel, insertRefreshTokenQuery, hins,
      hnone, catchNext]
  · intro conflict gen thrown hashedPassword username email password db reqUser fullName role e
      hu he hp hfmt hlen hrole htu hte htf hnone hins
    have hadmin : role.getD "staff" ≠ "admin" := by rw [hrole]; decide
    have hf1 : (fullName.toList).all textOk = true := by
      cases hq : fullName with
      | none => simp
      | some f => simp [htf f hq]
    unfold registerRoute
    rw [exec_tryCatch_next]
    simp [truthy_of_ne_empty hu, truthy_of_ne_empty he, truthy_of_ne_empty hp, hfmt,
      hrole, not_lt.mpr hlen, Prog.exec, noFault, findUserByEmailQuery, JsValue.param, hte,
      hnone, withTexts, htu, hf1, createUserQuery, hins, catchNext]

/-- The statement of C22 at a refresh of the sample session during which the
connection is lost at the fourth statement, the INSERT of the successor row:
the run ends there with that error passed to `next`, and the error handler
answers it with status 500. -/
theorem errors_surface_as_internal_witness :
    ((refreshRoute sampleEnv ⟨true⟩ sampleThrown 10 "n" (.str "s0") none none).exec
        (fun k => if k = 3 then some (thrownError "Connection terminated" "at Client") else none)
        0 sampleDbSession .untouched).ending
        = .forwarded (thrownError "Connection terminated" "at Client") ∧
      ((refreshRoute sampleEnv ⟨true⟩ sampleThrown 10 "n" (.str "s0") none none).exec
        (fun k => if k = 3 then some (thrownError "Connection terminated" "at Client") else none)
        0 sampleDbSession .untouched).queries = 3 + 1 ∧
      (errorHandler true (thrownError "Connection terminated" "at Client")).status = 500 :=
  ⟨((errors_surface_as_internal.2.2.2.2.2.2.2.2.1 sampleEnv ⟨true⟩ sampleThrown 10 "n"
        (.str "s0") none none
        (fun k => if k = 3 then some (thrownError "Connection terminated" "at Client") else none)
        sampleDbSession).2 3 (thrownError "Connection terminated" "at Client")
        (by decide) (by decide)).1,
    ((errors_surface_as_internal.2.2.2.2.2.2.2.2.1 sampleEnv ⟨true⟩ sampleThrown 10 "n"
        (.str "s0") none none
        (fun k => if k = 3 then some (thrownError "Connection terminated" "at Client") else none)
        sampleDbSession).2 3 (thrownError "Connection terminated" "at Client")
        (by decide) (by decide)).2,
    errors_surface_as_internal.2.2.1 true "Connection terminated" "at Client"⟩

end FitZone
